import Mathlib

/-!
# gotots: Go type graph to TypeScript interfaces

A shallow embedding of `collect.go`, `context.go` and `config.go`.

* `reflect.Type` values are identities (`TypeId`) into a finite table `Env` of descriptors,
  so that cyclic type graphs can be written down.
* A Go call either returns, panics, or (in the model) runs out of call depth: `Exec`.
  The fuel argument of the recursive functions bounds the depth of the call stack.
* `*Context` and `*StructInfo` are mutated in place by the source; the model threads them
  through every call and returns them also when the call fails.
* The writer is a `strings.Builder`: writes append to a string and never fail.
-/

namespace Gotots

/-! ## The type descriptor interface (`reflect`) -/

/-- Identity of a `reflect.Type`. -/
abbrev TypeId := Nat

/-- The kinds of `reflect.Kind`. -/
inductive Kind where
  | Invalid | Bool
  | Int | Int8 | Int16 | Int32 | Int64
  | Uint | Uint8 | Uint16 | Uint32 | Uint64 | Uintptr
  | Float32 | Float64 | Complex64 | Complex128
  | Array | Chan | Func | Interface | Map | Ptr | Slice | String | Struct | UnsafePointer
  deriving DecidableEq, Repr

/-- A `reflect.StructField`: `jsonTag` is `Tag.Get("json")`, `tstypeTag` is `Tag.Get("tstype")`. -/
structure StructField where
  Name : String
  Typ : TypeId
  Anonymous : Bool
  jsonTag : String
  tstypeTag : String
  deriving DecidableEq, Repr

/-- What `reflect` answers about one type. `elem` is read only for pointer, slice, array and
map kinds, `key` only for maps, `fields` only for structs; `str` is `t.String()`. -/
structure TypeDesc where
  kind : Kind
  pkgPath : String
  name : String
  str : String
  elem : TypeId
  key : TypeId
  fields : List StructField
  deriving DecidableEq, Repr

/-- The descriptor answered for an identity outside the table. -/
def TypeDesc.invalid : TypeDesc :=
  { kind := Kind.Invalid, pkgPath := "", name := "", str := "<invalid>", elem := 0, key := 0,
    fields := [] }

/-- The finite type graph of the host program. -/
structure Env where
  types : List TypeDesc
  deriving Repr

/-- The descriptor of a type. -/
def Env.desc (env : Env) (t : TypeId) : TypeDesc := env.types.getD t TypeDesc.invalid

/-- The method `t.Kind()`. -/
def Env.Kind (env : Env) (t : TypeId) : Kind := (env.desc t).kind

/-- The method `t.PkgPath()`. -/
def Env.PkgPath (env : Env) (t : TypeId) : String := (env.desc t).pkgPath

/-- The method `t.Name()`. -/
def Env.Name (env : Env) (t : TypeId) : String := (env.desc t).name

/-- The method `t.String()`. -/
def Env.Str (env : Env) (t : TypeId) : String := (env.desc t).str

/-- The method `t.Elem()`; every call in the source is under a kind test that makes it legal. -/
def Env.Elem (env : Env) (t : TypeId) : TypeId := (env.desc t).elem

/-- The method `t.Key()`; called on maps only. -/
def Env.Key (env : Env) (t : TypeId) : TypeId := (env.desc t).key

/-- The fields `t.Field(0) .. t.Field(t.NumField()-1)` of a struct type. -/
def Env.Fields (env : Env) (t : TypeId) : List StructField := (env.desc t).fields

/-! ## Results of a call -/

/-- A Go `error` value: `none` is `nil`. -/
abbrev Error := Option String

/-- How a call ends: it returns a value, panics, or exceeds the call depth allowed by the
fuel. -/
inductive Exec (α : Type) where
  | ret (a : α)
  | panic (msg : String)
  | timeout
  deriving DecidableEq, Repr

/-- A `for ... range` loop whose body may `return err`: the body returns `ret none` to go on
with the next element (also after `continue`), and anything else ends the loop with that
result. The state is returned in every case. -/
def forEach {σ α : Type} (body : σ → α → σ × Exec Error) : List α → σ → σ × Exec Error
  | [], s => (s, Exec.ret none)
  | x :: rest, s =>
    match body s x with
    | (s1, Exec.ret none) => forEach body rest s1
    | (s1, r) => (s1, r)

/-! ## Strings -/

/-- The call `strings.Repeat(s, n)` for `n ≥ 0`. -/
def strRepeat (s : String) : Nat → String
  | 0 => ""
  | n + 1 => s ++ strRepeat s n

/-- The expression `strings.Split(s, ",")[0]`: the part of `s` before its first comma. -/
def splitFirst (s : String) : String := String.mk (s.data.takeWhile (fun c => c != ','))

/-! ## `config.go` and `context.go` -/

/-- The struct `Config`; a `nil` function is `none`. -/
structure Config where
  FieldPackageNameToPrefix : Option (String → String)
  IndentWithTabs : Bool
  PackageNameForAnonymous : String

/-- The function literal installed by `Config.Init`, on text. Go indexes the string by bytes
(`defaultPrefixBytes` below); on characters the function is the same for a package path that
starts with an ASCII character, as every import path accepted by the `go` command does. -/
def defaultPrefix (pkg : String) : String :=
  if pkg = "" then ""
  else
    match pkg.data.map (fun c => if c = '/' then '_' else c) with
    | [] => ""
    | c :: cs => String.mk (c.toUpper :: cs) ++ "_"

/-- The bytes of `string(r)` for a rune `r`: its UTF-8 encoding. -/
def utf8EncodeRune (r : Nat) : List Nat :=
  if r < 0x80 then [r]
  else if r < 0x800 then [0xC0 + r / 64, 0x80 + r % 64]
  else if r < 0x10000 then [0xE0 + r / 4096, 0x80 + r / 64 % 64, 0x80 + r % 64]
  else [0xF0 + r / 262144, 0x80 + r / 4096 % 64, 0x80 + r / 64 % 64, 0x80 + r % 64]

/-- The bytes of the Go string that holds the text `s`. -/
def goBytes (s : String) : List Nat := s.data.flatMap (fun c => utf8EncodeRune c.toNat)

/-- The function `unicode.ToUpper` on the runes below 256, the values that `rune(prefix[0])`
can take: the letters `a` to `z`, the micro sign, and the small letters of Latin-1. -/
def toUpperByteRune (r : Nat) : Nat :=
  if 0x61 ≤ r ∧ r ≤ 0x7A then r - 0x20
  else if r = 0xB5 then 0x39C
  else if 0xE0 ≤ r ∧ r ≤ 0xFE ∧ r ≠ 0xF7 then r - 0x20
  else if r = 0xFF then 0x178
  else r

/-- The function literal installed by `Config.Init`, on the bytes of its argument:
`strings.Replace(pkg, "/", "_", -1)` replaces the byte `0x2F` by `0x5F`, `prefix[0]` is the
first byte, and the result is `string(unicode.ToUpper(rune(prefix[0]))) + prefix[1:] + "_"`. -/
def defaultPrefixBytes (pkg : List Nat) : List Nat :=
  if pkg = [] then []
  else
    match pkg.map (fun b => if b = 0x2F then 0x5F else b) with
    | [] => []
    | b :: rest => utf8EncodeRune (toUpperByteRune b) ++ (rest ++ [0x5F])

/-- The method `(*Config).Init`. -/
def Config.Init (cfg : Config) : Config :=
  match cfg.FieldPackageNameToPrefix with
  | none => { cfg with FieldPackageNameToPrefix := some defaultPrefix }
  | some _ => cfg

/-- Calling `ctx.config.FieldPackageNameToPrefix(pkg)`: a `nil` function panics. -/
def Config.callPrefix (cfg : Config) (pkg : String) : Exec String :=
  match cfg.FieldPackageNameToPrefix with
  | none => Exec.panic "invalid memory address or nil pointer dereference"
  | some f => Exec.ret (f pkg)

/-- The struct `StructFieldInfo`. -/
structure StructFieldInfo where
  Name : String
  Typ : TypeId
  CustomType : String
  JsonTag : String
  deriving DecidableEq, Repr

/-- The struct `StructInfo`. -/
structure StructInfo where
  Typ : TypeId
  Fields : List StructFieldInfo
  GeneratedName : String
  deriving DecidableEq, Repr

/-- The struct `Context`. `Cache` lists the keys of the map that hold `true`, the most recently
added first; `TypeNames` is the map as an association list read with `List.lookup`. -/
structure Context where
  Structs : List StructInfo
  Cache : List TypeId
  TypeNames : List (TypeId × String)
  config : Config
  customHeaders : List String

/-- The function `NewContext`. -/
def NewContext (cfg : Config) : Context :=
  { Structs := [], Cache := [], TypeNames := [], config := cfg, customHeaders := [] }

/-- The method `(*Context).AddCustomHeader`. -/
def Context.AddCustomHeader (ctx : Context) (header : String) : Context :=
  { ctx with customHeaders := ctx.customHeaders ++ [header] }

/-- The indentation unit chosen in `GoTypeToTSType` and `DescribeStruct`. -/
def Context.indent (ctx : Context) : String :=
  if ctx.config.IndentWithTabs then "\t" else "    "

/-! ## `collect.go` -/

/-- The step `if t.Kind() == reflect.Ptr { t = t.Elem() }`. -/
def Env.deref (env : Env) (t : TypeId) : TypeId :=
  if env.Kind t = Kind.Ptr then env.Elem t else t

/-- The test `elemType.Kind() == reflect.Struct && elemType.Name() == ""`. -/
def Env.isAnonStruct (env : Env) (t : TypeId) : Bool :=
  env.Kind t == Kind.Struct && env.Name t == ""

/-- The name path handed on by `CollectFields` for a field that is collected. -/
def fieldNamePath (env : Env) (namePath : List String) (field : StructField) : List String :=
  match env.Kind field.Typ with
  | Kind.Struct => if env.Name field.Typ = "" then namePath ++ [field.Name] else namePath
  | Kind.Slice | Kind.Array | Kind.Ptr | Kind.Map =>
    if env.isAnonStruct (env.Elem field.Typ) then namePath ++ [field.Name] else namePath
  | _ => namePath

/-- The test of `CollectFields` that sends an embedded field to flattening: the field is
embedded, of struct or pointer kind, and its `json` tag is empty or exactly `"-"`. -/
def CollectFields.flattens (env : Env) (field : StructField) : Bool :=
  field.Anonymous && (env.Kind field.Typ == Kind.Struct || env.Kind field.Typ == Kind.Ptr)
    && !(field.jsonTag != "" && field.jsonTag != "-")

/-- The value given to `sfield.JsonTag`: the first comma-separated part of a non-empty tag. -/
def fieldJsonTag (jsonTag : String) : String :=
  if jsonTag ≠ "" then splitFirst jsonTag else ""

/-- The `StructFieldInfo` built by `CollectFields` for a field. -/
def CollectFields.sfield (field : StructField) : StructFieldInfo :=
  { Name := field.Name, Typ := field.Typ, CustomType := field.tstypeTag,
    JsonTag := fieldJsonTag field.jsonTag }

/-- The statement `sinfo.Fields = append(sinfo.Fields, sfield)`. -/
def StructInfo.push (sinfo : StructInfo) (sfield : StructFieldInfo) : StructInfo :=
  { sinfo with Fields := sinfo.Fields ++ [sfield] }

/-- The body of the loop of `CollectFields` for one field; `collectType` and `collectFields`
are the two recursive calls. -/
def CollectFields.field (env : Env)
    (collectType : Context → TypeId → List String → Context × Exec Error)
    (collectFields : Context → StructInfo → TypeId → List String →
      (Context × StructInfo) × Exec Error)
    (namePath : List String) (st : Context × StructInfo) (field : StructField) :
    (Context × StructInfo) × Exec Error :=
  if CollectFields.flattens env field = true then
    collectFields st.1 st.2 field.Typ namePath
  else if (CollectFields.sfield field).JsonTag = "-" then (st, Exec.ret none)
  else if (CollectFields.sfield field).CustomType = "" then
    match collectType st.1 field.Typ (fieldNamePath env namePath field) with
    | (ctx1, Exec.ret none) => ((ctx1, st.2.push (CollectFields.sfield field)), Exec.ret none)
    | (ctx1, r) => ((ctx1, st.2), r)
  else ((st.1, st.2.push (CollectFields.sfield field)), Exec.ret none)

mutual

/-- The function `CollectType`. -/
def CollectType : Nat → Env → Context → TypeId → List String → Context × Exec Error
  | 0, _, ctx, _, _ => (ctx, Exec.timeout)
  | fuel + 1, env, ctx, t, namePath =>
    if t ∈ ctx.Cache then (ctx, Exec.ret none)
    else
      let ctx1 : Context := { ctx with Cache := t :: ctx.Cache }
      match env.Kind t with
      | Kind.Ptr | Kind.Slice | Kind.Array =>
        CollectType fuel env ctx1 (env.Elem t)
          (if env.isAnonStruct (env.Elem t) then namePath ++ ["Elem"] else namePath)
      | Kind.Map =>
        match CollectType fuel env ctx1 (env.Key t) namePath with
        | (ctx2, Exec.ret none) =>
          CollectType fuel env ctx2 (env.Elem t)
            (if env.isAnonStruct (env.Elem t) then namePath ++ ["Elem"] else namePath)
        | (ctx2, r) => (ctx2, r)
      | Kind.Struct =>
        if env.Name t = "" then (ctx1, Exec.ret none)
        else
          let pkg := if env.PkgPath t = "" then ctx1.config.PackageNameForAnonymous
            else env.PkgPath t
          match ctx1.config.callPrefix pkg with
          | Exec.ret pkgPrefix =>
            let name := pkgPrefix ++ env.Name t
            let ctx2 : Context := { ctx1 with TypeNames := (t, name) :: ctx1.TypeNames }
            match CollectFields fuel env ctx2 { Typ := t, Fields := [], GeneratedName := name }
                t namePath with
            | ((ctx3, sinfo), Exec.ret none) =>
              ({ ctx3 with Structs := ctx3.Structs ++ [sinfo] }, Exec.ret none)
            | ((ctx3, _), r) => (ctx3, r)
          | Exec.panic msg => (ctx1, Exec.panic msg)
          | Exec.timeout => (ctx1, Exec.timeout)
      | _ => (ctx1, Exec.ret none)

/-- The function `CollectFields`; `sinfo` is the record behind the pointer. `t.NumField()`
panics when `t` is not a struct. -/
def CollectFields : Nat → Env → Context → StructInfo → TypeId → List String →
    (Context × StructInfo) × Exec Error
  | 0, _, ctx, sinfo, _, _ => ((ctx, sinfo), Exec.timeout)
  | fuel + 1, env, ctx, sinfo, t, namePath =>
    if env.Kind (env.deref t) = Kind.Struct then
      forEach (CollectFields.field env (CollectType fuel env) (CollectFields fuel env) namePath)
        (env.Fields (env.deref t)) (ctx, sinfo)
    else ((ctx, sinfo), Exec.panic "reflect: NumField of non-struct type")

end

/-- The body of the loop of `Collect` for one root: the dynamic type of the value passed,
`none` for a `nil` interface value, on which `tyof.PkgPath()` panics. -/
def Collect.root (fuel : Nat) (env : Env) (ctx : Context) (root : Option TypeId) :
    Context × Exec Error :=
  match root with
  | none => (ctx, Exec.panic "invalid memory address or nil pointer dereference")
  | some ty =>
    if env.PkgPath (env.deref ty) = "" then
      (ctx, Exec.ret (some "anonymous types are not supported for root type"))
    else
      match ctx.config.callPrefix (env.PkgPath (env.deref ty)) with
      | Exec.ret pkgPrefix =>
        CollectType fuel env ctx (env.deref ty) [pkgPrefix ++ env.Name (env.deref ty)]
      | Exec.panic msg => (ctx, Exec.panic msg)
      | Exec.timeout => (ctx, Exec.timeout)

/-- The function `Collect`. -/
def Collect (fuel : Nat) (env : Env) (ctx : Context) (roots : List (Option TypeId)) :
    Context × Exec Error :=
  forEach (Collect.root fuel env) roots ctx

/-- The function `GoTypeToTsTypeMapKey`. -/
def GoTypeToTsTypeMapKey (env : Env) (t : TypeId) : String × Error :=
  match env.Kind t with
  | Kind.Int | Kind.Int8 | Kind.Int16 | Kind.Int32
  | Kind.Uint | Kind.Uint8 | Kind.Uint16 | Kind.Uint32
  | Kind.Float32 | Kind.Float64 => ("number", none)
  | Kind.String | Kind.Int64 | Kind.Uint64 => ("string", none)
  | _ => ("", some ("unsupported map key type " ++ env.Str t))

/-- The body of the loop of `GoTypeToTSType` over the fields of an anonymous struct;
`mapType` is the recursive call at `depth+1`, whose error is discarded. -/
def GoTypeToTSType.field
    (mapType : Context → TypeId → Context × Exec (String × Bool × Error))
    (linePrefix : String) (st : Context × String) (field : StructFieldInfo) :
    (Context × String) × Exec Error :=
  match mapType st.1 field.Typ with
  | (ctx1, Exec.ret (fieldType, isOptional, _)) =>
    let optionalMark := if isOptional then "?" else ""
    let name := if field.JsonTag ≠ "" then field.JsonTag else field.Name
    ((ctx1, st.2 ++ (linePrefix ++ name ++ optionalMark ++ ": " ++ fieldType ++ ";\n")),
      Exec.ret none)
  | (ctx1, Exec.panic msg) => ((ctx1, st.2), Exec.panic msg)
  | (ctx1, Exec.timeout) => ((ctx1, st.2), Exec.timeout)

/-- The function `GoTypeToTSType`, returning `(ty, isOptional, err)`. -/
def GoTypeToTSType : Nat → Env → Context → TypeId → Bool → Nat →
    Context × Exec (String × Bool × Error)
  | 0, _, ctx, _, _, _ => (ctx, Exec.timeout)
  | fuel + 1, env, ctx, t, fromPtr, depth =>
    let indent := ctx.indent
    match env.Kind t with
    | Kind.Struct =>
      if env.Name t = "" then
        match CollectFields fuel env ctx { Typ := t, Fields := [], GeneratedName := "" } t [] with
        | ((ctx1, sinfo), Exec.ret none) =>
          match forEach (GoTypeToTSType.field
              (fun c ft => GoTypeToTSType fuel env c ft false (depth + 1))
              (strRepeat indent (depth + 1))) sinfo.Fields (ctx1, "\x7b\n") with
          | ((ctx2, structDef), Exec.ret _) =>
            (ctx2, Exec.ret (structDef ++ (strRepeat indent depth ++ "\x7d"), fromPtr, none))
          | ((ctx2, _), Exec.panic msg) => (ctx2, Exec.panic msg)
          | ((ctx2, _), Exec.timeout) => (ctx2, Exec.timeout)
        | ((ctx1, _), Exec.ret (some err)) => (ctx1, Exec.ret ("", false, some err))
        | ((ctx1, _), Exec.panic msg) => (ctx1, Exec.panic msg)
        | ((ctx1, _), Exec.timeout) => (ctx1, Exec.timeout)
      else
        match ctx.TypeNames.lookup t with
        | some name => (ctx, Exec.ret (name, fromPtr, none))
        | none => (ctx, Exec.ret ("any", fromPtr, none))
    | Kind.Int | Kind.Int8 | Kind.Int16 | Kind.Int32
    | Kind.Uint | Kind.Uint8 | Kind.Uint16 | Kind.Uint32
    | Kind.Float32 | Kind.Float64 => (ctx, Exec.ret ("number", fromPtr, none))
    | Kind.Int64 | Kind.Uint64 => (ctx, Exec.ret ("bigint", fromPtr, none))
    | Kind.String => (ctx, Exec.ret ("string", fromPtr, none))
    | Kind.Bool => (ctx, Exec.ret ("boolean", fromPtr, none))
    | Kind.Ptr => GoTypeToTSType fuel env ctx (env.Elem t) true depth
    | Kind.Array | Kind.Slice =>
      match GoTypeToTSType fuel env ctx (env.Elem t) false depth with
      | (ctx1, Exec.ret (elemType, _, none)) => (ctx1, Exec.ret (elemType ++ "[]", true, none))
      | (ctx1, Exec.ret (_, _, some err)) => (ctx1, Exec.ret ("", true, some err))
      | (ctx1, Exec.panic msg) => (ctx1, Exec.panic msg)
      | (ctx1, Exec.timeout) => (ctx1, Exec.timeout)
    | Kind.Map =>
      match GoTypeToTsTypeMapKey env (env.Key t) with
      | (_, some err) => (ctx, Exec.ret ("", false, some err))
      | (keyType, none) =>
        match GoTypeToTSType fuel env ctx (env.Elem t) false depth with
        | (ctx1, Exec.ret (elemType, isOptional, none)) =>
          if isOptional then
            (ctx1, Exec.ret ("\x7b [key: " ++ keyType ++ "]: (" ++ elemType ++ " | undefined) \x7d",
              fromPtr, none))
          else
            (ctx1, Exec.ret ("\x7b [key: " ++ keyType ++ "]: " ++ elemType ++ " \x7d",
              fromPtr, none))
        | (ctx1, Exec.ret (_, _, some err)) => (ctx1, Exec.ret ("", false, some err))
        | (ctx1, Exec.panic msg) => (ctx1, Exec.panic msg)
        | (ctx1, Exec.timeout) => (ctx1, Exec.timeout)
    | _ => (ctx, Exec.ret ("any", fromPtr, none))

/-- The body of the loop of `DescribeStruct` for one field: the state is the context and the
text written so far. -/
def DescribeStruct.field (fuel : Nat) (env : Env) (st : Context × String)
    (field : StructFieldInfo) : (Context × String) × Exec Error :=
  match (if field.CustomType = "" then GoTypeToTSType fuel env st.1 field.Typ false 1
      else (st.1, Exec.ret (field.CustomType, false, none))) with
  | (ctx1, Exec.ret (tstype, isOptional, none)) =>
    let fieldName := if field.JsonTag ≠ "" then field.JsonTag else field.Name
    let optionalMark := if isOptional then "?" else ""
    ((ctx1, st.2 ++ (ctx1.indent ++ fieldName ++ optionalMark ++ ": " ++ tstype ++ ";\n")),
      Exec.ret none)
  | (ctx1, Exec.ret (_, _, some err)) => ((ctx1, st.2), Exec.ret (some err))
  | (ctx1, Exec.panic msg) => ((ctx1, st.2), Exec.panic msg)
  | (ctx1, Exec.timeout) => ((ctx1, st.2), Exec.timeout)

/-- The function `DescribeStruct`, writing to `w`. -/
def DescribeStruct (fuel : Nat) (env : Env) (ctx : Context) (w : String) (s : StructInfo) :
    (Context × String) × Exec Error :=
  match forEach (DescribeStruct.field fuel env) s.Fields
      (ctx, w ++ ("export interface " ++ s.GeneratedName ++ " \x7b\n")) with
  | ((ctx1, w1), Exec.ret none) => ((ctx1, w1 ++ "\x7d\n"), Exec.ret none)
  | r => r

/-- The first part of `WriteFromContext`: every custom header on a line of its own, then an
empty line when there is at least one header. -/
def WriteFromContext.headers (ctx : Context) (w : String) : String :=
  let w1 := ctx.customHeaders.foldl (fun acc header => acc ++ (header ++ "\n")) w
  if ctx.customHeaders.length > 0 then w1 ++ "\n" else w1

/-- The body of the second loop of `WriteFromContext`: the declaration block of one record and
an empty line. -/
def WriteFromContext.block (fuel : Nat) (env : Env) (st : Context × String)
    (sinfo : StructInfo) : (Context × String) × Exec Error :=
  match DescribeStruct fuel env st.1 st.2 sinfo with
  | ((ctx1, w1), Exec.ret none) => ((ctx1, w1 ++ "\n"), Exec.ret none)
  | r => r

/-- The function `WriteFromContext`, writing to `w`. The loop ranges over `ctx.Structs` as it
is when the loop starts. -/
def WriteFromContext (fuel : Nat) (env : Env) (ctx : Context) (w : String) :
    (Context × String) × Exec Error :=
  forEach (WriteFromContext.block fuel env) ctx.Structs (ctx, WriteFromContext.headers ctx w)

/-! ## Vocabulary of the statements -/

/-- What a call may do to the context: configuration and headers are kept, the cache only
gains members, the names of types already in the cache are kept, and `Structs` gains entries
at its end, each for a type that was not in the cache before, no type twice, and each named in
`TypeNames` by its own `GeneratedName`. -/
structure Grows (c c1 : Context) : Prop where
  config : c1.config = c.config
  headers : c1.customHeaders = c.customHeaders
  cache : c.Cache ⊆ c1.Cache
  names : ∀ k ∈ c.Cache, c1.TypeNames.lookup k = c.TypeNames.lookup k
  structs : ∃ new, c1.Structs = c.Structs ++ new ∧ (new.map StructInfo.Typ).Nodup ∧
    ∀ s ∈ new, s.Typ ∉ c.Cache ∧ s.Typ ∈ c1.Cache ∧
      c1.TypeNames.lookup s.Typ = some s.GeneratedName

/-- What `CollectFields` may do to the record behind `sinfo`: only append fields. -/
structure SameHead (s s1 : StructInfo) : Prop where
  typ : s1.Typ = s.Typ
  name : s1.GeneratedName = s.GeneratedName
  fields : ∃ added, s1.Fields = s.Fields ++ added

/-- The relation kept on the pair of context and struct record by `CollectFields`. -/
def FieldsStep (a b : Context × StructInfo) : Prop := Grows a.1 b.1 ∧ SameHead a.2 b.2

/-- The invariant of a context: no type has two entries in `Structs`, every entry's type is in
the cache, and `TypeNames` maps it to the entry's generated name. -/
def Inv (ctx : Context) : Prop :=
  (ctx.Structs.map StructInfo.Typ).Nodup ∧
  ∀ s ∈ ctx.Structs, s.Typ ∈ ctx.Cache ∧ ctx.TypeNames.lookup s.Typ = some s.GeneratedName

/-- The contexts that the exported functions can produce from a new context, whatever the
outcome of each call. -/
inductive Reached (env : Env) : Context → Prop where
  | new (cfg : Config) : Reached env (NewContext cfg)
  | header {ctx : Context} (h : String) : Reached env ctx → Reached env (ctx.AddCustomHeader h)
  | collect {ctx : Context} (fuel : Nat) (roots : List (Option TypeId)) :
      Reached env ctx → Reached env (Collect fuel env ctx roots).1
  | collectType {ctx : Context} (fuel : Nat) (t : TypeId) (np : List String) :
      Reached env ctx → Reached env (CollectType fuel env ctx t np).1
  | write {ctx : Context} (fuel : Nat) (w : String) :
      Reached env ctx → Reached env (WriteFromContext fuel env ctx w).1.1

/-- The mapping table of the specification for the primitive kinds. -/
def specPrimitiveExpr : Kind → Option String
  | Kind.Int | Kind.Int8 | Kind.Int16 | Kind.Int32
  | Kind.Uint | Kind.Uint8 | Kind.Uint16 | Kind.Uint32
  | Kind.Float32 | Kind.Float64 => some "number"
  | Kind.Int64 | Kind.Uint64 => some "bigint"
  | Kind.String => some "string"
  | Kind.Bool => some "boolean"
  | _ => none

/-- A type that is, at its top level, a pointer, a slice or an array. -/
def Env.isPtrSliceArray (env : Env) (t : TypeId) : Bool :=
  env.Kind t == Kind.Ptr || env.Kind t == Kind.Slice || env.Kind t == Kind.Array

/-- The optional marker of the specification as the code applies it: `"?"` for a field without
custom-type override whose type is a pointer, a slice or an array. -/
def specOptionalMark (env : Env) (field : StructFieldInfo) : String :=
  if field.CustomType = "" ∧ env.isPtrSliceArray field.Typ = true then "?" else ""

/-- A field line `<indent><name><mark>: <expression>;` with the marker of `specOptionalMark`. -/
def specFieldLine (env : Env) (indent : String) (field : StructFieldInfo) (expr : String) :
    String :=
  indent ++ (if field.JsonTag ≠ "" then field.JsonTag else field.Name) ++
    specOptionalMark env field ++ ": " ++ expr ++ ";\n"

/-- The concatenation of a list of lines. -/
def concatLines : List String → String
  | [] => ""
  | l :: ls => l ++ concatLines ls

/-- Field `f` is among the fields that the loop of `CollectFields` on `t` treats as ordinary
fields and does not exclude: a field of the record itself that is not flattened and whose
external name is not `"-"`, or such a field of a flattened embedded field. -/
inductive FlatField (env : Env) : TypeId → StructField → Prop where
  | own {t : TypeId} {f : StructField} :
      env.Kind (env.deref t) = Kind.Struct → f ∈ env.Fields (env.deref t) →
      CollectFields.flattens env f = false → (CollectFields.sfield f).JsonTag ≠ "-" →
      FlatField env t f
  | embedded {t : TypeId} {e f : StructField} :
      env.Kind (env.deref t) = Kind.Struct → e ∈ env.Fields (env.deref t) →
      CollectFields.flattens env e = true → FlatField env e.Typ f → FlatField env t f

/-- The steps along which `CollectType` walks the type graph: from a pointer, slice or array to
its element, from a map to its key and to its element, and from a named record to the type of
each of its collected fields that has no custom-type override. Anonymous records have no
step. -/
inductive Edge (env : Env) : TypeId → TypeId → Prop where
  | elem {a : TypeId} :
      env.Kind a = Kind.Ptr ∨ env.Kind a = Kind.Slice ∨ env.Kind a = Kind.Array →
      Edge env a (env.Elem a)
  | mapKey {a : TypeId} : env.Kind a = Kind.Map → Edge env a (env.Key a)
  | mapElem {a : TypeId} : env.Kind a = Kind.Map → Edge env a (env.Elem a)
  | field {a : TypeId} {f : StructField} :
      env.Kind a = Kind.Struct → env.Name a ≠ "" → FlatField env a f → f.tstypeTag = "" →
      Edge env a f.Typ

/-- Every type that entered the cache between `c` and `c1` has all its steps inside the cache
of `c1`, and has an entry in `Structs` when it is a named record. -/
def Closed (env : Env) (c c1 : Context) : Prop :=
  ∀ x ∈ c1.Cache, x ∉ c.Cache →
    (∀ y, Edge env x y → y ∈ c1.Cache) ∧
    (env.Kind x = Kind.Struct → env.Name x ≠ "" → ∃ s ∈ c1.Structs, s.Typ = x)

/-- What a normal end of the loop body of `CollectFields` on `field` leaves in the cache. -/
def FieldDone (env : Env) (field : StructField) (c : Context) : Prop :=
  (CollectFields.flattens env field = true →
    ∀ g, FlatField env field.Typ g → g.tstypeTag = "" → g.Typ ∈ c.Cache) ∧
  (CollectFields.flattens env field = false → (CollectFields.sfield field).JsonTag ≠ "-" →
    field.tstypeTag = "" → field.Typ ∈ c.Cache)

/-- Reachability in one step as the specification words it: through pointer, slice and array
elements, map keys and values, and the non-excluded, non-overridden fields of records, named
or anonymous, embedded or not. -/
def SpecEdge (env : Env) (a b : TypeId) : Prop :=
  ((env.Kind a = Kind.Ptr ∨ env.Kind a = Kind.Slice ∨ env.Kind a = Kind.Array) ∧
    b = env.Elem a) ∨
  (env.Kind a = Kind.Map ∧ (b = env.Key a ∨ b = env.Elem a)) ∨
  (env.Kind a = Kind.Struct ∧
    ∃ f ∈ env.Fields a, (CollectFields.sfield f).JsonTag ≠ "-" ∧ f.tstypeTag = "" ∧ b = f.Typ)

/-- The number of types of the table that are not in the cache. -/
def Env.uncached (env : Env) (cache : List TypeId) : Nat :=
  (List.range env.types.length).countP (fun t => decide (t ∉ cache))

/-- Flattening is well founded: `rk` is bounded by `R` on the table and decreases from a record
to the record behind each of its flattened embedded fields. -/
structure EmbedRanked (env : Env) (rk : TypeId → Nat) (R : Nat) : Prop where
  bound : ∀ i < env.types.length, rk i ≤ R
  decr : ∀ i < env.types.length, ∀ e ∈ env.Fields i,
    CollectFields.flattens env e = true → rk (env.deref e.Typ) < rk i

/-- The named record types of the cache in the order in which they were first visited. -/
def firstVisitOrder (env : Env) (ctx : Context) : List TypeId :=
  ctx.Cache.reverse.filter (fun t => env.Kind t == Kind.Struct && env.Name t != "")

/-- The map-key table of the specification: the numeric family, the string family. -/
def specMapKeyExpr : Kind → Option String
  | Kind.Int | Kind.Int8 | Kind.Int16 | Kind.Int32
  | Kind.Uint | Kind.Uint8 | Kind.Uint16 | Kind.Uint32
  | Kind.Float32 | Kind.Float64 => some "number"
  | Kind.String | Kind.Int64 | Kind.Uint64 => some "string"
  | _ => none

/-- The header part of the output as the specification words it: each custom header followed
by a newline, then one empty line when there is at least one header. -/
def specHeaders (headers : List String) : String :=
  concatLines (headers.map (fun h => h ++ "\n")) ++ (if headers.length > 0 then "\n" else "")

/-- A declaration block as the specification words it, followed by its empty line: the opening
line, one line a field, the closing line, an empty line. -/
def specBlock (env : Env) (indent : String) (s : StructInfo) (exprs : List String) : String :=
  "export interface " ++ s.GeneratedName ++ " \x7b\n" ++
    concatLines (List.zipWith (specFieldLine env indent) s.Fields exprs) ++ "\x7d\n" ++ "\n"

/-- The entry expected in `Structs` for a named record all of whose fields have a primitive
kind: one field for each field that is not excluded, in declaration order, under the name
made of the package prefix and the type name. -/
def specFlatEntry (env : Env) (pfx : String → String) (t : TypeId) : StructInfo :=
  { Typ := t,
    Fields := ((env.Fields t).filter (fun g => fieldJsonTag g.jsonTag != "-")).map
      CollectFields.sfield,
    GeneratedName := pfx (env.PkgPath t) ++ env.Name t }

/-- The type expressions expected for fields of primitive kind: the custom-type override, or
the expression of the table (`"any"` stands for a kind outside the table). -/
def specFlatExprs (env : Env) (fields : List StructFieldInfo) : List String :=
  fields.map (fun g =>
    if g.CustomType = "" then (specPrimitiveExpr (env.Kind g.Typ)).getD "any" else g.CustomType)

/-- One step of `specPostOrderFields`: a flattened embedded field is traversed in place, an
excluded or overridden field is passed over, and the type of any other field is visited. The
state is the set of visited types and the record types listed so far. -/
def specPostOrder.field (env : Env)
    (visit fields : List TypeId → TypeId → List TypeId × List TypeId)
    (st : List TypeId × List TypeId) (f : StructField) : List TypeId × List TypeId :=
  if CollectFields.flattens env f = true then
    ((fields st.1 f.Typ).1, st.2 ++ (fields st.1 f.Typ).2)
  else if (CollectFields.sfield f).JsonTag = "-" then st
  else if f.tstypeTag = "" then ((visit st.1 f.Typ).1, st.2 ++ (visit st.1 f.Typ).2)
  else st

mutual

/-- Depth-first traversal from `t` with the set `seen` of visited types: the visited set after
the traversal and the named record types in the order in which the traversal completes them
(post-order): a named record is listed after everything first visited below its fields. -/
def specPostOrder : Nat → Env → List TypeId → TypeId → List TypeId × List TypeId
  | 0, _, seen, _ => (seen, [])
  | fuel + 1, env, seen, t =>
    if t ∈ seen then (seen, [])
    else
      match env.Kind t with
      | Kind.Ptr | Kind.Slice | Kind.Array => specPostOrder fuel env (t :: seen) (env.Elem t)
      | Kind.Map =>
        ((specPostOrder fuel env (specPostOrder fuel env (t :: seen) (env.Key t)).1
            (env.Elem t)).1,
          (specPostOrder fuel env (t :: seen) (env.Key t)).2 ++
            (specPostOrder fuel env (specPostOrder fuel env (t :: seen) (env.Key t)).1
              (env.Elem t)).2)
      | Kind.Struct =>
        if env.Name t = "" then (t :: seen, [])
        else
          ((specPostOrderFields fuel env (t :: seen) t).1,
            (specPostOrderFields fuel env (t :: seen) t).2 ++ [t])
      | _ => (t :: seen, [])

/-- The traversal of the fields of a record, in declaration order. -/
def specPostOrderFields : Nat → Env → List TypeId → TypeId → List TypeId × List TypeId
  | 0, _, seen, _ => (seen, [])
  | fuel + 1, env, seen, t =>
    (env.Fields (env.deref t)).foldl
      (specPostOrder.field env (specPostOrder fuel env) (specPostOrderFields fuel env))
      (seen, [])

end

/-- The traversal of the roots in the order given. -/
def specPostOrderRoots (fuel : Nat) (env : Env) (seen : List TypeId)
    (roots : List (Option TypeId)) : List TypeId × List TypeId :=
  roots.foldl (fun st root =>
    match root with
    | some ty =>
      ((specPostOrder fuel env st.1 (env.deref ty)).1,
        st.2 ++ (specPostOrder fuel env st.1 (env.deref ty)).2)
    | none => st) (seen, [])

/-- The type expression that `DescribeStruct` is to write for a field when the context is `c`:
the custom-type override, or the expression that the mapper returns for the type of the
field in `c`. -/
def specFieldExpr (fuel : Nat) (env : Env) (c : Context) (g : StructFieldInfo) : String :=
  if g.CustomType = "" then
    match (GoTypeToTSType fuel env c g.Typ false 1).2 with
    | Exec.ret (e, _, _) => e
    | _ => ""
  else g.CustomType

/-- The context in which the next field is written: the one the mapper leaves. -/
def specFieldCtx (fuel : Nat) (env : Env) (c : Context) (g : StructFieldInfo) : Context :=
  if g.CustomType = "" then (GoTypeToTSType fuel env c g.Typ false 1).1 else c

/-- The type expressions of the fields of a record, each mapped in the context left by the
fields before it. -/
def specExprs (fuel : Nat) (env : Env) : Context → List StructFieldInfo → List String
  | _, [] => []
  | c, g :: gs => specFieldExpr fuel env c g :: specExprs fuel env (specFieldCtx fuel env c g) gs

/-- The type expressions of the fields of a list of records, written one after the other. -/
def specExprss (fuel : Nat) (env : Env) : Context → List StructInfo → List (List String)
  | _, [] => []
  | c, s :: ss =>
    specExprs fuel env c s.Fields ::
      specExprss fuel env (s.Fields.foldl (specFieldCtx fuel env) c) ss

/-! ## Type graphs used as examples -/

/-- A descriptor of a predeclared type. -/
def basicType (k : Kind) (name : String) : TypeDesc :=
  { kind := k, pkgPath := "", name := name, str := name, elem := 0, key := 0, fields := [] }

/-- A descriptor of an unnamed pointer, slice, array or map type. -/
def compositeType (k : Kind) (str : String) (key elem : TypeId) : TypeDesc :=
  { kind := k, pkgPath := "", name := "", str := str, elem := elem, key := key, fields := [] }

/-- A descriptor of a struct type; anonymous when `name` is empty. -/
def structType (pkg name : String) (fields : List StructField) : TypeDesc :=
  { kind := Kind.Struct, pkgPath := pkg, name := name,
    str := if name = "" then "struct \x7b ... \x7d" else pkg ++ "." ++ name,
    elem := 0, key := 0, fields := fields }

/-- A field that is not embedded. -/
def plainField (name : String) (t : TypeId) (json : String) : StructField :=
  { Name := name, Typ := t, Anonymous := false, jsonTag := json, tstypeTag := "" }

/-- An embedded field. -/
def embeddedField (name : String) (t : TypeId) (json : String) : StructField :=
  { Name := name, Typ := t, Anonymous := true, jsonTag := json, tstypeTag := "" }

/-- The configuration of the tests after `Init`: default prefix function, tabs. -/
def testConfig : Config :=
  Config.Init
    { FieldPackageNameToPrefix := none, IndentWithTabs := true, PackageNameForAnonymous := "" }

/-- The types `Employee` (19) and `Department` (6) of `collect_test.go` with everything they
reach: 0 `int64`, 1 `string`, 2 `[]string`, 3 `float64`, 4 and 5 the anonymous records of
`Address`, 7 `[]Department`, 8 `int`, 9 `bool`, 10 to 13 the types under `Skills`, 14 to 16
those under `Metadata`, 17 `uint8`, 18 `[]byte`, 20 `*Employee`, 21 `[]*Employee`, 22 to 25
those under `SubTeams`. -/
def testEnv : Env :=
  { types := [
      basicType Kind.Int64 "int64",
      basicType Kind.String "string",
      compositeType Kind.Slice "[]string" 0 1,
      basicType Kind.Float64 "float64",
      structType "" "" [plainField "Latitude" 3 "latitude", plainField "Longitude" 3 "longitude"],
      structType "" "" [plainField "Street" 1 "street", plainField "City" 1 "city",
        plainField "CountryCode" 1 "country_code", plainField "GeoLocation" 4 "geo_location"],
      structType "gotots_test" "Department" [plainField "Name" 1 "name",
        plainField "Manager" 20 "manager,omitempty", plainField "SubTeams" 25 "sub_teams"],
      compositeType Kind.Slice "[]gotots_test.Department" 0 6,
      basicType Kind.Int "int",
      basicType Kind.Bool "bool",
      structType "" "" [plainField "CertName" 1 "cert_name",
        plainField "IssueDate" 1 "issue_date"],
      compositeType Kind.Ptr "*struct" 0 10,
      structType "" "" [plainField "Level" 8 "level", plainField "Certified" 9 "certified",
        plainField "CertDetails" 11 "cert_details,omitempty"],
      compositeType Kind.Map "map[string]struct" 1 12,
      structType "" "" [plainField "Description" 1 "description",
        plainField "Important" 9 "important"],
      compositeType Kind.Slice "[]struct" 0 14,
      compositeType Kind.Map "map[int][]struct" 8 15,
      basicType Kind.Uint8 "uint8",
      compositeType Kind.Slice "[]uint8" 0 17,
      structType "gotots_test" "Employee" [plainField "ID" 0 "id", plainField "Name" 1 "name",
        plainField "Position" 1 "position", plainField "Projects" 2 "projects,omitempty",
        plainField "Address" 5 "address", plainField "Departments" 7 "departments",
        plainField "Skills" 13 "skills", plainField "Metadata" 16 "metadata",
        { Name := "CustomField", Typ := 1, Anonymous := false, jsonTag := "custom",
          tstypeTag := "CustomType" },
        plainField "Data" 18 "data"],
      compositeType Kind.Ptr "*gotots_test.Employee" 0 19,
      compositeType Kind.Slice "[]*gotots_test.Employee" 0 20,
      structType "" "" [plainField "Description" 1 "description",
        plainField "Required" 9 "required"],
      compositeType Kind.Map "map[string]struct" 1 22,
      structType "" "" [plainField "TeamName" 1 "team_name",
        plainField "TeamLead" 20 "team_lead,omitempty",
        plainField "Members" 21 "members,omitempty",
        plainField "Responsibilities" 23 "responsibilities"],
      compositeType Kind.Slice "[]struct" 0 24] }

/-- A record whose only field is a pointer with a custom-type override:
`type R struct { P *int "tstype:Custom" }`; 0 `int`, 1 `*int`, 2 `R`. -/
def overrideEnv : Env :=
  { types := [
      basicType Kind.Int "int",
      compositeType Kind.Ptr "*int" 0 0,
      structType "pkg" "R"
        [{ Name := "P", Typ := 1, Anonymous := false, jsonTag := "", tstypeTag := "Custom" }]] }

/-- A named record reached only through an anonymous record, and one that is only embedded:
`type Inner struct { V int }`, `type E struct { X int }`,
`type R struct { E; Box struct { In Inner } }`; 0 `int`, 1 `Inner`, 2 the anonymous record,
3 `E`, 4 `R`. -/
def nestedEnv : Env :=
  { types := [
      basicType Kind.Int "int",
      structType "pkg" "Inner" [plainField "V" 0 ""],
      structType "" "" [plainField "In" 1 ""],
      structType "pkg" "E" [plainField "X" 0 ""],
      structType "pkg" "R" [embeddedField "E" 3 "", plainField "Box" 2 ""]] }

/-- A record that embeds a pointer to itself: `type A struct { *A }`; 0 `A`, 1 `*A`. -/
def selfEmbedEnv : Env :=
  { types := [
      structType "pkg" "A" [embeddedField "A" 1 ""],
      compositeType Kind.Ptr "*pkg.A" 0 0] }

/-- A cycle through an embedded record: `type A struct { B }`,
`type B struct { Next *A }`; 0 `A`, 1 `B`, 2 `*A`. -/
def embedCycleEnv : Env :=
  { types := [
      structType "pkg" "A" [embeddedField "B" 1 ""],
      structType "pkg" "B" [plainField "Next" 2 ""],
      compositeType Kind.Ptr "*pkg.A" 0 0] }

/-- Two records that point to each other: `type A struct { B *B }`,
`type B struct { A *A }`; 0 `A`, 1 `B`, 2 `*A`, 3 `*B`. -/
def mutualEnv : Env :=
  { types := [
      structType "pkg" "A" [plainField "B" 3 ""],
      structType "pkg" "B" [plainField "A" 2 ""],
      compositeType Kind.Ptr "*pkg.A" 0 0,
      compositeType Kind.Ptr "*pkg.B" 0 1] }

/-- Maps with the unsupported key kind `bool`: `type R struct { A int; M map[bool]int; B int }`
and `type S struct { Box struct { M map[bool]int } }`; 0 `bool`, 1 `int`, 2 `map[bool]int`,
3 the anonymous record, 4 `R`, 5 `S`. -/
def badKeyEnv : Env :=
  { types := [
      basicType Kind.Bool "bool",
      basicType Kind.Int "int",
      compositeType Kind.Map "map[bool]int" 0 1,
      structType "" "" [plainField "M" 2 ""],
      structType "pkg" "R" [plainField "A" 1 "", plainField "M" 2 "", plainField "B" 1 ""],
      structType "pkg" "S" [plainField "Box" 3 ""]] }

/-- Embedded and excluded fields: `type E struct { X int; Y string }`,
`type R struct { A int; E; B string }`, `type T struct { E "json:base" }`,
`type D struct { E "json:-" }`, `type N struct { Skip string "json:-"; K int "json:k" }`,
`type O struct { E "json:-,omitempty" }`; 0 `int`, 1 `string`, 2 `E`, 3 `R`, 4 `T`, 5 `D`,
6 `N`, 7 `O`. -/
def embedEnv : Env :=
  { types := [
      basicType Kind.Int "int",
      basicType Kind.String "string",
      structType "pkg" "E" [plainField "X" 0 "", plainField "Y" 1 ""],
      structType "pkg" "R" [plainField "A" 0 "", embeddedField "E" 2 "", plainField "B" 1 ""],
      structType "pkg" "T" [embeddedField "E" 2 "base"],
      structType "pkg" "D" [embeddedField "E" 2 "-"],
      structType "pkg" "N" [plainField "Skip" 1 "-", plainField "K" 0 "k"],
      structType "pkg" "O" [embeddedField "E" 2 "-,omitempty"]] }

/-- Custom-type overrides in a named and in an anonymous record:
`type R struct { D string "tstype:Custom"; Box struct { C string "tstype:Custom" } }`;
0 `string`, 1 the anonymous record, 2 `R`. -/
def inlineOverrideEnv : Env :=
  { types := [
      basicType Kind.String "string",
      structType "" ""
        [{ Name := "C", Typ := 0, Anonymous := false, jsonTag := "", tstypeTag := "Custom" }],
      structType "pkg" "R"
        [{ Name := "D", Typ := 0, Anonymous := false, jsonTag := "", tstypeTag := "Custom" },
         plainField "Box" 1 ""]] }

/-- Overridden fields: `type Inner struct { V string }`,
`type R struct { A Inner "tstype:X"; B string "json:- tstype:Y"; C int }`;
0 `string`, 1 `Inner`, 2 `R`, 3 `int`. -/
def overrideSkipEnv : Env :=
  { types := [
      basicType Kind.String "string",
      structType "pkg" "Inner" [plainField "V" 0 ""],
      structType "pkg" "R"
        [{ Name := "A", Typ := 1, Anonymous := false, jsonTag := "", tstypeTag := "X" },
         { Name := "B", Typ := 0, Anonymous := false, jsonTag := "-", tstypeTag := "Y" },
         plainField "C" 3 ""],
      basicType Kind.Int "int"] }

/-- An embedded pointer to a named type that is not a record: `type MyInt int`,
`type R struct { *MyInt }`; 0 `MyInt`, 1 `*MyInt`, 2 `R`, 3 `int`. -/
def badEmbedEnv : Env :=
  { types := [
      { kind := Kind.Int, pkgPath := "pkg", name := "MyInt", str := "pkg.MyInt", elem := 0,
        key := 0, fields := [] },
      compositeType Kind.Ptr "*pkg.MyInt" 0 0,
      structType "pkg" "R" [embeddedField "MyInt" 1 ""],
      basicType Kind.Int "int"] }

/-- The types of the test "Works with multiple types": `type T1 struct { A int "json:a" }`,
`type T2 struct { B string "json:b" }`; 0 `int`, 1 `string`, 2 `T1`, 3 `T2`. -/
def twoRootsEnv : Env :=
  { types := [
      basicType Kind.Int "int",
      basicType Kind.String "string",
      structType "gotots_test" "T1" [plainField "A" 0 "a"],
      structType "gotots_test" "T2" [plainField "B" 1 "b"]] }

/-- Two records that are fields of a third: `type A struct { X int }`,
`type B struct { Y int }`, `type R struct { FA A; FB B }`; 0 `int`, 1 `A`, 2 `B`, 3 `R`. -/
def siblingsEnv : Env :=
  { types := [
      basicType Kind.Int "int",
      structType "pkg" "A" [plainField "X" 0 ""],
      structType "pkg" "B" [plainField "Y" 0 ""],
      structType "pkg" "R" [plainField "FA" 1 "", plainField "FB" 2 ""]] }

end Gotots

namespace Gotots

/-! ## Loops and the growth of the context -/

theorem grows_refl (c : Context) : Grows c c :=
  ⟨rfl, rfl, fun _ h => h, fun _ _ => rfl, [], by simp, by simp, by simp⟩

theorem grows_trans {a b c : Context} (h1 : Grows a b) (h2 : Grows b c) : Grows a c := by
  obtain ⟨n1, e1, d1, p1⟩ := h1.structs
  obtain ⟨n2, e2, d2, p2⟩ := h2.structs
  refine ⟨h2.config.trans h1.config, h2.headers.trans h1.headers,
    fun x hx => h2.cache (h1.cache hx),
    fun k hk => (h2.names k (h1.cache hk)).trans (h1.names k hk), n1 ++ n2, ?_, ?_, ?_⟩
  · rw [e2, e1, List.append_assoc]
  · rw [List.map_append, List.nodup_append]
    refine ⟨d1, d2, ?_⟩
    intro x hx1 hx2
    obtain ⟨s1, hs1, rfl⟩ := List.mem_map.1 hx1
    obtain ⟨s2, hs2, hs⟩ := List.mem_map.1 hx2
    exact (p2 s2 hs2).1 (hs ▸ (p1 s1 hs1).2.1)
  · intro s hs
    rcases List.mem_append.1 hs with h | h
    · obtain ⟨a1, a2, a3⟩ := p1 s h
      exact ⟨a1, h2.cache a2, (h2.names _ a2).trans a3⟩
    · obtain ⟨a1, a2, a3⟩ := p2 s h
      exact ⟨fun hc => a1 (h1.cache hc), a2, a3⟩

theorem sameHead_refl (s : StructInfo) : SameHead s s := ⟨rfl, rfl, [], by simp⟩

theorem sameHead_trans {a b c : StructInfo} (h1 : SameHead a b) (h2 : SameHead b c) :
    SameHead a c := by
  obtain ⟨x, hx⟩ := h1.fields
  obtain ⟨y, hy⟩ := h2.fields
  exact ⟨h2.typ.trans h1.typ, h2.name.trans h1.name, x ++ y, by rw [hy, hx, List.append_assoc]⟩

theorem forEach_nil {σ α : Type} (body : σ → α → σ × Exec Error) (s : σ) :
    forEach body [] s = (s, Exec.ret none) := rfl

theorem forEach_cons {σ α : Type} (body : σ → α → σ × Exec Error) (x : α) (rest : List α)
    (s : σ) :
    forEach body (x :: rest) s =
      if (body s x).2 = Exec.ret none then forEach body rest (body s x).1 else body s x := by
  rw [forEach]
  split
  · rename_i s1 h
    simp [h]
  · rename_i s1 r hne h
    have : r ≠ Exec.ret none := fun hr => hne hr
    simp [h, this]

/-- An invariant relating the state to the initial one is kept by a loop whose body keeps it. -/
theorem forEach_invariant {σ α : Type} (body : σ → α → σ × Exec Error) (R : σ → σ → Prop)
    (hrefl : ∀ s, R s s) (htrans : ∀ a b c, R a b → R b c → R a c)
    (xs : List α) (hbody : ∀ s x, x ∈ xs → R s (body s x).1) :
    ∀ s, R s (forEach body xs s).1 := by
  induction xs with
  | nil => intro s; exact hrefl s
  | cons x rest ih =>
    intro s
    rw [forEach_cons]
    have h1 := hbody s x (List.mem_cons_self _ _)
    split
    · exact htrans _ _ _ h1 (ih (fun s y hy => hbody s y (List.mem_cons_of_mem _ hy)) _)
    · exact h1

theorem fieldsStep_refl (a : Context × StructInfo) : FieldsStep a a :=
  ⟨grows_refl _, sameHead_refl _⟩

theorem fieldsStep_trans (a b c : Context × StructInfo) (h1 : FieldsStep a b)
    (h2 : FieldsStep b c) : FieldsStep a c :=
  ⟨grows_trans h1.1 h2.1, sameHead_trans h1.2 h2.2⟩

theorem collectFields_field_step (env : Env)
    (collectType : Context → TypeId → List String → Context × Exec Error)
    (collectFields : Context → StructInfo → TypeId → List String →
      (Context × StructInfo) × Exec Error)
    (hT : ∀ c t np, Grows c (collectType c t np).1)
    (hF : ∀ c s t np, FieldsStep (c, s) (collectFields c s t np).1)
    (namePath : List String) (st : Context × StructInfo) (field : StructField) :
    FieldsStep st (CollectFields.field env collectType collectFields namePath st field).1 := by
  unfold CollectFields.field
  split
  · exact hF _ _ _ _
  · split
    · exact fieldsStep_refl _
    · split
      · have h := hT st.1 field.Typ (fieldNamePath env namePath field)
        split
        · rename_i ctx1 heq
          rw [heq] at h
          exact ⟨h, rfl, rfl, _, rfl⟩
        · rename_i ctx1 r _ heq
          rw [heq] at h
          exact ⟨h, sameHead_refl _⟩
      · exact ⟨grows_refl _, rfl, rfl, _, rfl⟩

theorem grows_visit {c : Context} {t : TypeId} :
    Grows c { c with Cache := t :: c.Cache } :=
  ⟨rfl, rfl, fun _ h => List.mem_cons_of_mem _ h, fun _ _ => rfl, [], by simp, by simp, by simp⟩

theorem grows_register {c : Context} {t : TypeId} {name : String} (ht : t ∉ c.Cache) :
    Grows c { c with Cache := t :: c.Cache, TypeNames := (t, name) :: c.TypeNames } := by
  refine ⟨rfl, rfl, fun _ h => List.mem_cons_of_mem _ h, ?_, [], by simp, by simp, by simp⟩
  intro k hk
  have : (k == t) = false := by
    simp only [beq_eq_false_iff_ne, ne_eq]
    rintro rfl
    exact ht hk
  simp [List.lookup, this]

theorem collect_step : ∀ fuel : Nat,
    (∀ env ctx t np, Grows ctx (CollectType fuel env ctx t np).1) ∧
    (∀ env ctx sinfo t np, FieldsStep (ctx, sinfo) (CollectFields fuel env ctx sinfo t np).1) := by
  intro fuel
  induction fuel with
  | zero =>
    constructor
    · intro env ctx t np; rw [CollectType]; exact grows_refl _
    · intro env ctx sinfo t np; rw [CollectFields]; exact fieldsStep_refl _
  | succ fuel ih =>
    obtain ⟨ihT, ihF⟩ := ih
    constructor
    · intro env ctx t np
      rw [CollectType]
      split
      · exact grows_refl _
      · next hc =>
        simp only
        split
        · exact grows_trans grows_visit (ihT _ _ _ _)
        · exact grows_trans grows_visit (ihT _ _ _ _)
        · exact grows_trans grows_visit (ihT _ _ _ _)
        · have h1 := ihT env { ctx with Cache := t :: ctx.Cache } (env.Key t) np
          split
          · next ctx2 heq =>
            rw [heq] at h1
            exact grows_trans grows_visit (grows_trans h1 (ihT _ _ _ _))
          · next ctx2 r _ heq =>
            rw [heq] at h1
            exact grows_trans grows_visit h1
        · split
          · exact grows_visit
          · split
            · next pkgPrefix hp =>
              have h2 := ihF env { ctx with Cache := t :: ctx.Cache, TypeNames := (t, pkgPrefix ++ env.Name t) :: ctx.TypeNames }
                { Typ := t, Fields := [], GeneratedName := pkgPrefix ++ env.Name t } t np
              have h1 : Grows ctx { ctx with Cache := t :: ctx.Cache, TypeNames := (t, pkgPrefix ++ env.Name t) :: ctx.TypeNames } := grows_register hc
              split
              · next ctx3 sinfo heq =>
                rw [heq] at h2
                obtain ⟨g, sh⟩ := h2
                simp only at g sh
                obtain ⟨new, e, d, p⟩ := g.structs
                refine ⟨g.config, g.headers, fun x hx => g.cache (List.mem_cons_of_mem _ hx), ?_, new ++ [sinfo], ?_, ?_, ?_⟩
                · intro k hk
                  exact (g.names k (List.mem_cons_of_mem _ hk)).trans (h1.names k hk)
                · simp only [e, List.append_assoc]
                · rw [List.map_append, List.nodup_append]
                  refine ⟨d, by simp, ?_⟩
                  intro x hx1 hx2
                  obtain ⟨s1, hs1, rfl⟩ := List.mem_map.1 hx1
                  simp only [List.map_cons, List.map_nil, List.mem_singleton] at hx2
                  rw [sh.typ] at hx2
                  exact (p s1 hs1).1 (hx2 ▸ List.mem_cons_self _ _)
                · intro s hs
                  rcases List.mem_append.1 hs with h | h
                  · obtain ⟨a1, a2, a3⟩ := p s h
                    exact ⟨fun hx => a1 (List.mem_cons_of_mem _ hx), a2, a3⟩
                  · simp only [List.mem_singleton] at h
                    subst h
                    rw [sh.typ, sh.name]
                    refine ⟨hc, g.cache (List.mem_cons_self _ _), ?_⟩
                    rw [g.names t (List.mem_cons_self _ _)]
                    simp [List.lookup]
              · next ctx3 s r _ heq =>
                rw [heq] at h2
                exact grows_trans h1 h2.1
            · exact grows_visit
            · exact grows_visit
        · exact grows_visit
    · intro env ctx sinfo t np
      rw [CollectFields]
      split
      · exact forEach_invariant _ FieldsStep fieldsStep_refl fieldsStep_trans _
          (fun s x _ => collectFields_field_step env _ _ (ihT env) (ihF env) np s x) _
      · exact fieldsStep_refl _

end Gotots

namespace Gotots

/-- A loop that ends normally has run its body normally on every element. -/
theorem forEach_cons_ok {σ α : Type} {body : σ → α → σ × Exec Error} {x : α} {rest : List α}
    {s s2 : σ} (h : forEach body (x :: rest) s = (s2, Exec.ret none)) :
    ∃ s1, body s x = (s1, Exec.ret none) ∧ forEach body rest s1 = (s2, Exec.ret none) := by
  rw [forEach_cons] at h
  split at h
  · rename_i hr
    exact ⟨(body s x).1, Prod.ext rfl hr, h⟩
  · rename_i hr
    rw [h] at hr
    exact absurd rfl hr

theorem forEach_append {σ α : Type} (body : σ → α → σ × Exec Error) (xs ys : List α) (s : σ) :
    forEach body (xs ++ ys) s =
      if (forEach body xs s).2 = Exec.ret none then forEach body ys (forEach body xs s).1
      else forEach body xs s := by
  induction xs generalizing s with
  | nil => simp [forEach_nil]
  | cons x rest ih =>
    rw [List.cons_append, forEach_cons, forEach_cons]
    split
    · exact ih _
    · rename_i hr
      simp [hr]

end Gotots

namespace Gotots

theorem collectType_grows (fuel : Nat) (env : Env) (ctx : Context) (t : TypeId)
    (np : List String) : Grows ctx (CollectType fuel env ctx t np).1 :=
  (collect_step fuel).1 env ctx t np

theorem collectFields_step (fuel : Nat) (env : Env) (ctx : Context) (sinfo : StructInfo)
    (t : TypeId) (np : List String) :
    FieldsStep (ctx, sinfo) (CollectFields fuel env ctx sinfo t np).1 :=
  (collect_step fuel).2 env ctx sinfo t np

/-- The relation kept on the pair of context and text by the loops that write. -/
theorem growsFst_refl {β : Type} (a : Context × β) : Grows a.1 a.1 := grows_refl _

theorem growsFst_trans {β : Type} (a b c : Context × β) (h1 : Grows a.1 b.1)
    (h2 : Grows b.1 c.1) : Grows a.1 c.1 := grows_trans h1 h2

theorem goTypeToTSType_field_grows
    (mapType : Context → TypeId → Context × Exec (String × Bool × Error))
    (hM : ∀ c t, Grows c (mapType c t).1)
    (linePrefix : String) (st : Context × String) (field : StructFieldInfo) :
    Grows st.1 (GoTypeToTSType.field mapType linePrefix st field).1.1 := by
  unfold GoTypeToTSType.field
  have h := hM st.1 field.Typ
  split <;> rename_i heq <;> rw [heq] at h <;> exact h

theorem goTypeToTSType_grows : ∀ (fuel : Nat) (env : Env) (ctx : Context) (t : TypeId)
    (fromPtr : Bool) (depth : Nat), Grows ctx (GoTypeToTSType fuel env ctx t fromPtr depth).1 := by
  intro fuel
  induction fuel with
  | zero => intro env ctx t fromPtr depth; rw [GoTypeToTSType]; exact grows_refl _
  | succ fuel ih =>
    intro env ctx t fromPtr depth
    rw [GoTypeToTSType]
    split
    · split
      · have h1 := (collectFields_step fuel env ctx
          { Typ := t, Fields := [], GeneratedName := "" } t []).1
        split
        · rename_i ctx1 sinfo heq
          rw [heq] at h1
          have h2 := forEach_invariant
            (GoTypeToTSType.field (fun c ft => GoTypeToTSType fuel env c ft false (depth + 1))
              (strRepeat ctx.indent (depth + 1)))
            (fun a b => Grows a.1 b.1) growsFst_refl growsFst_trans sinfo.Fields
            (fun s x _ => goTypeToTSType_field_grows _ (fun c ft => ih env c ft false _) _ s x)
            (ctx1, "\x7b\n")
          split <;> rename_i heq2 <;> rw [heq2] at h2 <;> exact grows_trans h1 h2
        all_goals
          rename_i heq
          rw [heq] at h1
          exact h1
      · split <;> exact grows_refl _
    all_goals first
      | exact grows_refl _
      | exact ih _ _ _ _ _
      | (have h := ih env ctx (env.Elem t) false depth
         split <;> rename_i heq <;> rw [heq] at h <;> exact h)
      | (split
         · exact grows_refl _
         · have h := ih env ctx (env.Elem t) false depth
           split
           · rename_i heq; rw [heq] at h; split <;> exact h
           all_goals
             rename_i heq
             rw [heq] at h
             exact h)

theorem describeStruct_field_grows (fuel : Nat) (env : Env) (st : Context × String)
    (field : StructFieldInfo) : Grows st.1 (DescribeStruct.field fuel env st field).1.1 := by
  unfold DescribeStruct.field
  have h : Grows st.1 (if field.CustomType = "" then GoTypeToTSType fuel env st.1 field.Typ false 1
      else (st.1, Exec.ret (field.CustomType, false, none))).1 := by
    split
    · exact goTypeToTSType_grows _ _ _ _ _ _
    · exact grows_refl _
  split <;> rename_i heq <;> rw [heq] at h <;> exact h

theorem describeStruct_grows (fuel : Nat) (env : Env) (ctx : Context) (w : String)
    (s : StructInfo) : Grows ctx (DescribeStruct fuel env ctx w s).1.1 := by
  unfold DescribeStruct
  have h := forEach_invariant (DescribeStruct.field fuel env) (fun a b => Grows a.1 b.1)
    growsFst_refl growsFst_trans s.Fields (fun st x _ => describeStruct_field_grows fuel env st x)
    (ctx, w ++ ("export interface " ++ s.GeneratedName ++ " \x7b\n"))
  split
  · rename_i heq; rw [heq] at h; exact h
  · exact h

theorem writeFromContext_block_grows (fuel : Nat) (env : Env) (st : Context × String)
    (sinfo : StructInfo) : Grows st.1 (WriteFromContext.block fuel env st sinfo).1.1 := by
  unfold WriteFromContext.block
  have h := describeStruct_grows fuel env st.1 st.2 sinfo
  split
  · rename_i heq; rw [heq] at h; exact h
  · exact h

theorem writeFromContext_grows (fuel : Nat) (env : Env) (ctx : Context) (w : String) :
    Grows ctx (WriteFromContext fuel env ctx w).1.1 :=
  forEach_invariant (WriteFromContext.block fuel env) (fun a b => Grows a.1 b.1) growsFst_refl
    growsFst_trans ctx.Structs (fun st x _ => writeFromContext_block_grows fuel env st x)
    (ctx, WriteFromContext.headers ctx w)

theorem collect_root_grows (fuel : Nat) (env : Env) (ctx : Context) (root : Option TypeId) :
    Grows ctx (Collect.root fuel env ctx root).1 := by
  unfold Collect.root
  split
  · exact grows_refl _
  · split
    · exact grows_refl _
    · split
      · exact collectType_grows _ _ _ _ _
      · exact grows_refl _
      · exact grows_refl _

theorem collect_grows (fuel : Nat) (env : Env) (ctx : Context) (roots : List (Option TypeId)) :
    Grows ctx (Collect fuel env ctx roots).1 :=
  forEach_invariant (Collect.root fuel env) Grows (fun s => grows_refl s)
    (fun _ _ _ h1 h2 => grows_trans h1 h2) roots (fun c root _ => collect_root_grows fuel env c root)
    ctx

theorem inv_of_grows {c c1 : Context} (hi : Inv c) (hg : Grows c c1) : Inv c1 := by
  obtain ⟨new, e, d, p⟩ := hg.structs
  obtain ⟨hd, hm⟩ := hi
  constructor
  · rw [e, List.map_append, List.nodup_append]
    refine ⟨hd, d, ?_⟩
    intro x hx1 hx2
    obtain ⟨s1, hs1, rfl⟩ := List.mem_map.1 hx1
    obtain ⟨s2, hs2, hs⟩ := List.mem_map.1 hx2
    exact (p s2 hs2).1 (hs ▸ (hm s1 hs1).1)
  · intro s hs
    rw [e] at hs
    rcases List.mem_append.1 hs with h | h
    · obtain ⟨a1, a2⟩ := hm s h
      exact ⟨hg.cache a1, (hg.names _ a1).trans a2⟩
    · exact (p s h).2

theorem inv_newContext (cfg : Config) : Inv (NewContext cfg) := by
  constructor
  · simp [NewContext]
  · intro s hs
    simp [NewContext] at hs

end Gotots

namespace Gotots

/-! ## The type mapper on primitive kinds and the optional marker -/

/-- C1: for every primitive kind `GoTypeToTSType` returns, without error and without touching
the context, the expression of the mapping table ("number" for the integer kinds up to 32 bits
and the float kinds, "bigint" for `Int64` and `Uint64`, "string", "boolean"), and the returned
`isOptional` is the `fromPtr` argument, for every context and depth. -/
theorem C1_primitive_kinds (fuel : Nat) (env : Env) (ctx : Context) (t : TypeId)
    (fromPtr : Bool) (depth : Nat) (e : String) (h : specPrimitiveExpr (env.Kind t) = some e) :
    GoTypeToTSType (fuel + 1) env ctx t fromPtr depth = (ctx, Exec.ret (e, fromPtr, none)) := by
  rw [GoTypeToTSType]
  generalize env.Kind t = k at h
  cases k <;> simp [specPrimitiveExpr] at h <;> subst h <;> rfl

/-- C1 at `int64` of the test types: "bigint", not optional. -/
theorem C1_primitive_kinds_witness :
    specPrimitiveExpr (testEnv.Kind 0) = some "bigint" ∧
    GoTypeToTSType 1 testEnv (NewContext testConfig) 0 false 1 =
      (NewContext testConfig, Exec.ret ("bigint", false, none)) :=
  ⟨by decide, C1_primitive_kinds 0 testEnv (NewContext testConfig) 0 false 1 "bigint" (by decide)⟩

/-- Through a pointer the mapper reports an optional type, a slice or an array is optional,
and every other kind hands `fromPtr` on. -/
theorem goTypeToTSType_optional : ∀ (fuel : Nat) (env : Env) (ctx : Context) (t : TypeId)
    (fromPtr : Bool) (depth : Nat) (ctx1 : Context) (ty : String) (opt : Bool) (err : Error),
    GoTypeToTSType fuel env ctx t fromPtr depth = (ctx1, Exec.ret (ty, opt, err)) → err = none →
    opt = (fromPtr || env.isPtrSliceArray t) := by
  intro fuel
  induction fuel with
  | zero =>
    intro env ctx t fromPtr depth ctx1 ty opt err h
    rw [GoTypeToTSType] at h
    simp at h
  | succ fuel ih =>
    intro env ctx t fromPtr depth ctx1 ty opt err h herr
    subst herr
    rw [GoTypeToTSType] at h
    unfold Env.isPtrSliceArray
    cases hk : env.Kind t <;> rw [hk] at h <;> dsimp only at h
    case Struct =>
      split at h
      · split at h
        · split at h <;> simp at h
          obtain ⟨_, _, h3⟩ := h
          subst h3
          simp
        all_goals simp at h
      · split at h <;> simp at h <;> obtain ⟨_, _, h3⟩ := h <;> subst h3 <;> simp
    case Ptr =>
      have h2 := ih _ _ _ _ _ _ _ _ _ h rfl
      simp [h2]
    case Map =>
      split at h
      · simp at h
      · split at h
        · split at h <;> simp at h <;> obtain ⟨_, _, h3⟩ := h <;> subst h3 <;> simp
        all_goals simp at h
    all_goals first
      | (simp at h; obtain ⟨_, _, h3⟩ := h; subst h3; simp)
      | (split at h <;> simp at h; obtain ⟨_, _, h3⟩ := h; subst h3; simp)

end Gotots

namespace Gotots

theorem indent_of_grows {c c1 : Context} (h : Grows c c1) : c1.indent = c.indent := by
  unfold Context.indent
  rw [h.config]

theorem describeStruct_field_ok (fuel : Nat) (env : Env) (st st1 : Context × String)
    (field : StructFieldInfo)
    (h : DescribeStruct.field fuel env st field = (st1, Exec.ret none)) :
    ∃ e, st1.2 = st.2 ++ specFieldLine env st.1.indent field e := by
  have hg := describeStruct_field_grows fuel env st field
  rw [h] at hg
  have hi := indent_of_grows hg
  unfold DescribeStruct.field at h
  by_cases hc : field.CustomType = ""
  · rw [if_pos hc] at h
    split at h
    · rename_i ctx1 tstype isOptional heq
      have ho := goTypeToTSType_optional _ _ _ _ _ _ _ _ _ _ heq rfl
      simp only [Prod.mk.injEq, and_true] at h
      subst h
      refine ⟨tstype, ?_⟩
      simp only at hi
      simp only [specFieldLine, specOptionalMark, hc, hi, ho, Bool.false_or, true_and]
    all_goals simp at h
  · rw [if_neg hc] at h
    simp only [Prod.mk.injEq, and_true] at h
    subst h
    refine ⟨field.CustomType, ?_⟩
    simp [specFieldLine, specOptionalMark, hc]

theorem describeStruct_fields_ok (fuel : Nat) (env : Env) (fields : List StructFieldInfo) :
    ∀ (st st1 : Context × String),
    forEach (DescribeStruct.field fuel env) fields st = (st1, Exec.ret none) →
    ∃ exprs : List String, exprs.length = fields.length ∧
      st1.2 = st.2 ++ concatLines (List.zipWith (specFieldLine env st.1.indent) fields exprs) := by
  induction fields with
  | nil =>
    intro st st1 h
    rw [forEach_nil] at h
    simp only [Prod.mk.injEq, and_true] at h
    subst h
    exact ⟨[], rfl, by simp [concatLines]⟩
  | cons f rest ih =>
    intro st st1 h
    obtain ⟨s1, h1, h2⟩ := forEach_cons_ok h
    obtain ⟨e, he⟩ := describeStruct_field_ok fuel env st s1 f h1
    obtain ⟨es, hl, hes⟩ := ih s1 st1 h2
    have hg := describeStruct_field_grows fuel env st f
    rw [h1] at hg
    refine ⟨e :: es, by simp [hl], ?_⟩
    rw [hes, he, indent_of_grows hg]
    simp [concatLines, String.append_assoc]

/-- C2 (amended): in the block written by `DescribeStruct`, the line of a field carries the
optional marker exactly when the field has no custom-type override and its type is, at its top
level, a pointer, a slice or an array, whatever the omit-empty option is; a field with a
custom-type override never carries the marker. -/
theorem C2_optional_marker (fuel : Nat) (env : Env) (ctx ctx1 : Context) (w w1 : String)
    (s : StructInfo) (h : DescribeStruct fuel env ctx w s = ((ctx1, w1), Exec.ret none)) :
    ∃ exprs : List String, exprs.length = s.Fields.length ∧
      w1 = w ++ ("export interface " ++ s.GeneratedName ++ " \x7b\n") ++
        concatLines (List.zipWith (specFieldLine env ctx.indent) s.Fields exprs) ++ "\x7d\n" := by
  unfold DescribeStruct at h
  split at h
  · rename_i c2 w2 heq
    obtain ⟨exprs, hl, he⟩ := describeStruct_fields_ok fuel env s.Fields _ _ heq
    simp only [Prod.mk.injEq, and_true] at h
    refine ⟨exprs, hl, ?_⟩
    rw [← h.2]
    simp only at he
    rw [he]
  · rename_i hne
    exact absurd h (hne _ _)

end Gotots

namespace Gotots

/-- C2 at the record `R` of `overrideEnv`, written into an empty writer. -/
theorem C2_optional_marker_witness :
    (DescribeStruct 3 overrideEnv (NewContext testConfig) ""
      { Typ := 2, Fields := [{ Name := "P", Typ := 1, CustomType := "", JsonTag := "p" }],
        GeneratedName := "Pkg_R" }).2 = Exec.ret none ∧
    ∃ exprs : List String, exprs.length = 1 ∧
      (DescribeStruct 3 overrideEnv (NewContext testConfig) ""
        { Typ := 2, Fields := [{ Name := "P", Typ := 1, CustomType := "", JsonTag := "p" }],
          GeneratedName := "Pkg_R" }).1.2 =
        "" ++ ("export interface " ++ "Pkg_R" ++ " \x7b\n") ++
          concatLines (List.zipWith (specFieldLine overrideEnv (NewContext testConfig).indent)
            [{ Name := "P", Typ := 1, CustomType := "", JsonTag := "p" }] exprs) ++ "\x7d\n" :=
  ⟨by decide, C2_optional_marker 3 overrideEnv (NewContext testConfig) _ "" _
    { Typ := 2, Fields := [{ Name := "P", Typ := 1, CustomType := "", JsonTag := "p" }],
      GeneratedName := "Pkg_R" } (Prod.ext rfl (by decide))⟩

/-- C2 as stated fails: the field `P` of `R` is a pointer with a custom-type override, and its
line is written without the optional marker. -/
theorem C2_counterexample :
    (Collect 3 overrideEnv (NewContext testConfig) [some 2]).1.Structs =
      [{ Typ := 2, Fields := [{ Name := "P", Typ := 1, CustomType := "Custom", JsonTag := "" }],
         GeneratedName := "Pkg_R" }] ∧
    overrideEnv.Kind 1 = Kind.Ptr ∧
    (WriteFromContext 3 overrideEnv (Collect 3 overrideEnv (NewContext testConfig) [some 2]).1
      "").1.2 = "export interface Pkg_R \x7b\n\tP: Custom;\n\x7d\n\n" ∧
    (WriteFromContext 3 overrideEnv (Collect 3 overrideEnv (NewContext testConfig) [some 2]).1
      "").2 = Exec.ret none := by
  decide

/-! ## The invariant of the context -/

/-- C4: in every context reached from `NewContext` by `Collect`, `CollectType` and
`WriteFromContext` calls (and `AddCustomHeader`), no two entries of `Structs` have the same
source type, every entry's type is in `Cache`, and `TypeNames` maps every entry's type to the
entry's `GeneratedName`; each of the calls only adds to `Cache`. -/
theorem C4_context_invariant (env : Env) (ctx : Context) (h : Reached env ctx) :
    Inv ctx ∧
    (∀ fuel roots, ctx.Cache ⊆ (Collect fuel env ctx roots).1.Cache) ∧
    (∀ fuel t np, ctx.Cache ⊆ (CollectType fuel env ctx t np).1.Cache) ∧
    (∀ fuel w, ctx.Cache ⊆ (WriteFromContext fuel env ctx w).1.1.Cache) := by
  refine ⟨?_, fun fuel roots => (collect_grows fuel env ctx roots).cache,
    fun fuel t np => (collectType_grows fuel env ctx t np).cache,
    fun fuel w => (writeFromContext_grows fuel env ctx w).cache⟩
  induction h with
  | new cfg => exact inv_newContext cfg
  | header h _ ih => exact ih
  | collect fuel roots _ ih => exact inv_of_grows ih (collect_grows _ _ _ _)
  | collectType fuel t np _ ih => exact inv_of_grows ih (collectType_grows _ _ _ _ _)
  | write fuel w _ ih => exact inv_of_grows ih (writeFromContext_grows _ _ _ _)

/-- C4 at the context obtained by collecting `Department` and writing it. -/
theorem C4_context_invariant_witness :
    Inv (WriteFromContext 20 testEnv (Collect 20 testEnv (NewContext testConfig) [some 6]).1
      "").1.1 :=
  (C4_context_invariant testEnv _
    (Reached.write 20 "" (Reached.collect 20 [some 6] (Reached.new testConfig)))).1

end Gotots

namespace Gotots

/-! ## The traversal visits everything it can step to -/

/-- A loop that ends normally: a relation to the initial state kept by every normal run of the
body, and a fact about each element that later steps keep. -/
theorem forEach_ok_invariant {σ α : Type} (body : σ → α → σ × Exec Error) (R : σ → σ → Prop)
    (Q : α → σ → Prop) (hrefl : ∀ s, R s s) (htrans : ∀ a b c, R a b → R b c → R a c)
    (hmono : ∀ x a b, R a b → Q x a → Q x b) (xs : List α)
    (hbody : ∀ s x s1, x ∈ xs → body s x = (s1, Exec.ret none) → R s s1 ∧ Q x s1) :
    ∀ s s2, forEach body xs s = (s2, Exec.ret none) → R s s2 ∧ ∀ x ∈ xs, Q x s2 := by
  induction xs with
  | nil =>
    intro s s2 h
    rw [forEach_nil] at h
    simp only [Prod.mk.injEq, and_true] at h
    subst h
    exact ⟨hrefl s, by simp⟩
  | cons x rest ih =>
    intro s s2 h
    obtain ⟨s1, h1, h2⟩ := forEach_cons_ok h
    obtain ⟨r1, q1⟩ := hbody s x s1 (List.mem_cons_self _ _) h1
    obtain ⟨r2, q2⟩ := ih (fun s y s1 hy => hbody s y s1 (List.mem_cons_of_mem _ hy)) s1 s2 h2
    refine ⟨htrans _ _ _ r1 r2, ?_⟩
    intro y hy
    rcases List.mem_cons.1 hy with rfl | hy
    · exact hmono _ _ _ r2 q1
    · exact q2 y hy

theorem closed_refl (env : Env) (c : Context) : Closed env c c :=
  fun _ hx hnx => absurd hx hnx

theorem closed_trans {env : Env} {c c1 c2 : Context} (hg : Grows c1 c2)
    (h1 : Closed env c c1) (h2 : Closed env c1 c2) : Closed env c c2 := by
  intro x hx hnx
  by_cases hx1 : x ∈ c1.Cache
  · obtain ⟨a, b⟩ := h1 x hx1 hnx
    refine ⟨fun y hy => hg.cache (a y hy), fun hk hn => ?_⟩
    obtain ⟨s, hs, hst⟩ := b hk hn
    obtain ⟨new, e, _, _⟩ := hg.structs
    exact ⟨s, by rw [e]; exact List.mem_append_left _ hs, hst⟩
  · exact h2 x hx hx1

/-- The type just marked as visited is closed once its own steps are in the cache. -/
theorem closed_visit {env : Env} {c c1 c2 : Context} {t : TypeId}
    (hc : c1.Cache = t :: c.Cache) (h : Closed env c1 c2)
    (hedge : ∀ y, Edge env t y → y ∈ c2.Cache)
    (hentry : env.Kind t = Kind.Struct → env.Name t ≠ "" → ∃ s ∈ c2.Structs, s.Typ = t) :
    Closed env c c2 := by
  intro x hx hnx
  by_cases hxt : x = t
  · subst hxt
    exact ⟨hedge, hentry⟩
  · refine h x hx ?_
    rw [hc]
    simp [hxt, hnx]

theorem edge_cases {env : Env} {a y : TypeId} (h : Edge env a y) :
    ((env.Kind a = Kind.Ptr ∨ env.Kind a = Kind.Slice ∨ env.Kind a = Kind.Array) ∧
      y = env.Elem a) ∨
    (env.Kind a = Kind.Map ∧ (y = env.Key a ∨ y = env.Elem a)) ∨
    (env.Kind a = Kind.Struct ∧ env.Name a ≠ "" ∧
      ∃ f, FlatField env a f ∧ f.tstypeTag = "" ∧ y = f.Typ) := by
  cases h with
  | elem hk => exact Or.inl ⟨hk, rfl⟩
  | mapKey hk => exact Or.inr (Or.inl ⟨hk, Or.inl rfl⟩)
  | mapElem hk => exact Or.inr (Or.inl ⟨hk, Or.inr rfl⟩)
  | field hk hn hf ht => exact Or.inr (Or.inr ⟨hk, hn, _, hf, ht, rfl⟩)

/-- The relation kept by the loop of `CollectFields` when it ends normally. -/
theorem fieldsDone_trans (env : Env) (a b c : Context × StructInfo)
    (h1 : FieldsStep a b ∧ Closed env a.1 b.1) (h2 : FieldsStep b c ∧ Closed env b.1 c.1) :
    FieldsStep a c ∧ Closed env a.1 c.1 :=
  ⟨fieldsStep_trans _ _ _ h1.1 h2.1, closed_trans h2.1.1 h1.2 h2.2⟩

theorem fieldDone_mono (env : Env) (x : StructField) (a b : Context × StructInfo)
    (h : FieldsStep a b ∧ Closed env a.1 b.1) (hq : FieldDone env x a.1) :
    FieldDone env x b.1 :=
  ⟨fun hf g hg ht => h.1.1.cache (hq.1 hf g hg ht),
   fun hf hj ht => h.1.1.cache (hq.2 hf hj ht)⟩

theorem collectFields_field_closed (env : Env)
    (collectType : Context → TypeId → List String → Context × Exec Error)
    (collectFields : Context → StructInfo → TypeId → List String →
      (Context × StructInfo) × Exec Error)
    (hT : ∀ c t np c1, collectType c t np = (c1, Exec.ret none) →
      Closed env c c1 ∧ t ∈ c1.Cache)
    (hF : ∀ c s t np st1, collectFields c s t np = (st1, Exec.ret none) →
      Closed env c st1.1 ∧ ∀ f, FlatField env t f → f.tstypeTag = "" → f.Typ ∈ st1.1.Cache)
    (namePath : List String) (st st1 : Context × StructInfo) (field : StructField)
    (h : CollectFields.field env collectType collectFields namePath st field =
      (st1, Exec.ret none)) :
    Closed env st.1 st1.1 ∧ FieldDone env field st1.1 := by
  unfold CollectFields.field at h
  split at h
  · rename_i hfl
    obtain ⟨a, b⟩ := hF _ _ _ _ _ h
    exact ⟨a, fun _ => b, fun hf => by rw [hfl] at hf; cases hf⟩
  · rename_i hfl
    split at h
    · rename_i hj
      simp only [Prod.mk.injEq, and_true] at h
      subst h
      exact ⟨closed_refl _ _, fun hf => absurd hf hfl, fun _ hj2 => absurd hj hj2⟩
    · split at h
      · split at h
        · rename_i ctx1 heq
          obtain ⟨a, b⟩ := hT _ _ _ _ heq
          simp only [Prod.mk.injEq, and_true] at h
          subst h
          exact ⟨a, fun hf => absurd hf hfl, fun _ _ _ => b⟩
        · rename_i ctx1 r hne heq
          simp only [Prod.mk.injEq] at h
          exact absurd h.2 hne
      · rename_i hct
        simp only [Prod.mk.injEq, and_true] at h
        subst h
        exact ⟨closed_refl _ _, fun hf => absurd hf hfl, fun _ _ ht => absurd ht hct⟩

end Gotots

namespace Gotots

theorem flatField_cases {env : Env} {t : TypeId} {g : StructField} (h : FlatField env t g) :
    (g ∈ env.Fields (env.deref t) ∧ CollectFields.flattens env g = false ∧
      (CollectFields.sfield g).JsonTag ≠ "-") ∨
    (∃ e, e ∈ env.Fields (env.deref t) ∧ CollectFields.flattens env e = true ∧
      FlatField env e.Typ g) := by
  cases h with
  | own _ hm hf hj => exact Or.inl ⟨hm, hf, hj⟩
  | embedded _ hm hf hg => exact Or.inr ⟨_, hm, hf, hg⟩

theorem deref_of_struct {env : Env} {t : TypeId} (hk : env.Kind t = Kind.Struct) :
    env.deref t = t := by
  unfold Env.deref
  rw [hk]
  simp

/-- A call of `CollectType` or `CollectFields` that returns without error leaves every newly
visited type closed. -/
theorem collect_closed : ∀ fuel : Nat,
    (∀ env ctx t np ctx1, CollectType fuel env ctx t np = (ctx1, Exec.ret none) →
      Closed env ctx ctx1 ∧ t ∈ ctx1.Cache) ∧
    (∀ env ctx sinfo t np st1, CollectFields fuel env ctx sinfo t np = (st1, Exec.ret none) →
      Closed env ctx st1.1 ∧
        ∀ f, FlatField env t f → f.tstypeTag = "" → f.Typ ∈ st1.1.Cache) := by
  intro fuel
  induction fuel with
  | zero =>
    constructor
    · intro env ctx t np ctx1 h
      rw [CollectType] at h
      simp at h
    · intro env ctx sinfo t np st1 h
      rw [CollectFields] at h
      simp at h
  | succ fuel ih =>
    obtain ⟨ihT, ihF⟩ := ih
    constructor
    · intro env ctx t np ctx1 h
      rw [CollectType] at h
      split at h
      · rename_i hc
        simp only [Prod.mk.injEq, and_true] at h
        subst h
        exact ⟨closed_refl _ _, hc⟩
      · rename_i hc
        dsimp only at h
        cases hk : env.Kind t <;> rw [hk] at h <;> dsimp only at h
        case Ptr | Slice | Array =>
          obtain ⟨a, b⟩ := ihT _ _ _ _ _ h
          have hg := collectType_grows fuel env { ctx with Cache := t :: ctx.Cache } (env.Elem t)
            (if env.isAnonStruct (env.Elem t) then np ++ ["Elem"] else np)
          rw [h] at hg
          refine ⟨closed_visit rfl a ?_ ?_, hg.cache (List.mem_cons_self _ _)⟩
          · intro y hy
            rcases edge_cases hy with ⟨_, rfl⟩ | ⟨hm, _⟩ | ⟨hs, _⟩
            · exact b
            · rw [hk] at hm; cases hm
            · rw [hk] at hs; cases hs
          · intro hs
            rw [hk] at hs; cases hs
        case Map =>
          split at h
          · rename_i ctx2 heq
            obtain ⟨a1, b1⟩ := ihT _ _ _ _ _ heq
            obtain ⟨a2, b2⟩ := ihT _ _ _ _ _ h
            have hg1 := collectType_grows fuel env { ctx with Cache := t :: ctx.Cache }
              (env.Key t) np
            rw [heq] at hg1
            have hg2 := collectType_grows fuel env ctx2 (env.Elem t)
              (if env.isAnonStruct (env.Elem t) then np ++ ["Elem"] else np)
            rw [h] at hg2
            refine ⟨closed_visit rfl (closed_trans hg2 a1 a2) ?_ ?_,
              hg2.cache (hg1.cache (List.mem_cons_self _ _))⟩
            · intro y hy
              rcases edge_cases hy with ⟨hp, _⟩ | ⟨_, rfl | rfl⟩ | ⟨hs, _⟩
              · rw [hk] at hp; rcases hp with hp | hp | hp <;> cases hp
              · exact hg2.cache b1
              · exact b2
              · rw [hk] at hs; cases hs
            · intro hs
              rw [hk] at hs; cases hs
          · rename_i ctx2 r hne heq
            simp only [Prod.mk.injEq] at h
            exact absurd h.2 hne
        case Struct =>
          split at h
          · rename_i hn
            simp only [Prod.mk.injEq, and_true] at h
            subst h
            refine ⟨closed_visit rfl (closed_refl _ _) ?_ ?_, List.mem_cons_self _ _⟩
            · intro y hy
              rcases edge_cases hy with ⟨hp, _⟩ | ⟨hm, _⟩ | ⟨_, hnn, _⟩
              · rw [hk] at hp; rcases hp with hp | hp | hp <;> cases hp
              · rw [hk] at hm; cases hm
              · exact absurd hn hnn
            · intro _ hnn
              exact absurd hn hnn
          · rename_i hn
            split at h
            · rename_i pkgPrefix hp
              split at h
              · rename_i ctx3 sinfo heq
                obtain ⟨a, b⟩ := ihF _ _ _ _ _ _ heq
                have hs := collectFields_step fuel env
                  { ctx with Cache := t :: ctx.Cache,
                             TypeNames := (t, pkgPrefix ++ env.Name t) :: ctx.TypeNames }
                  { Typ := t, Fields := [], GeneratedName := pkgPrefix ++ env.Name t } t np
                rw [heq] at hs
                simp only [Prod.mk.injEq, and_true] at h
                subst h
                dsimp only at a b hs ⊢
                have hclosed : Closed env
                    { ctx with Cache := t :: ctx.Cache,
                               TypeNames := (t, pkgPrefix ++ env.Name t) :: ctx.TypeNames }
                    { ctx3 with Structs := ctx3.Structs ++ [sinfo] } := by
                  intro x hx hnx
                  obtain ⟨e1, e2⟩ := a x hx hnx
                  refine ⟨e1, fun h1 h2 => ?_⟩
                  obtain ⟨s, hs1, hs2⟩ := e2 h1 h2
                  exact ⟨s, List.mem_append_left _ hs1, hs2⟩
                refine ⟨closed_visit rfl hclosed ?_ ?_, hs.1.cache (List.mem_cons_self _ _)⟩
                · intro y hy
                  rcases edge_cases hy with ⟨hp, _⟩ | ⟨hm, _⟩ | ⟨_, _, f, hf, ht, rfl⟩
                  · rw [hk] at hp; rcases hp with hp | hp | hp <;> cases hp
                  · rw [hk] at hm; cases hm
                  · exact b f hf ht
                · intro _ _
                  exact ⟨sinfo, by simp, hs.2.typ⟩
              · rename_i ctx3 s r hne heq
                simp only [Prod.mk.injEq] at h
                exact absurd h.2 hne
            all_goals simp at h
        all_goals
          simp only [Prod.mk.injEq, and_true] at h
          subst h
          refine ⟨closed_visit rfl (closed_refl _ _) ?_ ?_, List.mem_cons_self _ _⟩
          · intro y hy
            rcases edge_cases hy with ⟨hp, _⟩ | ⟨hm, _⟩ | ⟨hs, _⟩
            · rw [hk] at hp; rcases hp with hp | hp | hp <;> cases hp
            · rw [hk] at hm; cases hm
            · rw [hk] at hs; cases hs
          · intro hs
            rw [hk] at hs; cases hs
    · intro env ctx sinfo t np st1 h
      rw [CollectFields] at h
      split at h
      · rename_i hk
        have key := forEach_ok_invariant
          (CollectFields.field env (CollectType fuel env) (CollectFields fuel env) np)
          (fun a b => FieldsStep a b ∧ Closed env a.1 b.1) (fun x s => FieldDone env x s.1)
          (fun s => ⟨fieldsStep_refl s, closed_refl env s.1⟩) (fieldsDone_trans env)
          (fieldDone_mono env) (env.Fields (env.deref t))
          (fun s x s1 _ hb => by
            have h1 := collectFields_field_step env _ _ (collectType_grows fuel env)
              (collectFields_step fuel env) np s x
            rw [hb] at h1
            obtain ⟨a, b⟩ := collectFields_field_closed env _ _ (ihT env) (ihF env) np s s1 x hb
            exact ⟨⟨h1, a⟩, b⟩)
          (ctx, sinfo) st1 h
        obtain ⟨⟨_, hcl⟩, hq⟩ := key
        refine ⟨hcl, ?_⟩
        intro g hg ht
        rcases flatField_cases hg with ⟨hm, hf, hj⟩ | ⟨e, hm, hf, hg2⟩
        · exact (hq g hm).2 hf hj ht
        · exact (hq e hm).1 hf g hg2 ht
      · simp at h

end Gotots

namespace Gotots

/-! ## What `Collect` registers -/

theorem growsClosed_trans (env : Env) (a b c : Context)
    (h1 : Grows a b ∧ Closed env a b) (h2 : Grows b c ∧ Closed env b c) :
    Grows a c ∧ Closed env a c :=
  ⟨grows_trans h1.1 h2.1, closed_trans h2.1 h1.2 h2.2⟩

theorem collect_root_closed (fuel : Nat) (env : Env) (c c1 : Context) (root : Option TypeId)
    (hb : Collect.root fuel env c root = (c1, Exec.ret none)) :
    (Grows c c1 ∧ Closed env c c1) ∧ ∀ r, root = some r → env.deref r ∈ c1.Cache := by
  have hg := collect_root_grows fuel env c root
  rw [hb] at hg
  unfold Collect.root at hb
  cases root with
  | none => simp at hb
  | some ty =>
    dsimp only at hb
    split at hb
    · simp at hb
    · split at hb
      · obtain ⟨a, b⟩ := (collect_closed fuel).1 _ _ _ _ _ hb
        refine ⟨⟨hg, a⟩, ?_⟩
        intro r hr
        cases hr
        exact b
      all_goals simp at hb

/-- After a `Collect` that returns without error, every newly visited type is closed and the
type of every root is in the cache. -/
theorem collect_closed_roots (fuel : Nat) (env : Env) (ctx ctx1 : Context)
    (roots : List (Option TypeId))
    (h : Collect fuel env ctx roots = (ctx1, Exec.ret none)) :
    (Grows ctx ctx1 ∧ Closed env ctx ctx1) ∧
      ∀ root ∈ roots, ∀ r, root = some r → env.deref r ∈ ctx1.Cache :=
  forEach_ok_invariant (Collect.root fuel env) (fun a b => Grows a b ∧ Closed env a b)
    (fun root c => ∀ r, root = some r → env.deref r ∈ c.Cache)
    (fun s => ⟨grows_refl s, closed_refl env s⟩) (growsClosed_trans env)
    (fun _ _ _ hab hq r hr => hab.1.cache (hq r hr)) roots
    (fun c root c1 _ hb => collect_root_closed fuel env c c1 root hb) ctx ctx1 h

theorem reach_in_cache {env : Env} {c : Context} (hcl : Closed env (NewContext c.config) c)
    {a t : TypeId} (ha : a ∈ c.Cache) (h : Relation.ReflTransGen (Edge env) a t) :
    t ∈ c.Cache := by
  induction h with
  | refl => exact ha
  | tail _ hbc ih => exact (hcl _ ih (by simp [NewContext])).1 _ hbc

theorem closed_of_fresh {env : Env} {cfg : Config} {c : Context}
    (hg : Grows (NewContext cfg) c) (hcl : Closed env (NewContext cfg) c) :
    Closed env (NewContext c.config) c := by
  rw [hg.config]
  exact hcl

/-- A named record in the cache of a context collected from a fresh one has exactly one entry. -/
theorem entry_once {env : Env} {cfg : Config} {c : Context}
    (hg : Grows (NewContext cfg) c) (hcl : Closed env (NewContext cfg) c)
    {t : TypeId} (ht : t ∈ c.Cache) (hk : env.Kind t = Kind.Struct) (hn : env.Name t ≠ "") :
    (c.Structs.map StructInfo.Typ).count t = 1 := by
  obtain ⟨s, hs, hst⟩ := (hcl t ht (by simp [NewContext])).2 hk hn
  have hinv := inv_of_grows (inv_newContext cfg) hg
  exact List.count_eq_one_of_mem hinv.1 (List.mem_map.2 ⟨s, hs, hst⟩)

/-- C3 (amended): after `Collect` succeeds on a fresh context, every named record type that is
reached from a root through pointer, slice and array elements, map keys and values, and the
collected fields without override of named records (the fields of a flattened embedded field
counting as fields of the record that embeds it) has exactly one entry in `ctx.Structs`. -/
theorem C3_reachable_registered_once (fuel : Nat) (env : Env) (cfg : Config)
    (roots : List (Option TypeId)) (ctx1 : Context)
    (h : Collect fuel env (NewContext cfg) roots = (ctx1, Exec.ret none))
    (r : TypeId) (hr : some r ∈ roots) (t : TypeId)
    (hreach : Relation.ReflTransGen (Edge env) (env.deref r) t)
    (hk : env.Kind t = Kind.Struct) (hn : env.Name t ≠ "") :
    (ctx1.Structs.map StructInfo.Typ).count t = 1 := by
  obtain ⟨⟨hg, hcl⟩, hroots⟩ := collect_closed_roots fuel env _ ctx1 roots h
  exact entry_once hg hcl
    (reach_in_cache (closed_of_fresh hg hcl) (hroots _ hr r rfl) hreach) hk hn

/-- C3 at the test types: `Employee` is reached from the root `Department` through the field
`Manager` of type `*Employee`. -/
theorem C3_reachable_registered_once_witness :
    (Collect 20 testEnv (NewContext testConfig) [some 6]).2 = Exec.ret none ∧
    (((Collect 20 testEnv (NewContext testConfig) [some 6]).1).Structs.map
      StructInfo.Typ).count 19 = 1 :=
  ⟨by decide,
   C3_reachable_registered_once 20 testEnv testConfig [some 6] _ (Prod.ext rfl (by decide))
    6 (by simp) 19
    (Relation.ReflTransGen.head
      (Edge.field (f := plainField "Manager" 20 "manager,omitempty") (by decide) (by decide)
        (FlatField.own (by decide) (by decide) (by decide) (by decide)) (by decide))
      (Relation.ReflTransGen.single (Edge.elem (a := 20) (by decide))))
    (by decide) (by decide)⟩

/-- C3 as stated fails: from the root `R` of `nestedEnv` the named record `Inner` is reached
through the field of an anonymous record, and the named record `E` through an embedded field;
`Collect` succeeds and neither has an entry in `Structs`. -/
theorem C3_counterexample :
    (Collect 9 nestedEnv (NewContext testConfig) [some 4]).2 = Exec.ret none ∧
    Relation.ReflTransGen (SpecEdge nestedEnv) 4 1 ∧
    nestedEnv.Kind 1 = Kind.Struct ∧ nestedEnv.Name 1 = "Inner" ∧
    SpecEdge nestedEnv 4 3 ∧
    nestedEnv.Kind 3 = Kind.Struct ∧ nestedEnv.Name 3 = "E" ∧
    ((Collect 9 nestedEnv (NewContext testConfig) [some 4]).1.Structs.map StructInfo.Typ) =
      [4] := by
  refine ⟨by decide, ?_, by decide, by decide, ?_, by decide, by decide, by decide⟩
  · refine Relation.ReflTransGen.head (b := 2) ?_ (Relation.ReflTransGen.single ?_)
    · exact Or.inr (Or.inr ⟨by decide, plainField "Box" 2 "", by decide, by decide, by decide,
        by decide⟩)
    · exact Or.inr (Or.inr ⟨by decide, plainField "In" 1 "", by decide, by decide, by decide,
        by decide⟩)
  · exact Or.inr (Or.inr ⟨by decide, embeddedField "E" 3 "", by decide, by decide, by decide,
      by decide⟩)

/-! ## The order of `Structs` -/

/-- When `CollectType` returns without error from a named record type that was not yet
visited, the entries present before keep their places, the entry of the record is the last
one, and between them stand the entries of the record types first visited during the call. -/
theorem collectType_entry_last (fuel : Nat) (env : Env) (ctx ctx1 : Context) (t : TypeId)
    (np : List String) (h : CollectType fuel env ctx t np = (ctx1, Exec.ret none))
    (hc : t ∉ ctx.Cache) (hk : env.Kind t = Kind.Struct) (hn : env.Name t ≠ "") :
    ∃ mid entry, ctx1.Structs = ctx.Structs ++ mid ++ [entry] ∧ entry.Typ = t ∧
      ∀ s ∈ mid, s.Typ ∉ ctx.Cache ∧ s.Typ ≠ t ∧ s.Typ ∈ ctx1.Cache := by
  cases fuel with
  | zero => rw [CollectType] at h; simp at h
  | succ fuel =>
    rw [CollectType] at h
    rw [if_neg hc] at h
    dsimp only at h
    rw [hk] at h
    dsimp only at h
    rw [if_neg hn] at h
    split at h
    · rename_i pkgPrefix hp
      split at h
      · rename_i ctx3 sinfo heq
        have hs := collectFields_step fuel env
          { ctx with Cache := t :: ctx.Cache,
                     TypeNames := (t, pkgPrefix ++ env.Name t) :: ctx.TypeNames }
          { Typ := t, Fields := [], GeneratedName := pkgPrefix ++ env.Name t } t np
        rw [heq] at hs
        simp only [Prod.mk.injEq, and_true] at h
        subst h
        obtain ⟨new, e, _, p⟩ := hs.1.structs
        dsimp only at e p ⊢
        refine ⟨new, sinfo, by rw [e], hs.2.typ, ?_⟩
        intro s hs1
        obtain ⟨a1, a2, _⟩ := p s hs1
        refine ⟨fun hx => a1 (List.mem_cons_of_mem _ hx), fun hx => a1 ?_, a2⟩
        rw [hx]
        exact List.mem_cons_self _ _
      · rename_i ctx3 s r hne heq
        simp only [Prod.mk.injEq] at h
        exact absurd h.2 hne
    all_goals simp at h

/-- At the test types: collecting `Department`, not yet visited, puts the entry of
`Employee`, first visited during the call, before the entry of `Department`. -/
theorem collectType_entry_last_example :
    ∃ mid entry, (CollectType 20 testEnv (NewContext testConfig) 6 []).1.Structs =
        (NewContext testConfig).Structs ++ mid ++ [entry] ∧ entry.Typ = 6 ∧
      ∀ s ∈ mid, s.Typ ∉ (NewContext testConfig).Cache ∧ s.Typ ≠ 6 ∧
        s.Typ ∈ (CollectType 20 testEnv (NewContext testConfig) 6 []).1.Cache :=
  collectType_entry_last 20 testEnv (NewContext testConfig) _ 6 [] (Prod.ext rfl (by decide))
    (by decide) (by decide) (by decide)

/-- C6 as stated fails: collecting the root `Department` visits `Department` (6) before
`Employee` (19), and the entry of `Employee` precedes the entry of `Department`. -/
theorem C6_counterexample :
    (Collect 20 testEnv (NewContext testConfig) [some 6]).2 = Exec.ret none ∧
    firstVisitOrder testEnv (Collect 20 testEnv (NewContext testConfig) [some 6]).1 = [6, 19] ∧
    (Collect 20 testEnv (NewContext testConfig) [some 6]).1.Structs.map StructInfo.Typ =
      [19, 6] := by
  decide

end Gotots

namespace Gotots

/-! ## Termination of the traversal -/

theorem desc_of_ge (env : Env) (t : TypeId) (h : env.types.length ≤ t) :
    env.desc t = TypeDesc.invalid := by
  unfold Env.desc
  simp [List.getD, List.getElem?_eq_none h]

theorem lt_of_kind_ne_invalid {env : Env} {t : TypeId} (h : env.Kind t ≠ Kind.Invalid) :
    t < env.types.length := by
  by_contra hlt
  apply h
  unfold Env.Kind
  rw [desc_of_ge env t (Nat.le_of_not_lt hlt)]
  rfl

theorem countP_lt_of_mem {α : Type} (p q : α → Bool) (l : List α) (t : α) (ht : t ∈ l)
    (hp : p t = true) (hq : q t = false) (hqp : ∀ x, q x = true → p x = true) :
    l.countP q + 1 ≤ l.countP p := by
  induction l with
  | nil => cases ht
  | cons x rest ih =>
    rw [List.countP_cons, List.countP_cons]
    rcases List.mem_cons.1 ht with rfl | hm
    · have hle : rest.countP q ≤ rest.countP p :=
        List.countP_mono_left (fun x _ hx => hqp x hx)
      simp only [hp, hq]
      simp
      omega
    · have h1 := ih hm
      by_cases hqx : q x = true
      · simp only [hqx, hqp x hqx]
        simp
        omega
      · have hqx2 : q x = false := by simpa using hqx
        simp only [hqx2]
        simp
        omega

theorem uncached_mono (env : Env) {c c1 : List TypeId} (h : c ⊆ c1) :
    env.uncached c1 ≤ env.uncached c := by
  unfold Env.uncached
  apply List.countP_mono_left
  intro x _ hx
  simp only [decide_eq_true_eq] at hx ⊢
  exact fun hc => hx (h hc)

theorem uncached_visit (env : Env) {c : List TypeId} {t : TypeId} (hlt : t < env.types.length)
    (hc : t ∉ c) : env.uncached (t :: c) + 1 ≤ env.uncached c := by
  unfold Env.uncached
  apply countP_lt_of_mem _ _ _ t (List.mem_range.2 hlt)
  · simpa using hc
  · simp
  · intro x hx
    simp only [decide_eq_true_eq, List.mem_cons, not_or] at hx ⊢
    exact hx.2

/-- The result of a loop has a property that `ret none` has and that every run of the body
from a state satisfying a kept invariant has. -/
theorem forEach_result {σ α : Type} (body : σ → α → σ × Exec Error) (P : σ → Prop)
    (G : Exec Error → Prop) (hG : G (Exec.ret none)) (xs : List α)
    (hbody : ∀ s x, x ∈ xs → P s → P (body s x).1 ∧ G (body s x).2) :
    ∀ s, P s → G (forEach body xs s).2 := by
  induction xs with
  | nil => intro s _; exact hG
  | cons x rest ih =>
    intro s hs
    rw [forEach_cons]
    obtain ⟨h1, h2⟩ := hbody s x (List.mem_cons_self _ _) hs
    split
    · exact ih (fun s y hy => hbody s y (List.mem_cons_of_mem _ hy)) _ h1
    · exact h2

theorem callPrefix_ne_timeout (cfg : Config) (pkg : String) :
    cfg.callPrefix pkg ≠ Exec.timeout := by
  unfold Config.callPrefix
  split <;> simp

theorem fuel_step {a b R fuel : Nat} (h1 : a + 1 ≤ b) (h2 : b * (R + 2) + 1 ≤ fuel + 1) :
    a * (R + 2) + R + 2 ≤ fuel := by
  have h3 : (a + 1) * (R + 2) ≤ b * (R + 2) := Nat.mul_le_mul_right _ h1
  rw [Nat.add_mul] at h3
  omega

theorem fuel_mono {a b R : Nat} (h1 : a ≤ b) : a * (R + 2) ≤ b * (R + 2) :=
  Nat.mul_le_mul_right _ h1

end Gotots

namespace Gotots

theorem collectFields_field_no_timeout (env : Env) (rk : TypeId → Nat) (R : Nat)
    (hR : EmbedRanked env rk R) (fuel : Nat)
    (ihT : ∀ ctx t np, env.uncached ctx.Cache * (R + 2) + 1 ≤ fuel →
      (CollectType fuel env ctx t np).2 ≠ Exec.timeout)
    (ihF : ∀ ctx sinfo t np n, (env.deref t < env.types.length → rk (env.deref t) ≤ n) →
      env.uncached ctx.Cache * (R + 2) + n + 2 ≤ fuel →
      (CollectFields fuel env ctx sinfo t np).2 ≠ Exec.timeout)
    (t : TypeId) (n : Nat) (hk : env.Kind (env.deref t) = Kind.Struct)
    (hn : rk (env.deref t) ≤ n) (np : List String) (st : Context × StructInfo)
    (hfuel : env.uncached st.1.Cache * (R + 2) + n + 2 ≤ fuel + 1)
    (x : StructField) (hx : x ∈ env.Fields (env.deref t)) :
    (CollectFields.field env (CollectType fuel env) (CollectFields fuel env) np st x).2 ≠
      Exec.timeout := by
  have hlt : env.deref t < env.types.length :=
    lt_of_kind_ne_invalid (by rw [hk]; decide)
  unfold CollectFields.field
  split
  · rename_i hfl
    have hd := hR.decr _ hlt x hx hfl
    exact ihF _ _ _ _ (n - 1) (fun _ => by omega) (by omega)
  · split
    · simp
    · split
      · have h1 := ihT st.1 x.Typ (fieldNamePath env np x) (by omega)
        split
        · simp
        · rename_i ctx1 r _ heq
          rw [heq] at h1
          exact h1
      · simp

/-- With call depth `uncached * (R + 2) + 1` the traversal of a type does not run out of
depth, when flattening is well founded with ranks up to `R`. -/
theorem collect_no_timeout (env : Env) (rk : TypeId → Nat) (R : Nat)
    (hR : EmbedRanked env rk R) : ∀ fuel : Nat,
    (∀ ctx t np, env.uncached ctx.Cache * (R + 2) + 1 ≤ fuel →
      (CollectType fuel env ctx t np).2 ≠ Exec.timeout) ∧
    (∀ ctx sinfo t np n, (env.deref t < env.types.length → rk (env.deref t) ≤ n) →
      env.uncached ctx.Cache * (R + 2) + n + 2 ≤ fuel →
      (CollectFields fuel env ctx sinfo t np).2 ≠ Exec.timeout) := by
  intro fuel
  induction fuel with
  | zero =>
    constructor
    · intro ctx t np h; omega
    · intro ctx sinfo t np n _ h; omega
  | succ fuel ih =>
    obtain ⟨ihT, ihF⟩ := ih
    constructor
    · intro ctx t np hfuel
      rw [CollectType]
      split
      · simp
      · rename_i hc
        dsimp only
        cases hk : env.Kind t <;> dsimp only
        case Ptr | Slice | Array =>
          have hlt : t < env.types.length := lt_of_kind_ne_invalid (by rw [hk]; decide)
          have hv := uncached_visit env hlt hc
          have := fuel_step (R := R) hv hfuel
          exact ihT _ _ _ (by dsimp only; omega)
        case Map =>
          have hlt : t < env.types.length := lt_of_kind_ne_invalid (by rw [hk]; decide)
          have hv := uncached_visit env hlt hc
          have hf := fuel_step (R := R) hv hfuel
          have h1 := ihT { ctx with Cache := t :: ctx.Cache } (env.Key t) np
            (by dsimp only; omega)
          have hg := collectType_grows fuel env { ctx with Cache := t :: ctx.Cache }
            (env.Key t) np
          split
          · rename_i ctx2 heq
            rw [heq] at hg
            have hm := fuel_mono (R := R) (uncached_mono env hg.cache)
            dsimp only at hm
            exact ihT _ _ _ (by omega)
          · rename_i ctx2 r _ heq
            rw [heq] at h1
            exact h1
        case Struct =>
          have hlt : t < env.types.length := lt_of_kind_ne_invalid (by rw [hk]; decide)
          have hv := uncached_visit env hlt hc
          have hf := fuel_step (R := R) hv hfuel
          split
          · simp
          · split
            · rename_i pkgPrefix hp
              have h1 := ihF
                { ctx with Cache := t :: ctx.Cache,
                           TypeNames := (t, pkgPrefix ++ env.Name t) :: ctx.TypeNames }
                { Typ := t, Fields := [], GeneratedName := pkgPrefix ++ env.Name t } t np R
                (fun _ => by rw [deref_of_struct hk]; exact hR.bound t hlt)
                (by dsimp only; omega)
              split
              · simp
              · rename_i ctx3 s r _ heq
                rw [heq] at h1
                exact h1
            · simp
            · rename_i hp
              exact absurd hp (callPrefix_ne_timeout _ _)
        all_goals simp
    · intro ctx sinfo t np n hn hfuel
      rw [CollectFields]
      split
      · rename_i hk
        have hlt : env.deref t < env.types.length :=
          lt_of_kind_ne_invalid (by rw [hk]; decide)
        refine forEach_result _ (fun s => Grows ctx s.1) (fun r => r ≠ Exec.timeout) (by simp)
          _ ?_ (ctx, sinfo) (grows_refl ctx)
        intro s x hx hs
        refine ⟨grows_trans hs (collectFields_field_step env _ _ (collectType_grows fuel env)
          (collectFields_step fuel env) np s x).1, ?_⟩
        have hm := fuel_mono (R := R) (uncached_mono env hs.cache)
        exact collectFields_field_no_timeout env rk R hR fuel ihT ihF t n hk (hn hlt) np s
          (by omega) x hx
      · simp

/-- With call depth `length * (R + 2) + 1`, `Collect` does not run out of depth. -/
theorem collect_terminates (env : Env) (rk : TypeId → Nat) (R : Nat)
    (hR : EmbedRanked env rk R) (fuel : Nat) (hfuel : env.types.length * (R + 2) + 1 ≤ fuel)
    (ctx : Context) (roots : List (Option TypeId)) :
    (Collect fuel env ctx roots).2 ≠ Exec.timeout := by
  unfold Collect
  refine forEach_result _ (fun s => Grows ctx s) (fun r => r ≠ Exec.timeout) (by simp) _ ?_
    ctx (grows_refl ctx)
  intro s root _ hs
  refine ⟨grows_trans hs (collect_root_grows fuel env s root), ?_⟩
  unfold Collect.root
  split
  · simp
  · split
    · simp
    · split
      · refine (collect_no_timeout env rk R hR fuel).1 _ _ _ ?_
        have h1 : env.uncached s.Cache ≤ env.types.length := by
          unfold Env.uncached
          exact (List.countP_le_length _).trans (by simp)
        have := fuel_mono (R := R) h1
        omega
      · simp
      · rename_i hp
        exact absurd hp (callPrefix_ne_timeout _ _)

end Gotots

namespace Gotots

/-! ## Cycles -/

/-- For every finite type graph in which flattening is well founded (a rank
bounded by `R` decreases from a record to the record behind each of its flattened embedded
fields), `Collect` on a fresh context ends within call depth `length * (R + 2) + 1`, and when
it returns without error every named record type that is reached from a root and lies on a
cycle of collected references (pointer, slice, array and map elements, map keys, collected
fields without override of named records) has exactly one entry in `ctx.Structs`. -/
theorem cycles_registered_once (env : Env) (cfg : Config) (roots : List (Option TypeId))
    (rk : TypeId → Nat) (R : Nat) (hR : EmbedRanked env rk R) (fuel : Nat)
    (hfuel : env.types.length * (R + 2) + 1 ≤ fuel) :
    (Collect fuel env (NewContext cfg) roots).2 ≠ Exec.timeout ∧
    ((Collect fuel env (NewContext cfg) roots).2 = Exec.ret none →
      ∀ r, some r ∈ roots → ∀ t, Relation.ReflTransGen (Edge env) (env.deref r) t →
        Relation.TransGen (Edge env) t t → env.Kind t = Kind.Struct → env.Name t ≠ "" →
        ((Collect fuel env (NewContext cfg) roots).1.Structs.map StructInfo.Typ).count t = 1) := by
  refine ⟨collect_terminates env rk R hR fuel hfuel _ roots, ?_⟩
  intro hok r hr t hreach _ hk hn
  obtain ⟨⟨hg, hcl⟩, hroots⟩ :=
    collect_closed_roots fuel env _ _ roots (Prod.ext rfl hok)
  exact entry_once hg hcl
    (reach_in_cache (closed_of_fresh hg hcl) (hroots _ hr r rfl) hreach) hk hn

/-- At the cycle `A -> *B -> B -> *A -> A` of `mutualEnv`, which has no flattened field:
`Collect` ends within depth 9 and `B` has exactly one entry. -/
theorem cycles_registered_once_example :
    EmbedRanked mutualEnv (fun _ => 0) 0 ∧ mutualEnv.types.length * (0 + 2) + 1 ≤ 9 ∧
    (Collect 9 mutualEnv (NewContext testConfig) [some 0]).2 ≠ Exec.timeout ∧
    ((Collect 9 mutualEnv (NewContext testConfig) [some 0]).1.Structs.map
      StructInfo.Typ).count 1 = 1 :=
  have hR : EmbedRanked mutualEnv (fun _ => 0) 0 :=
    ⟨fun _ _ => Nat.le_refl 0, by decide⟩
  have hAB : Relation.TransGen (Edge mutualEnv) 0 1 :=
    Relation.TransGen.head
      (Edge.field (f := plainField "B" 3 "") (by decide) (by decide)
        (FlatField.own (by decide) (by decide) (by decide) (by decide)) (by decide))
      (Relation.TransGen.single (Edge.elem (a := 3) (by decide)))
  have hBA : Relation.TransGen (Edge mutualEnv) 1 0 :=
    Relation.TransGen.head
      (Edge.field (f := plainField "A" 2 "") (by decide) (by decide)
        (FlatField.own (by decide) (by decide) (by decide) (by decide)) (by decide))
      (Relation.TransGen.single (Edge.elem (a := 2) (by decide)))
  ⟨hR, by decide,
    (cycles_registered_once mutualEnv testConfig [some 0] (fun _ => 0) 0 hR 9 (by decide)).1,
    (cycles_registered_once mutualEnv testConfig [some 0] (fun _ => 0) 0 hR 9 (by decide)).2
      (by decide) 0 (by simp) 1 hAB.to_reflTransGen (hBA.trans hAB) (by decide) (by decide)⟩

theorem selfEmbed_fields_timeout : ∀ (fuel : Nat) (ctx : Context) (sinfo : StructInfo)
    (t : TypeId) (np : List String), t = 0 ∨ t = 1 →
    CollectFields fuel selfEmbedEnv ctx sinfo t np = ((ctx, sinfo), Exec.timeout) := by
  intro fuel
  induction fuel with
  | zero => intro ctx sinfo t np _; rw [CollectFields]
  | succ fuel ih =>
    intro ctx sinfo t np ht
    rw [CollectFields]
    have hd : selfEmbedEnv.deref t = 0 := by
      rcases ht with rfl | rfl <;> decide
    have hk : selfEmbedEnv.Kind 0 = Kind.Struct := by decide
    have hf : selfEmbedEnv.Fields 0 = [embeddedField "A" 1 ""] := by decide
    have hfl : CollectFields.flattens selfEmbedEnv (embeddedField "A" 1 "") = true := by decide
    rw [hd, if_pos hk, hf, forEach_cons]
    unfold CollectFields.field
    rw [if_pos hfl]
    have h1 := ih ctx sinfo 1 np (Or.inr rfl)
    have h2 : (embeddedField "A" 1 "").Typ = 1 := rfl
    rw [h2, h1]
    simp

theorem selfEmbed_collect_timeout (fuel : Nat) :
    (Collect fuel selfEmbedEnv (NewContext testConfig) [some 0]).2 = Exec.timeout := by
  unfold Collect
  rw [forEach_cons]
  have hroot : (Collect.root fuel selfEmbedEnv (NewContext testConfig) (some 0)).2 =
      Exec.timeout := by
    unfold Collect.root
    have hd : selfEmbedEnv.deref 0 = 0 := by decide
    have hp : ¬ selfEmbedEnv.PkgPath 0 = "" := by decide
    dsimp only
    rw [hd, if_neg hp]
    have hc : (NewContext testConfig).config.callPrefix (selfEmbedEnv.PkgPath 0) =
        Exec.ret (defaultPrefix (selfEmbedEnv.PkgPath 0)) := rfl
    rw [hc]
    dsimp only
    cases fuel with
    | zero => rw [CollectType]
    | succ fuel =>
      rw [CollectType]
      have hnc : (0 : TypeId) ∉ (NewContext testConfig).Cache := by simp [NewContext]
      have hk : selfEmbedEnv.Kind 0 = Kind.Struct := by decide
      have hn : ¬ selfEmbedEnv.Name 0 = "" := by decide
      rw [if_neg hnc]
      dsimp only
      rw [hk]
      dsimp only
      rw [if_neg hn]
      have hc2 : testConfig.callPrefix (if selfEmbedEnv.PkgPath 0 = "" then
          testConfig.PackageNameForAnonymous else selfEmbedEnv.PkgPath 0) =
          Exec.ret (defaultPrefix (selfEmbedEnv.PkgPath 0)) := by
        rw [if_neg hp]; rfl
      simp only [NewContext]
      rw [hc2]
      dsimp only
      rw [selfEmbed_fields_timeout fuel _ _ 0 _ (Or.inl rfl)]
  rw [if_neg (by rw [hroot]; simp)]
  exact hroot

/-- C5 fails on the code: `type A struct { *A }` references itself through an embedded field,
and no call depth lets `Collect` return on it: `CollectFields` recurses into the embedded
field without consulting the cache, back to `A` through the pointer, without end. -/
theorem C5_self_embedding_never_returns :
    selfEmbedEnv.Fields 0 = [embeddedField "A" 1 ""] ∧
    selfEmbedEnv.Kind 1 = Kind.Ptr ∧ selfEmbedEnv.Elem 1 = 0 ∧
    (∀ fuel : Nat,
      (Collect fuel selfEmbedEnv (NewContext testConfig) [some 0]).2 = Exec.timeout) ∧
    ¬ ∃ fuel, (Collect fuel selfEmbedEnv (NewContext testConfig) [some 0]).2 ≠ Exec.timeout := by
  refine ⟨by decide, by decide, by decide, selfEmbed_collect_timeout, ?_⟩
  rintro ⟨fuel, h⟩
  exact h (selfEmbed_collect_timeout fuel)

/-- A cycle through a flattened embedded field: on `type A struct { B }`,
`type B struct { Next *A }` `Collect` with the root `A` returns, and `B`, which lies on the
cycle, has no entry in `Structs` because it is flattened into `A`; with the root `B` both
have an entry. -/
theorem embedCycle_flattened_no_entry :
    (Collect 9 embedCycleEnv (NewContext testConfig) [some 0]).2 = Exec.ret none ∧
    Relation.TransGen (SpecEdge embedCycleEnv) 1 1 ∧
    embedCycleEnv.Kind 1 = Kind.Struct ∧ embedCycleEnv.Name 1 = "B" ∧
    (Collect 9 embedCycleEnv (NewContext testConfig) [some 0]).1.Structs =
      [{ Typ := 0, Fields := [{ Name := "Next", Typ := 2, CustomType := "", JsonTag := "" }],
         GeneratedName := "Pkg_A" }] ∧
    (Collect 9 embedCycleEnv (NewContext testConfig) [some 1]).1.Structs.map StructInfo.Typ =
      [0, 1] := by
  refine ⟨by decide, ?_, by decide, by decide, by decide, by decide⟩
  refine Relation.TransGen.head (b := 2) ?_ (Relation.TransGen.head (b := 0) ?_
    (Relation.TransGen.single ?_))
  · exact Or.inr (Or.inr ⟨by decide, plainField "Next" 2 "", by decide, by decide, by decide,
      by decide⟩)
  · exact Or.inl ⟨by decide, by decide⟩
  · exact Or.inr (Or.inr ⟨by decide, embeddedField "B" 1 "", by decide, by decide, by decide,
      by decide⟩)

end Gotots

namespace Gotots

/-! ## Unsupported map keys -/

/-- C8 fails on the code: the mapper returns the error for the map `map[bool]int` itself, and
returns no error for the anonymous record `struct { M map[bool]int }`, whose field line is
written with an empty type expression. -/
theorem C8_error_lost_in_anonymous_record :
    (GoTypeToTSType 5 badKeyEnv (NewContext testConfig) 2 false 1).2 =
      Exec.ret ("", false, some "unsupported map key type bool") ∧
    (GoTypeToTSType 5 badKeyEnv (NewContext testConfig) 3 false 1).2 =
      Exec.ret ("\x7b\n\t\tM: ;\n\t\x7d", false, none) := by
  decide

theorem forEach_no_error {σ α : Type} (body : σ → α → σ × Exec Error) (xs : List α)
    (hbody : ∀ s x e, (body s x).2 ≠ Exec.ret (some e)) (s : σ) (e : String) :
    (forEach body xs s).2 ≠ Exec.ret (some e) :=
  forEach_result body (fun _ => True) (fun r => r ≠ Exec.ret (some e)) (by simp) xs
    (fun s x _ _ => ⟨trivial, hbody s x e⟩) s trivial

/-- Neither `CollectType` nor `CollectFields` ever returns an error. -/
theorem collect_no_error : ∀ fuel : Nat,
    (∀ env ctx t np e, (CollectType fuel env ctx t np).2 ≠ Exec.ret (some e)) ∧
    (∀ env ctx sinfo t np e, (CollectFields fuel env ctx sinfo t np).2 ≠ Exec.ret (some e)) := by
  intro fuel
  induction fuel with
  | zero =>
    constructor
    · intro env ctx t np e; rw [CollectType]; simp
    · intro env ctx sinfo t np e; rw [CollectFields]; simp
  | succ fuel ih =>
    obtain ⟨ihT, ihF⟩ := ih
    constructor
    · intro env ctx t np e
      rw [CollectType]
      split
      · simp
      · dsimp only
        cases hk : env.Kind t <;> dsimp only
        case Ptr | Slice | Array => exact ihT _ _ _ _ _
        case Map =>
          have h1 := ihT env { ctx with Cache := t :: ctx.Cache } (env.Key t) np e
          split
          · exact ihT _ _ _ _ _
          · rename_i ctx2 r _ heq
            rw [heq] at h1
            exact h1
        case Struct =>
          split
          · simp
          · split
            · rename_i pkgPrefix hp
              have h1 := ihF env
                { ctx with Cache := t :: ctx.Cache,
                           TypeNames := (t, pkgPrefix ++ env.Name t) :: ctx.TypeNames }
                { Typ := t, Fields := [], GeneratedName := pkgPrefix ++ env.Name t } t np e
              split
              · simp
              · rename_i ctx3 s r _ heq
                rw [heq] at h1
                exact h1
            · simp
            · simp
        all_goals simp
    · intro env ctx sinfo t np e
      rw [CollectFields]
      split
      · apply forEach_no_error
        intro s x e
        unfold CollectFields.field
        split
        · exact ihF _ _ _ _ _ _
        · split
          · simp
          · split
            · have h1 := ihT env s.1 x.Typ (fieldNamePath env np x) e
              split
              · simp
              · rename_i ctx1 r _ heq
                rw [heq] at h1
                exact h1
            · simp
      · simp

/-- The only error of `Collect` is the error for an anonymous root type. -/
theorem collect_error_is_root (fuel : Nat) (env : Env) (ctx : Context)
    (roots : List (Option TypeId)) (e : String)
    (h : (Collect fuel env ctx roots).2 = Exec.ret (some e)) :
    e = "anonymous types are not supported for root type" := by
  by_contra hne
  revert h
  unfold Collect
  refine forEach_result _ (fun _ => True) (fun r => r ≠ Exec.ret (some e)) (by simp) roots ?_
    ctx trivial
  intro s root _ _
  refine ⟨trivial, ?_⟩
  unfold Collect.root
  split
  · simp
  · split
    · simp only [ne_eq, Exec.ret.injEq, Option.some.injEq]
      exact fun h => hne h.symm
    · split
      · exact (collect_no_error fuel).1 _ _ _ _ _
      · simp
      · simp

/-- The mapper fails on a map with an unsupported key kind and leaves the context as it is. -/
theorem goTypeToTSType_bad_key (fuel : Nat) (env : Env) (ctx : Context) (t : TypeId)
    (fromPtr : Bool) (depth : Nat) (msg : String) (hk : env.Kind t = Kind.Map)
    (hkey : (GoTypeToTsTypeMapKey env (env.Key t)).2 = some msg) :
    GoTypeToTSType (fuel + 1) env ctx t fromPtr depth = (ctx, Exec.ret ("", false, some msg)) := by
  rw [GoTypeToTSType]
  rw [hk]
  dsimp only
  split
  · rename_i k err heq
    rw [heq] at hkey
    simp only [Option.some.injEq] at hkey
    rw [hkey]
  · rename_i k heq
    rw [heq] at hkey
    cases hkey

/-- What was written is kept: every write appends. -/
theorem describeStruct_field_appends (fuel : Nat) (env : Env) (st : Context × String)
    (field : StructFieldInfo) :
    ∃ out, (DescribeStruct.field fuel env st field).1.2 = st.2 ++ out := by
  unfold DescribeStruct.field
  split
  · exact ⟨_, rfl⟩
  all_goals exact ⟨"", by simp⟩

theorem appends_refl (a : Context × String) : ∃ out, a.2 = a.2 ++ out := ⟨"", by simp⟩

theorem appends_trans (a b c : Context × String) (h1 : ∃ out, b.2 = a.2 ++ out)
    (h2 : ∃ out, c.2 = b.2 ++ out) : ∃ out, c.2 = a.2 ++ out := by
  obtain ⟨o1, e1⟩ := h1
  obtain ⟨o2, e2⟩ := h2
  exact ⟨o1 ++ o2, by rw [e2, e1, String.append_assoc]⟩

theorem describeStruct_appends (fuel : Nat) (env : Env) (ctx : Context) (w : String)
    (s : StructInfo) : ∃ out, (DescribeStruct fuel env ctx w s).1.2 = w ++ out := by
  unfold DescribeStruct
  have h := forEach_invariant (DescribeStruct.field fuel env)
    (fun a b => ∃ out, b.2 = a.2 ++ out) appends_refl appends_trans s.Fields
    (fun st x _ => describeStruct_field_appends fuel env st x)
    (ctx, w ++ ("export interface " ++ s.GeneratedName ++ " \x7b\n"))
  obtain ⟨o, ho⟩ := h
  split
  · rename_i c1 w1 heq
    rw [heq] at ho
    dsimp only at ho ⊢
    exact ⟨("export interface " ++ s.GeneratedName ++ " \x7b\n") ++ o ++ "\x7d\n", by
      rw [ho]; simp [String.append_assoc]⟩
  · exact ⟨("export interface " ++ s.GeneratedName ++ " \x7b\n") ++ o, by
      rw [ho]; simp [String.append_assoc]⟩

theorem block_appends (fuel : Nat) (env : Env) (st : Context × String) (s : StructInfo) :
    ∃ out, (WriteFromContext.block fuel env st s).1.2 = st.2 ++ out := by
  unfold WriteFromContext.block
  obtain ⟨o, ho⟩ := describeStruct_appends fuel env st.1 st.2 s
  split
  · rename_i c1 w1 heq
    rw [heq] at ho
    dsimp only at ho ⊢
    exact ⟨o ++ "\n", by rw [ho, String.append_assoc]⟩
  · exact ⟨o, ho⟩

theorem foldl_appends (hs : List String) (w : String) :
    ∃ out, hs.foldl (fun acc header => acc ++ (header ++ "\n")) w = w ++ out := by
  induction hs generalizing w with
  | nil => exact ⟨"", by simp⟩
  | cons h rest ih =>
    obtain ⟨o, ho⟩ := ih (w ++ (h ++ "\n"))
    exact ⟨(h ++ "\n") ++ o, by rw [List.foldl_cons, ho, String.append_assoc]⟩

theorem headers_appends (ctx : Context) (w : String) :
    ∃ out, WriteFromContext.headers ctx w = w ++ out := by
  unfold WriteFromContext.headers
  obtain ⟨o, ho⟩ := foldl_appends ctx.customHeaders w
  dsimp only
  split
  · exact ⟨o ++ "\n", by rw [ho, String.append_assoc]⟩
  · exact ⟨o, ho⟩

end Gotots

namespace Gotots

theorem describeStruct_field_bad_key (fuel : Nat) (env : Env) (st : Context × String)
    (f : StructFieldInfo) (msg : String) (hc : f.CustomType = "")
    (hk : env.Kind f.Typ = Kind.Map)
    (hkey : (GoTypeToTsTypeMapKey env (env.Key f.Typ)).2 = some msg) :
    DescribeStruct.field (fuel + 1) env st f = (st, Exec.ret (some msg)) := by
  unfold DescribeStruct.field
  rw [if_pos hc, goTypeToTSType_bad_key fuel env st.1 f.Typ false 1 msg hk hkey]

theorem forEach_cons_stop {σ α : Type} {body : σ → α → σ × Exec Error} {x : α}
    {rest : List α} {s s1 : σ} {e : String} (h : body s x = (s1, Exec.ret (some e))) :
    forEach body (x :: rest) s = (s1, Exec.ret (some e)) := by
  rw [forEach_cons, h]
  simp

theorem forEach_append_ok {σ α : Type} {body : σ → α → σ × Exec Error} {xs ys : List α}
    {s s1 : σ} (h : forEach body xs s = (s1, Exec.ret none)) :
    forEach body (xs ++ ys) s = forEach body ys s1 := by
  rw [forEach_append, h]
  simp

theorem describeStruct_bad_key (fuel : Nat) (env : Env) (ctx : Context) (w : String)
    (s : StructInfo) (fPre fPost : List StructFieldInfo) (f : StructFieldInfo) (msg : String)
    (st2 : Context × String) (hf : s.Fields = fPre ++ f :: fPost) (hc : f.CustomType = "")
    (hk : env.Kind f.Typ = Kind.Map)
    (hkey : (GoTypeToTsTypeMapKey env (env.Key f.Typ)).2 = some msg)
    (h2 : forEach (DescribeStruct.field (fuel + 1) env) fPre
      (ctx, w ++ ("export interface " ++ s.GeneratedName ++ " \x7b\n")) = (st2, Exec.ret none)) :
    DescribeStruct (fuel + 1) env ctx w s = (st2, Exec.ret (some msg)) := by
  unfold DescribeStruct
  rw [hf, forEach_append_ok h2,
    forEach_cons_stop (describeStruct_field_bad_key fuel env st2 f msg hc hk hkey)]

/-- C7 (amended): `Collect` does not check map keys, its only error is the error for an
anonymous root type. The unsupported-key error is raised by `WriteFromContext`: when the
records before `s` and the fields of `s` before `f` have been written without error and `f`
is a field without custom-type override whose type is a map with an unsupported key kind,
`WriteFromContext` returns that error; what was written before the field (the headers, the
earlier blocks, the opening line of `s` and its earlier field lines) stays in the writer, and
nothing of the field or after it is written. -/
theorem C7_error_raised_while_writing (fuel : Nat) (env : Env) (ctx : Context) (w : String)
    (sPre sPost : List StructInfo) (s : StructInfo) (fPre fPost : List StructFieldInfo)
    (f : StructFieldInfo) (msg : String) (st1 st2 : Context × String)
    (hs : ctx.Structs = sPre ++ s :: sPost) (hf : s.Fields = fPre ++ f :: fPost)
    (hc : f.CustomType = "") (hk : env.Kind f.Typ = Kind.Map)
    (hkey : (GoTypeToTsTypeMapKey env (env.Key f.Typ)).2 = some msg)
    (h1 : forEach (WriteFromContext.block (fuel + 1) env) sPre
      (ctx, WriteFromContext.headers ctx w) = (st1, Exec.ret none))
    (h2 : forEach (DescribeStruct.field (fuel + 1) env) fPre
      (st1.1, st1.2 ++ ("export interface " ++ s.GeneratedName ++ " \x7b\n")) =
      (st2, Exec.ret none)) :
    (∀ n c roots e, (Collect n env c roots).2 = Exec.ret (some e) →
      e = "anonymous types are not supported for root type") ∧
    WriteFromContext (fuel + 1) env ctx w = (st2, Exec.ret (some msg)) ∧
    ∃ before after, st2.2 =
      w ++ before ++ ("export interface " ++ s.GeneratedName ++ " \x7b\n") ++ after := by
  refine ⟨fun n c roots e => collect_error_is_root n env c roots e, ?_, ?_⟩
  · unfold WriteFromContext
    rw [hs, forEach_append_ok h1]
    apply forEach_cons_stop
    unfold WriteFromContext.block
    rw [describeStruct_bad_key fuel env st1.1 st1.2 s fPre fPost f msg st2 hf hc hk hkey h2]
  · have a1 := forEach_invariant (WriteFromContext.block (fuel + 1) env)
      (fun a b => ∃ out, b.2 = a.2 ++ out) appends_refl appends_trans sPre
      (fun st x _ => block_appends (fuel + 1) env st x) (ctx, WriteFromContext.headers ctx w)
    rw [h1] at a1
    have a2 := forEach_invariant (DescribeStruct.field (fuel + 1) env)
      (fun a b => ∃ out, b.2 = a.2 ++ out) appends_refl appends_trans fPre
      (fun st x _ => describeStruct_field_appends (fuel + 1) env st x)
      (st1.1, st1.2 ++ ("export interface " ++ s.GeneratedName ++ " \x7b\n"))
    rw [h2] at a2
    obtain ⟨o0, e0⟩ := headers_appends ctx w
    obtain ⟨o1, e1⟩ := a1
    obtain ⟨o2, e2⟩ := a2
    dsimp only at e1 e2
    exact ⟨o0 ++ o1, o2, by rw [e2, e1, e0]; simp [String.append_assoc]⟩

/-- C7 at the record `R` of `badKeyEnv` with one custom header: the error is returned after
the header, the opening line and the line of the field `A` have been written. -/
theorem C7_error_raised_while_writing_witness :
    (Collect 5 badKeyEnv ((NewContext testConfig).AddCustomHeader "// h") [some 4]).2 =
      Exec.ret none ∧
    (WriteFromContext 5 badKeyEnv
      (Collect 5 badKeyEnv ((NewContext testConfig).AddCustomHeader "// h") [some 4]).1 "").2 =
      Exec.ret (some "unsupported map key type bool") ∧
    (WriteFromContext 5 badKeyEnv
      (Collect 5 badKeyEnv ((NewContext testConfig).AddCustomHeader "// h") [some 4]).1 "").1.2 =
      "// h\n\nexport interface Pkg_R \x7b\n\tA: number;\n" :=
  have h := C7_error_raised_while_writing 4 badKeyEnv
    (Collect 5 badKeyEnv ((NewContext testConfig).AddCustomHeader "// h") [some 4]).1 ""
    [] []
    { Typ := 4,
      Fields := [{ Name := "A", Typ := 1, CustomType := "", JsonTag := "" },
        { Name := "M", Typ := 2, CustomType := "", JsonTag := "" },
        { Name := "B", Typ := 1, CustomType := "", JsonTag := "" }],
      GeneratedName := "Pkg_R" }
    [{ Name := "A", Typ := 1, CustomType := "", JsonTag := "" }]
    [{ Name := "B", Typ := 1, CustomType := "", JsonTag := "" }]
    { Name := "M", Typ := 2, CustomType := "", JsonTag := "" }
    "unsupported map key type bool" _ _
    (by decide) rfl rfl (by decide) (by decide) rfl (Prod.ext rfl (by decide))
  ⟨by decide, congrArg Prod.snd h.2.1, by decide⟩

/-- C7 as stated fails: for the root `R` of `badKeyEnv`, which has a field of type
`map[bool]int`, the run returns the error after the header line, an empty line, the opening
line of the block and the line of the field `A` have been written. -/
theorem C7_counterexample :
    badKeyEnv.Kind 2 = Kind.Map ∧ badKeyEnv.Kind (badKeyEnv.Key 2) = Kind.Bool ∧
    (Collect 5 badKeyEnv ((NewContext testConfig).AddCustomHeader "// h") [some 4]).2 =
      Exec.ret none ∧
    (WriteFromContext 5 badKeyEnv
      (Collect 5 badKeyEnv ((NewContext testConfig).AddCustomHeader "// h") [some 4]).1 "").2 =
      Exec.ret (some "unsupported map key type bool") ∧
    (WriteFromContext 5 badKeyEnv
      (Collect 5 badKeyEnv ((NewContext testConfig).AddCustomHeader "// h") [some 4]).1 "").1.2 =
      "// h\n\nexport interface Pkg_R \x7b\n\tA: number;\n" := by
  decide

end Gotots

namespace Gotots

/-! ## Excluded and embedded fields -/

theorem collectFields_succ (fuel : Nat) (env : Env) (ctx : Context) (sinfo : StructInfo)
    (t : TypeId) (np : List String) (hk : env.Kind (env.deref t) = Kind.Struct) :
    CollectFields (fuel + 1) env ctx sinfo t np =
      forEach (CollectFields.field env (CollectType fuel env) (CollectFields fuel env) np)
        (env.Fields (env.deref t)) (ctx, sinfo) := by
  rw [CollectFields, if_pos hk]

/-- A loop skips an element on which its body does nothing. -/
theorem forEach_skip {σ α : Type} (body : σ → α → σ × Exec Error) (x : α)
    (hx : ∀ s, body s x = (s, Exec.ret none)) (pre post : List α) (s : σ) :
    forEach body (pre ++ x :: post) s = forEach body (pre ++ post) s := by
  rw [forEach_append, forEach_append, forEach_cons, hx]
  simp

theorem fieldJsonTag_empty : fieldJsonTag "" = "" := by
  unfold fieldJsonTag
  simp

theorem flattens_tag {env : Env} {f : StructField}
    (h : CollectFields.flattens env f = true) : f.jsonTag = "" ∨ f.jsonTag = "-" := by
  unfold CollectFields.flattens at h
  simp only [Bool.and_eq_true, Bool.not_eq_true', Bool.and_eq_false_iff, bne_eq_false_iff_eq]
    at h
  exact h.2

theorem flattens_of_embedded {env : Env} {f : StructField} (ha : f.Anonymous = true)
    (hk : env.Kind f.Typ = Kind.Struct ∨ env.Kind f.Typ = Kind.Ptr)
    (ht : f.jsonTag = "" ∨ f.jsonTag = "-") : CollectFields.flattens env f = true := by
  unfold CollectFields.flattens
  simp only [Bool.and_eq_true, Bool.or_eq_true, beq_iff_eq, Bool.not_eq_true',
    Bool.and_eq_false_iff, bne_eq_false_iff_eq]
  exact ⟨⟨ha, hk⟩, ht⟩

theorem not_flattens_of_tag {env : Env} {f : StructField} (h1 : f.jsonTag ≠ "")
    (h2 : f.jsonTag ≠ "-") : CollectFields.flattens env f = false := by
  cases h : CollectFields.flattens env f
  · rfl
  · rcases flattens_tag h with h3 | h3
    · exact absurd h3 h1
    · exact absurd h3 h2

/-- A field whose external name (the part of its `json` tag before the first comma) is `"-"`
and that is not sent to flattening contributes nothing to the field list and its type is not
submitted to `CollectType`: `CollectFields` runs exactly as on the record without the field.
The only field with that name that is sent to flattening is an embedded field of struct or
pointer kind whose tag is exactly `"-"`: for it the loop body is the recursive
`CollectFields` call. -/
theorem excluded_field_absent (fuel : Nat) (env : Env) (ctx : Context) (sinfo : StructInfo)
    (t : TypeId) (np : List String) (pre post : List StructField) (f : StructField)
    (hk : env.Kind (env.deref t) = Kind.Struct)
    (hf : env.Fields (env.deref t) = pre ++ f :: post)
    (hname : fieldJsonTag f.jsonTag = "-") :
    (CollectFields.flattens env f = false →
      CollectFields (fuel + 1) env ctx sinfo t np =
        forEach (CollectFields.field env (CollectType fuel env) (CollectFields fuel env) np)
          (pre ++ post) (ctx, sinfo)) ∧
    (CollectFields.flattens env f = true →
      f.jsonTag = "-" ∧
      ∀ st, CollectFields.field env (CollectType fuel env) (CollectFields fuel env) np st f =
        CollectFields fuel env st.1 st.2 f.Typ np) := by
  constructor
  · intro hfl
    rw [collectFields_succ fuel env ctx sinfo t np hk, hf]
    apply forEach_skip
    intro s
    unfold CollectFields.field
    rw [if_neg (by rw [hfl]; simp), if_pos (by exact hname)]
  · intro hfl
    constructor
    · rcases flattens_tag hfl with h | h
      · rw [h, fieldJsonTag_empty] at hname
        exact absurd hname (by decide)
      · exact h
    · intro st
      unfold CollectFields.field
      rw [if_pos hfl]

/-- At the record `N` of `embedEnv`: the field `Skip` with tag `"-"` is left out, and its
type `string` (1) is not in the cache after `Collect`. -/
theorem excluded_field_absent_example :
    (CollectFields 3 embedEnv (NewContext testConfig)
        { Typ := 6, Fields := [], GeneratedName := "Pkg_N" } 6 []).1.2.Fields =
      [{ Name := "K", Typ := 0, CustomType := "", JsonTag := "k" }] ∧
    (Collect 5 embedEnv (NewContext testConfig) [some 6]).1.Cache = [0, 6] :=
  ⟨(congrArg (fun r => r.1.2.Fields)
      ((excluded_field_absent 2 embedEnv (NewContext testConfig)
        { Typ := 6, Fields := [], GeneratedName := "Pkg_N" } 6 [] [] [plainField "K" 0 "k"]
        (plainField "Skip" 1 "-") (by decide) (by decide) (by decide)).1 (by decide))).trans
      (by decide),
   by decide⟩

/-- C9 fails on the code: in `type D struct { E "json:-" }` the embedded field has the
external name `"-"`, yet `Collect` puts the fields `X` and `Y` of `E` into the field list of
`D` and their types `int` (0) and `string` (1), reachable only through that field, into the
cache. The same field tagged `"-,omitempty"` (record `O`) and a field that is not embedded
(`Skip` of `N`) are excluded: nothing of them is in the field list or in the cache. -/
theorem C9_embedded_dash_flattened :
    embedEnv.Fields 5 = [embeddedField "E" 2 "-"] ∧
    (Collect 5 embedEnv (NewContext testConfig) [some 5]).2 = Exec.ret none ∧
    (Collect 5 embedEnv (NewContext testConfig) [some 5]).1.Structs =
      [{ Typ := 5,
         Fields := [{ Name := "X", Typ := 0, CustomType := "", JsonTag := "" },
           { Name := "Y", Typ := 1, CustomType := "", JsonTag := "" }],
         GeneratedName := "Pkg_D" }] ∧
    (Collect 5 embedEnv (NewContext testConfig) [some 5]).1.Cache = [1, 0, 5] ∧
    embedEnv.Fields 7 = [embeddedField "E" 2 "-,omitempty"] ∧
    (Collect 5 embedEnv (NewContext testConfig) [some 7]).1.Structs =
      [{ Typ := 7, Fields := [], GeneratedName := "Pkg_O" }] ∧
    (Collect 5 embedEnv (NewContext testConfig) [some 7]).1.Cache = [7] ∧
    (Collect 5 embedEnv (NewContext testConfig) [some 6]).1.Structs =
      [{ Typ := 6, Fields := [{ Name := "K", Typ := 0, CustomType := "", JsonTag := "k" }],
         GeneratedName := "Pkg_N" }] ∧
    (Collect 5 embedEnv (NewContext testConfig) [some 6]).1.Cache = [0, 6] := by
  decide

end Gotots

namespace Gotots

/-- Two runs of a loop from states with the same context, the field list of the first being
the field list of the second behind a prefix `p`. -/
theorem forEach_sim {α : Type} (p : List StructFieldInfo)
    (body : Context × StructInfo → α → (Context × StructInfo) × Exec Error)
    (hbody : ∀ a a0 x, a.1 = a0.1 → a.2.Fields = p ++ a0.2.Fields →
      ((body a x).1.1 = (body a0 x).1.1 ∧ (body a x).1.2.Fields = p ++ (body a0 x).1.2.Fields) ∧
      (body a x).2 = (body a0 x).2) (xs : List α) :
    ∀ a a0, a.1 = a0.1 → a.2.Fields = p ++ a0.2.Fields →
      ((forEach body xs a).1.1 = (forEach body xs a0).1.1 ∧
        (forEach body xs a).1.2.Fields = p ++ (forEach body xs a0).1.2.Fields) ∧
      (forEach body xs a).2 = (forEach body xs a0).2 := by
  induction xs with
  | nil => intro a a0 h1 h2; exact ⟨⟨h1, h2⟩, rfl⟩
  | cons x rest ih =>
    intro a a0 h1 h2
    obtain ⟨⟨b1, b2⟩, b3⟩ := hbody a a0 x h1 h2
    rw [forEach_cons, forEach_cons, b3]
    split
    · exact ih _ _ b1 b2
    · exact ⟨⟨b1, b2⟩, b3⟩

/-- The fields that `CollectFields` appends, the context it leaves and its result do not
depend on the fields already in the record. -/
theorem collectFields_sim (p : List StructFieldInfo) : ∀ (fuel : Nat) (env : Env)
    (ctx : Context) (s s0 : StructInfo) (t : TypeId) (np : List String),
    s.Fields = p ++ s0.Fields →
    ((CollectFields fuel env ctx s t np).1.1 = (CollectFields fuel env ctx s0 t np).1.1 ∧
      (CollectFields fuel env ctx s t np).1.2.Fields =
        p ++ (CollectFields fuel env ctx s0 t np).1.2.Fields) ∧
    (CollectFields fuel env ctx s t np).2 = (CollectFields fuel env ctx s0 t np).2 := by
  intro fuel
  induction fuel with
  | zero =>
    intro env ctx s s0 t np h
    rw [CollectFields, CollectFields]
    exact ⟨⟨rfl, h⟩, rfl⟩
  | succ fuel ih =>
    intro env ctx s s0 t np h
    rw [CollectFields, CollectFields]
    split
    · refine forEach_sim p _ ?_ _ (ctx, s) (ctx, s0) rfl h
      intro a a0 x h1 h2
      unfold CollectFields.field
      split
      · rw [h1]
        exact ih env a0.1 a.2 a0.2 x.Typ np h2
      · split
        · exact ⟨⟨h1, h2⟩, rfl⟩
        · split
          · rw [h1]
            split
            · exact ⟨⟨rfl, by simp [StructInfo.push, h2]⟩, rfl⟩
            · exact ⟨⟨rfl, h2⟩, rfl⟩
          · exact ⟨⟨h1, by simp [StructInfo.push, h2]⟩, rfl⟩
    · exact ⟨⟨rfl, h⟩, rfl⟩

/-- Flattening an embedded field into a record appends the fields that `CollectFields`
collects for the embedded type on its own. -/
theorem collectFields_splice (fuel : Nat) (env : Env) (c1 c2 : Context) (s1 sE : StructInfo)
    (t : TypeId) (np : List String)
    (h : CollectFields fuel env c1 { Typ := t, Fields := [], GeneratedName := "" } t np =
      ((c2, sE), Exec.ret none)) :
    CollectFields fuel env c1 s1 t np =
      ((c2, { s1 with Fields := s1.Fields ++ sE.Fields }), Exec.ret none) := by
  obtain ⟨⟨a1, a2⟩, a3⟩ := collectFields_sim s1.Fields fuel env c1 s1
    { Typ := t, Fields := [], GeneratedName := "" } t np (by simp)
  have hs := (collectFields_step fuel env c1 s1 t np).2
  rw [h] at a1 a2 a3
  dsimp only at a1 a2 a3
  refine Prod.ext (Prod.ext a1 ?_) a3
  cases hr : (CollectFields fuel env c1 s1 t np).1.2 with
  | mk ty fs nm =>
    rw [hr] at a2 hs
    have h1 := hs.typ
    have h2 := hs.name
    dsimp only at a2 h1 h2 ⊢
    rw [a2, h1, h2]

/-- In a record with an embedded field `e` of struct or pointer kind, after the fields before
`e` have been collected: when the `json` tag of `e` is empty or exactly `"-"`,
`CollectFields` appends at that position the fields it collects for the type of `e` on its
own, in that order, adds no field for `e` itself and goes on with the fields after `e`; when
the tag is not empty, not `"-"` and its name part is not `"-"`, `CollectFields` treats `e`
as an ordinary field: it submits its type to `CollectType` unless it has a custom-type
override, appends exactly one field for `e` and none of the fields of its type. -/
theorem embedded_field_collected (fuel : Nat) (env : Env) (ctx : Context) (sinfo : StructInfo)
    (t : TypeId) (np : List String) (pre post : List StructField) (e : StructField)
    (c1 : Context) (s1 : StructInfo)
    (hk : env.Kind (env.deref t) = Kind.Struct)
    (hf : env.Fields (env.deref t) = pre ++ e :: post)
    (ha : e.Anonymous = true)
    (hek : env.Kind e.Typ = Kind.Struct ∨ env.Kind e.Typ = Kind.Ptr)
    (hpre : forEach (CollectFields.field env (CollectType fuel env) (CollectFields fuel env) np)
      pre (ctx, sinfo) = ((c1, s1), Exec.ret none)) :
    (e.jsonTag = "" ∨ e.jsonTag = "-" → ∀ c2 sE,
      CollectFields fuel env c1 { Typ := e.Typ, Fields := [], GeneratedName := "" } e.Typ np =
        ((c2, sE), Exec.ret none) →
      CollectFields (fuel + 1) env ctx sinfo t np =
        forEach (CollectFields.field env (CollectType fuel env) (CollectFields fuel env) np)
          post (c2, { s1 with Fields := s1.Fields ++ sE.Fields })) ∧
    (e.jsonTag ≠ "" → e.jsonTag ≠ "-" → fieldJsonTag e.jsonTag ≠ "-" → ∀ c2,
      (if e.tstypeTag = "" then CollectType fuel env c1 e.Typ (fieldNamePath env np e)
        else (c1, Exec.ret none)) = (c2, Exec.ret none) →
      CollectFields (fuel + 1) env ctx sinfo t np =
        forEach (CollectFields.field env (CollectType fuel env) (CollectFields fuel env) np)
          post (c2, s1.push (CollectFields.sfield e))) := by
  constructor
  · intro htag c2 sE hE
    rw [collectFields_succ fuel env ctx sinfo t np hk, hf, forEach_append_ok hpre, forEach_cons]
    have hb : CollectFields.field env (CollectType fuel env) (CollectFields fuel env) np
        (c1, s1) e = ((c2, { s1 with Fields := s1.Fields ++ sE.Fields }), Exec.ret none) := by
      unfold CollectFields.field
      rw [if_pos (flattens_of_embedded ha hek htag)]
      exact collectFields_splice fuel env c1 c2 s1 sE e.Typ np hE
    rw [hb]
    simp
  · intro h1 h2 h3 c2 hT
    rw [collectFields_succ fuel env ctx sinfo t np hk, hf, forEach_append_ok hpre, forEach_cons]
    have hb : CollectFields.field env (CollectType fuel env) (CollectFields fuel env) np
        (c1, s1) e = ((c2, s1.push (CollectFields.sfield e)), Exec.ret none) := by
      unfold CollectFields.field
      rw [if_neg (by rw [not_flattens_of_tag h1 h2]; simp), if_neg (by exact h3)]
      by_cases hct : e.tstypeTag = ""
      · rw [if_pos (by exact hct)]
        rw [if_pos hct] at hT
        dsimp only
        rw [hT]
      · rw [if_neg (by exact hct)]
        rw [if_neg hct] at hT
        simp only [Prod.mk.injEq, and_true] at hT
        rw [hT]
    rw [hb]
    simp

end Gotots

namespace Gotots

/-- At `embedEnv`: in `type R struct { A int; E; B string }` the fields `X`, `Y` of `E`
stand between `A` and `B`; in `type T struct { E "json:base" }` there is one field for `E`. -/
theorem embedded_field_collected_example :
    (CollectFields 3 embedEnv (NewContext testConfig)
        { Typ := 3, Fields := [], GeneratedName := "Pkg_R" } 3 []).1.2.Fields =
      [{ Name := "A", Typ := 0, CustomType := "", JsonTag := "" },
       { Name := "X", Typ := 0, CustomType := "", JsonTag := "" },
       { Name := "Y", Typ := 1, CustomType := "", JsonTag := "" },
       { Name := "B", Typ := 1, CustomType := "", JsonTag := "" }] ∧
    (CollectFields 4 embedEnv (NewContext testConfig)
        { Typ := 4, Fields := [], GeneratedName := "Pkg_T" } 4 []).1.2.Fields =
      [{ Name := "E", Typ := 2, CustomType := "", JsonTag := "base" }] := by
  constructor
  · have h := (embedded_field_collected 2 embedEnv (NewContext testConfig)
      { Typ := 3, Fields := [], GeneratedName := "Pkg_R" } 3 []
      [plainField "A" 0 ""] [plainField "B" 1 ""] (embeddedField "E" 2 "")
      (forEach (CollectFields.field embedEnv (CollectType 2 embedEnv) (CollectFields 2 embedEnv)
        []) [plainField "A" 0 ""]
        (NewContext testConfig, { Typ := 3, Fields := [], GeneratedName := "Pkg_R" })).1.1
      (forEach (CollectFields.field embedEnv (CollectType 2 embedEnv) (CollectFields 2 embedEnv)
        []) [plainField "A" 0 ""]
        (NewContext testConfig, { Typ := 3, Fields := [], GeneratedName := "Pkg_R" })).1.2
      (by decide) (by decide) (by decide) (by decide) (Prod.ext rfl (by decide))).1 (Or.inl rfl)
      (CollectFields 2 embedEnv
        (forEach (CollectFields.field embedEnv (CollectType 2 embedEnv)
          (CollectFields 2 embedEnv) []) [plainField "A" 0 ""]
          (NewContext testConfig, { Typ := 3, Fields := [], GeneratedName := "Pkg_R" })).1.1
        { Typ := 2, Fields := [], GeneratedName := "" } 2 []).1.1
      (CollectFields 2 embedEnv
        (forEach (CollectFields.field embedEnv (CollectType 2 embedEnv)
          (CollectFields 2 embedEnv) []) [plainField "A" 0 ""]
          (NewContext testConfig, { Typ := 3, Fields := [], GeneratedName := "Pkg_R" })).1.1
        { Typ := 2, Fields := [], GeneratedName := "" } 2 []).1.2
      (Prod.ext rfl (by decide))
    rw [h]
    decide
  · have h := (embedded_field_collected 3 embedEnv (NewContext testConfig)
      { Typ := 4, Fields := [], GeneratedName := "Pkg_T" } 4 []
      [] [] (embeddedField "E" 2 "base") (NewContext testConfig)
      { Typ := 4, Fields := [], GeneratedName := "Pkg_T" }
      (by decide) (by decide) (by decide) (by decide) rfl).2 (by decide) (by decide) (by decide)
      (CollectType 3 embedEnv (NewContext testConfig) 2
        (fieldNamePath embedEnv [] (embeddedField "E" 2 "base"))).1
      ((if_pos (by decide)).trans (Prod.ext rfl (by decide)))
    rw [h]
    decide

/-- C10 fails on the code: in `type D struct { E "json:-" }` the embedded field carries an
external-name annotation, yet `CollectFields` splices the fields `X` and `Y` of `E` into the
field list of `D`. With the annotation `base` (record `T`) the field is one ordinary field
of type `E`, and with `-,omitempty` (record `O`) it is an ordinary field that is then
excluded: none of the fields of `E` is added in either case. -/
theorem C10_embedded_dash_spliced :
    embedEnv.Fields 5 = [embeddedField "E" 2 "-"] ∧
    (CollectFields 3 embedEnv (NewContext testConfig)
        { Typ := 5, Fields := [], GeneratedName := "Pkg_D" } 5 []).2 = Exec.ret none ∧
    (CollectFields 3 embedEnv (NewContext testConfig)
        { Typ := 5, Fields := [], GeneratedName := "Pkg_D" } 5 []).1.2.Fields =
      [{ Name := "X", Typ := 0, CustomType := "", JsonTag := "" },
       { Name := "Y", Typ := 1, CustomType := "", JsonTag := "" }] ∧
    embedEnv.Fields 4 = [embeddedField "E" 2 "base"] ∧
    (CollectFields 4 embedEnv (NewContext testConfig)
        { Typ := 4, Fields := [], GeneratedName := "Pkg_T" } 4 []).1.2.Fields =
      [{ Name := "E", Typ := 2, CustomType := "", JsonTag := "base" }] ∧
    embedEnv.Fields 7 = [embeddedField "E" 2 "-,omitempty"] ∧
    (CollectFields 3 embedEnv (NewContext testConfig)
        { Typ := 7, Fields := [], GeneratedName := "Pkg_O" } 7 []).1.2.Fields = [] := by
  decide

end Gotots

namespace Gotots

/-! ## Custom-type overrides in anonymous records -/

/-- C11 fails on the code: in `type R struct { D string "tstype:Custom"; Box struct { C string
"tstype:Custom" } }` both `D` and `C` declare the override `Custom`; the line of `D`, written
by `DescribeStruct`, has the override as its type, the line of `C`, written by the loop of
`GoTypeToTSType` over the anonymous record, has `string`. -/
theorem C11_override_ignored_in_anonymous_record :
    inlineOverrideEnv.Fields 1 =
      [{ Name := "C", Typ := 0, Anonymous := false, jsonTag := "", tstypeTag := "Custom" }] ∧
    (Collect 5 inlineOverrideEnv (NewContext testConfig) [some 2]).2 = Exec.ret none ∧
    (WriteFromContext 5 inlineOverrideEnv
      (Collect 5 inlineOverrideEnv (NewContext testConfig) [some 2]).1 "").2 = Exec.ret none ∧
    (WriteFromContext 5 inlineOverrideEnv
      (Collect 5 inlineOverrideEnv (NewContext testConfig) [some 2]).1 "").1.2 =
      "export interface Pkg_R \x7b\n\tD: Custom;\n\tBox: \x7b\n\t\tC: string;\n\t\x7d;\n\x7d\n\n" ∧
    (GoTypeToTSType 5 inlineOverrideEnv (NewContext testConfig) 1 false 1).2 =
      Exec.ret ("\x7b\n\t\tC: string;\n\t\x7d", false, none) := by
  decide

/-! ## Maps -/

/-- C13: `GoTypeToTsTypeMapKey` returns "number" without error exactly for the key kinds `Int`,
`Int8`, `Int16`, `Int32`, `Uint`, `Uint8`, `Uint16`, `Uint32`, `Float32`, `Float64`, returns
"string" without error exactly for `String`, `Int64`, `Uint64`, and for every other kind
returns an error with an empty expression. -/
theorem C13_map_key_kinds (env : Env) (t : TypeId) :
    (GoTypeToTsTypeMapKey env t = ("number", none) ↔
      env.Kind t ∈ [Kind.Int, Kind.Int8, Kind.Int16, Kind.Int32, Kind.Uint, Kind.Uint8,
        Kind.Uint16, Kind.Uint32, Kind.Float32, Kind.Float64]) ∧
    (GoTypeToTsTypeMapKey env t = ("string", none) ↔
      env.Kind t ∈ [Kind.String, Kind.Int64, Kind.Uint64]) ∧
    ((GoTypeToTsTypeMapKey env t).2 = none ↔
      env.Kind t ∈ [Kind.Int, Kind.Int8, Kind.Int16, Kind.Int32, Kind.Uint, Kind.Uint8,
        Kind.Uint16, Kind.Uint32, Kind.Float32, Kind.Float64, Kind.String, Kind.Int64,
        Kind.Uint64]) ∧
    ((GoTypeToTsTypeMapKey env t).2 ≠ none ↔
      GoTypeToTsTypeMapKey env t = ("", some ("unsupported map key type " ++ env.Str t))) ∧
    GoTypeToTsTypeMapKey env t =
      (match specMapKeyExpr (env.Kind t) with
        | some e => (e, none)
        | none => ("", some ("unsupported map key type " ++ env.Str t))) := by
  unfold GoTypeToTsTypeMapKey
  generalize env.Kind t = k
  cases k <;> simp [specMapKeyExpr]

/-- C14: for a map type whose key type `GoTypeToTsTypeMapKey` maps to `K` without error and
whose value type `GoTypeToTSType` maps (not from a pointer, at the same depth) to `e` with
optionality `o`, `GoTypeToTSType` returns `{ [key: K]: (e | undefined) }` when `o` is true
and `{ [key: K]: e }` when `o` is false, without error, and the returned `isOptional` is the
`fromPtr` argument. -/
theorem C14_map_expression (fuel : Nat) (env : Env) (ctx ctx1 : Context) (t : TypeId)
    (fromPtr : Bool) (depth : Nat) (K e : String) (o : Bool)
    (hk : env.Kind t = Kind.Map)
    (hkey : GoTypeToTsTypeMapKey env (env.Key t) = (K, none))
    (hval : GoTypeToTSType fuel env ctx (env.Elem t) false depth =
      (ctx1, Exec.ret (e, o, none))) :
    GoTypeToTSType (fuel + 1) env ctx t fromPtr depth =
      (ctx1, Exec.ret
        (if o = true then "\x7b [key: " ++ K ++ "]: (" ++ e ++ " | undefined) \x7d"
          else "\x7b [key: " ++ K ++ "]: " ++ e ++ " \x7d", fromPtr, none)) := by
  rw [GoTypeToTSType, hk]
  dsimp only
  rw [hkey]
  dsimp only
  rw [hval]
  cases o <;> rfl

end Gotots

namespace Gotots

/-- C14 at the type `map[int][]struct` of the field `Metadata` of the test: the value is a
slice, hence optional, and the key is numeric. -/
theorem C14_map_expression_witness :
    testEnv.Kind 16 = Kind.Map ∧
    GoTypeToTsTypeMapKey testEnv (testEnv.Key 16) = ("number", none) ∧
    (GoTypeToTSType 4 testEnv (NewContext testConfig) (testEnv.Elem 16) false 1).2 =
      Exec.ret ("\x7b\n\t\tdescription: string;\n\t\timportant: boolean;\n\t\x7d[]", true, none) ∧
    (GoTypeToTSType 5 testEnv (NewContext testConfig) 16 false 1).2 =
      Exec.ret ("\x7b [key: number]: (\x7b\n\t\tdescription: string;\n\t\timportant: boolean;\n\t\x7d[] | undefined) \x7d",
        false, none) := by
  refine ⟨by decide, by decide, by decide, ?_⟩
  rw [C14_map_expression 4 testEnv (NewContext testConfig)
    (GoTypeToTSType 4 testEnv (NewContext testConfig) (testEnv.Elem 16) false 1).1 16 false 1
    "number" "\x7b\n\t\tdescription: string;\n\t\timportant: boolean;\n\t\x7d[]" true
    (by decide) (by decide) (Prod.ext rfl (by decide))]
  decide

end Gotots

namespace Gotots

/-! ## The mapper and the context -/

/-- C19 fails on the code: on the context left by collecting `R` of `nestedEnv`
(`type R struct { E; Box struct { In Inner } }`), mapping the anonymous record of `Box` runs
`CollectFields`, which submits `Inner` to `CollectType`: the call adds `Inner` to `Cache`,
to `TypeNames` and to `Structs`. A first `WriteFromContext` writes the block of `R` only, a
second one on the context left by the first writes the block of `Inner` as well. -/
theorem C19_mapper_changes_context :
    (Collect 6 nestedEnv (NewContext testConfig) [some 4]).2 = Exec.ret none ∧
    (Collect 6 nestedEnv (NewContext testConfig) [some 4]).1.Cache = [2, 0, 4] ∧
    (Collect 6 nestedEnv (NewContext testConfig) [some 4]).1.TypeNames = [(4, "Pkg_R")] ∧
    (Collect 6 nestedEnv (NewContext testConfig) [some 4]).1.Structs.map StructInfo.Typ = [4] ∧
    (GoTypeToTSType 6 nestedEnv (Collect 6 nestedEnv (NewContext testConfig) [some 4]).1
      2 false 1).2 = Exec.ret ("\x7b\n\t\tIn: Pkg_Inner;\n\t\x7d", false, none) ∧
    (GoTypeToTSType 6 nestedEnv (Collect 6 nestedEnv (NewContext testConfig) [some 4]).1
      2 false 1).1.Cache = [1, 2, 0, 4] ∧
    (GoTypeToTSType 6 nestedEnv (Collect 6 nestedEnv (NewContext testConfig) [some 4]).1
      2 false 1).1.TypeNames = [(1, "Pkg_Inner"), (4, "Pkg_R")] ∧
    (GoTypeToTSType 6 nestedEnv (Collect 6 nestedEnv (NewContext testConfig) [some 4]).1
      2 false 1).1.Structs.map StructInfo.Typ = [4, 1] ∧
    (WriteFromContext 6 nestedEnv (Collect 6 nestedEnv (NewContext testConfig) [some 4]).1
      "").2 = Exec.ret none ∧
    (WriteFromContext 6 nestedEnv (Collect 6 nestedEnv (NewContext testConfig) [some 4]).1
      "").1.2 =
      "export interface Pkg_R \x7b\n\tX: number;\n\tBox: \x7b\n\t\tIn: Pkg_Inner;\n\t\x7d;\n\x7d\n\n" ∧
    (WriteFromContext 6 nestedEnv
      (WriteFromContext 6 nestedEnv (Collect 6 nestedEnv (NewContext testConfig) [some 4]).1
        "").1.1 "").2 = Exec.ret none ∧
    (WriteFromContext 6 nestedEnv
      (WriteFromContext 6 nestedEnv (Collect 6 nestedEnv (NewContext testConfig) [some 4]).1
        "").1.1 "").1.2 =
      "export interface Pkg_R \x7b\n\tX: number;\n\tBox: \x7b\n\t\tIn: Pkg_Inner;\n\t\x7d;\n\x7d\n\n" ++
        "export interface Pkg_Inner \x7b\n\tV: number;\n\x7d\n\n" := by
  decide

/-! ## Flattening an embedded pointer to a type that is not a record -/

/-- C20 fails on the code: in `type MyInt int; type R struct { *MyInt }` the embedded field is
a pointer, so `CollectFields` calls itself on `*MyInt`, dereferences it to `MyInt`, of kind
`Int`, and the field enumeration panics, whatever the call depth allowed; `Collect` on `R`
ends with that panic. -/
theorem C20_numField_on_embedded_pointer :
    badEmbedEnv.Fields 2 = [embeddedField "MyInt" 1 ""] ∧
    badEmbedEnv.Kind 1 = Kind.Ptr ∧
    badEmbedEnv.Kind (badEmbedEnv.deref 1) = Kind.Int ∧
    (∀ (fuel : Nat) (ctx : Context) (sinfo : StructInfo) (np : List String),
      CollectFields (fuel + 2) badEmbedEnv ctx sinfo 2 np =
        ((ctx, sinfo), Exec.panic "reflect: NumField of non-struct type")) ∧
    (∀ fuel : Nat, (Collect (fuel + 3) badEmbedEnv (NewContext testConfig) [some 2]).2 =
      Exec.panic "reflect: NumField of non-struct type") := by
  refine ⟨by decide, by decide, by decide, ?_, ?_⟩
  · intro fuel ctx sinfo np
    rfl
  · intro fuel
    rfl

/-! ## The roots of `Collect` -/

/-- One root: `Collect.root` returns the error exactly on a root whose type, after the
dereferencing step, has an empty package path, when it returns at all. -/
theorem collect_root_returns (fuel : Nat) (env : Env) (ctx : Context) (root : Option TypeId)
    (r : Error) (h : (Collect.root fuel env ctx root).2 = Exec.ret r) :
    r ≠ none ↔ ∃ ty, root = some ty ∧ env.PkgPath (env.deref ty) = "" := by
  unfold Collect.root at h
  split at h
  · simp at h
  · rename_i ty
    split at h
    · rename_i hp
      simp only [Exec.ret.injEq] at h
      subst h
      simp [hp]
    · rename_i hp
      have hr : r = none := by
        cases r with
        | none => rfl
        | some e =>
          split at h
          · exact absurd h ((collect_no_error fuel).1 _ _ _ _ _)
          · simp at h
          · simp at h
      subst hr
      simp [hp]

/-- A call of `Collect` that returns, returns an error exactly when some root has a type that,
after the dereferencing step, has an empty package path. -/
theorem collect_returns (fuel : Nat) (env : Env) (roots : List (Option TypeId)) :
    ∀ (ctx : Context) (r : Error), (Collect fuel env ctx roots).2 = Exec.ret r →
    (r ≠ none ↔ ∃ ty, some ty ∈ roots ∧ env.PkgPath (env.deref ty) = "") := by
  unfold Collect
  induction roots with
  | nil =>
    intro ctx r h
    rw [forEach_nil] at h
    simp only [Exec.ret.injEq] at h
    subst h
    simp
  | cons x rest ih =>
    intro ctx r h
    rw [forEach_cons] at h
    split at h
    · rename_i heq
      have hx := collect_root_returns fuel env ctx x none heq
      rw [ih _ r h]
      simp only [ne_eq, not_true_eq_false, false_iff, not_exists, not_and] at hx
      constructor
      · rintro ⟨ty, hm, hp⟩
        exact ⟨ty, List.mem_cons_of_mem _ hm, hp⟩
      · rintro ⟨ty, hm, hp⟩
        rcases List.mem_cons.1 hm with hm | hm
        · exact absurd hp (hx ty hm.symm)
        · exact ⟨ty, hm, hp⟩
    · rename_i hne
      have hx := collect_root_returns fuel env ctx x r h
      have hr : r ≠ none := by
        intro hr
        subst hr
        exact hne h
      constructor
      · intro _
        obtain ⟨ty, hty, hp⟩ := hx.1 hr
        exact ⟨ty, by simp [hty], hp⟩
      · intro _
        exact hr

/-- C17 fails on the code: with the roots `R{}` and `0` of `badEmbedEnv`, the type `int` of the
second root has an empty package path, and `Collect` returns no error: it panics while it
collects the first root. On the root `0` alone it returns the error. -/
theorem C17_panic_before_anonymous_root :
    badEmbedEnv.PkgPath (badEmbedEnv.deref 2) = "pkg" ∧
    badEmbedEnv.PkgPath (badEmbedEnv.deref 3) = "" ∧
    (Collect 4 badEmbedEnv (NewContext testConfig) [some 3]).2 =
      Exec.ret (some "anonymous types are not supported for root type") ∧
    (∀ fuel : Nat, (Collect (fuel + 3) badEmbedEnv (NewContext testConfig) [some 2, some 3]).2 =
      Exec.panic "reflect: NumField of non-struct type") := by
  refine ⟨by decide, by decide, by decide, ?_⟩
  intro fuel
  rfl

end Gotots

namespace Gotots

/-! ## Fields with a custom-type override -/

/-- The loop body of `CollectFields` does not look at the fields already in the record. -/
theorem collectFields_field_sim (p : List StructFieldInfo) (fuel : Nat) (env : Env)
    (np : List String) (a a0 : Context × StructInfo) (x : StructField)
    (h1 : a.1 = a0.1) (h2 : a.2.Fields = p ++ a0.2.Fields) :
    ((CollectFields.field env (CollectType fuel env) (CollectFields fuel env) np a x).1.1 =
        (CollectFields.field env (CollectType fuel env) (CollectFields fuel env) np a0 x).1.1 ∧
      (CollectFields.field env (CollectType fuel env) (CollectFields fuel env) np a x).1.2.Fields =
        p ++ (CollectFields.field env (CollectType fuel env) (CollectFields fuel env) np
          a0 x).1.2.Fields) ∧
    (CollectFields.field env (CollectType fuel env) (CollectFields fuel env) np a x).2 =
      (CollectFields.field env (CollectType fuel env) (CollectFields fuel env) np a0 x).2 := by
  unfold CollectFields.field
  split
  · rw [h1]
    exact collectFields_sim p fuel env a0.1 a.2 a0.2 x.Typ np h2
  · split
    · exact ⟨⟨h1, h2⟩, rfl⟩
    · split
      · rw [h1]
        split
        · exact ⟨⟨rfl, by simp [StructInfo.push, h2]⟩, rfl⟩
        · exact ⟨⟨rfl, h2⟩, rfl⟩
      · exact ⟨⟨h1, by simp [StructInfo.push, h2]⟩, rfl⟩

/-- A field appended to the record before the loop of `CollectFields` goes on changes neither
the context nor the result of the rest of the loop, and stays in front of what the rest
appends. -/
theorem collectFields_loop_push (fuel : Nat) (env : Env) (np : List String)
    (post : List StructField) (c : Context) (s : StructInfo) (x : StructFieldInfo) :
    (forEach (CollectFields.field env (CollectType fuel env) (CollectFields fuel env) np)
        post (c, s.push x)).1.1 =
      (forEach (CollectFields.field env (CollectType fuel env) (CollectFields fuel env) np)
        post (c, s)).1.1 ∧
    (forEach (CollectFields.field env (CollectType fuel env) (CollectFields fuel env) np)
        post (c, s.push x)).2 =
      (forEach (CollectFields.field env (CollectType fuel env) (CollectFields fuel env) np)
        post (c, s)).2 ∧
    ∃ rest,
      (forEach (CollectFields.field env (CollectType fuel env) (CollectFields fuel env) np)
        post (c, s)).1.2.Fields = s.Fields ++ rest ∧
      (forEach (CollectFields.field env (CollectType fuel env) (CollectFields fuel env) np)
        post (c, s.push x)).1.2.Fields = s.Fields ++ x :: rest := by
  obtain ⟨⟨a1, a2⟩, a3⟩ := forEach_sim (s.Fields ++ [x])
    (CollectFields.field env (CollectType fuel env) (CollectFields fuel env) np)
    (fun a a0 y h1 h2 => collectFields_field_sim _ fuel env np a a0 y h1 h2) post
    (c, s.push x) (c, { s with Fields := [] }) rfl (by simp [StructInfo.push])
  obtain ⟨⟨b1, b2⟩, b3⟩ := forEach_sim s.Fields
    (CollectFields.field env (CollectType fuel env) (CollectFields fuel env) np)
    (fun a a0 y h1 h2 => collectFields_field_sim _ fuel env np a a0 y h1 h2) post
    (c, s) (c, { s with Fields := [] }) rfl (by simp)
  refine ⟨a1.trans b1.symm, a3.trans b3.symm, _, b2, ?_⟩
  rw [a2]
  simp

/-- C12 (amended): for a non-embedded field `f` with a non-empty custom-type override whose
external name is not `"-"`, reached by the loop of `CollectFields` after the fields before it
were collected: the loop body appends to the record the field of `f`, which carries the
override, and leaves the context as it is (the type of `f` is not submitted to
`CollectType`); the context left by `CollectFields` (with `Cache`, `TypeNames`
and `Structs`) and its result are those of the same loop over the fields without `f`, and the
record has the same fields with the field of `f` at its position. -/
theorem C12_overridden_field (fuel : Nat) (env : Env) (ctx : Context) (sinfo : StructInfo)
    (t : TypeId) (np : List String) (pre post : List StructField) (f : StructField)
    (c1 : Context) (s1 : StructInfo)
    (hk : env.Kind (env.deref t) = Kind.Struct)
    (hf : env.Fields (env.deref t) = pre ++ f :: post)
    (ha : f.Anonymous = false)
    (hj : fieldJsonTag f.jsonTag ≠ "-")
    (ho : f.tstypeTag ≠ "")
    (hpre : forEach (CollectFields.field env (CollectType fuel env) (CollectFields fuel env) np)
      pre (ctx, sinfo) = ((c1, s1), Exec.ret none)) :
    CollectFields.field env (CollectType fuel env) (CollectFields fuel env) np (c1, s1) f =
      ((c1, s1.push (CollectFields.sfield f)), Exec.ret none) ∧
    (CollectFields.sfield f).CustomType = f.tstypeTag ∧
    (CollectFields (fuel + 1) env ctx sinfo t np).1.1 =
      (forEach (CollectFields.field env (CollectType fuel env) (CollectFields fuel env) np)
        (pre ++ post) (ctx, sinfo)).1.1 ∧
    (CollectFields (fuel + 1) env ctx sinfo t np).2 =
      (forEach (CollectFields.field env (CollectType fuel env) (CollectFields fuel env) np)
        (pre ++ post) (ctx, sinfo)).2 ∧
    ∃ rest,
      (forEach (CollectFields.field env (CollectType fuel env) (CollectFields fuel env) np)
        (pre ++ post) (ctx, sinfo)).1.2.Fields = s1.Fields ++ rest ∧
      (CollectFields (fuel + 1) env ctx sinfo t np).1.2.Fields =
        s1.Fields ++ CollectFields.sfield f :: rest := by
  have hb : CollectFields.field env (CollectType fuel env) (CollectFields fuel env) np
      (c1, s1) f = ((c1, s1.push (CollectFields.sfield f)), Exec.ret none) := by
    unfold CollectFields.field
    rw [if_neg (by simp [CollectFields.flattens, ha]), if_neg (by exact hj),
      if_neg (by exact ho)]
  have hrun : CollectFields (fuel + 1) env ctx sinfo t np =
      forEach (CollectFields.field env (CollectType fuel env) (CollectFields fuel env) np)
        post (c1, s1.push (CollectFields.sfield f)) := by
    rw [collectFields_succ fuel env ctx sinfo t np hk, hf, forEach_append_ok hpre, forEach_cons,
      hb]
    simp
  obtain ⟨p1, p2, rest, p3, p4⟩ :=
    collectFields_loop_push fuel env np post c1 s1 (CollectFields.sfield f)
  rw [hrun, forEach_append_ok hpre]
  exact ⟨hb, rfl, p1, p2, rest, p3, p4⟩

end Gotots

namespace Gotots

/-- C12 at the field `A Inner "tstype:X"` of `R` in `overrideSkipEnv`: the field is recorded
with the override `X`, and the cache holds `int` (3) only: `Inner` (1) is not visited. -/
theorem C12_overridden_field_witness :
    (CollectFields 3 overrideSkipEnv (NewContext testConfig)
        { Typ := 2, Fields := [], GeneratedName := "Pkg_R" } 2 []).1.1.Cache =
      (forEach (CollectFields.field overrideSkipEnv (CollectType 2 overrideSkipEnv)
          (CollectFields 2 overrideSkipEnv) [])
        [{ Name := "B", Typ := 0, Anonymous := false, jsonTag := "-", tstypeTag := "Y" },
          plainField "C" 3 ""]
        (NewContext testConfig, { Typ := 2, Fields := [], GeneratedName := "Pkg_R" })).1.1.Cache ∧
    (CollectFields 3 overrideSkipEnv (NewContext testConfig)
        { Typ := 2, Fields := [], GeneratedName := "Pkg_R" } 2 []).1.1.Cache = [3] ∧
    (CollectFields 3 overrideSkipEnv (NewContext testConfig)
        { Typ := 2, Fields := [], GeneratedName := "Pkg_R" } 2 []).1.2.Fields =
      [{ Name := "A", Typ := 1, CustomType := "X", JsonTag := "" },
       { Name := "C", Typ := 3, CustomType := "", JsonTag := "" }] :=
  ⟨congrArg Context.Cache
    (C12_overridden_field 2 overrideSkipEnv (NewContext testConfig)
      { Typ := 2, Fields := [], GeneratedName := "Pkg_R" } 2 [] []
      [{ Name := "B", Typ := 0, Anonymous := false, jsonTag := "-", tstypeTag := "Y" },
        plainField "C" 3 ""]
      { Name := "A", Typ := 1, Anonymous := false, jsonTag := "", tstypeTag := "X" }
      (NewContext testConfig) { Typ := 2, Fields := [], GeneratedName := "Pkg_R" }
      (by decide) (by decide) rfl (by decide) (by decide) rfl).2.2.1,
    by decide, by decide⟩

/-- C12 as stated fails: the field `B string "json:- tstype:Y"` of `R` is not embedded and has
a custom-type override, and `CollectFields` does not record it. -/
theorem C12_counterexample :
    overrideSkipEnv.Fields 2 =
      [{ Name := "A", Typ := 1, Anonymous := false, jsonTag := "", tstypeTag := "X" },
       { Name := "B", Typ := 0, Anonymous := false, jsonTag := "-", tstypeTag := "Y" },
       plainField "C" 3 ""] ∧
    (CollectFields 3 overrideSkipEnv (NewContext testConfig)
        { Typ := 2, Fields := [], GeneratedName := "Pkg_R" } 2 []).2 = Exec.ret none ∧
    (CollectFields 3 overrideSkipEnv (NewContext testConfig)
        { Typ := 2, Fields := [], GeneratedName := "Pkg_R" } 2 []).1.2.Fields =
      [{ Name := "A", Typ := 1, CustomType := "X", JsonTag := "" },
       { Name := "C", Typ := 3, CustomType := "", JsonTag := "" }] := by
  decide

end Gotots

namespace Gotots

/-! ## The text written by `WriteFromContext` -/

theorem concatLines_append (xs ys : List String) :
    concatLines (xs ++ ys) = concatLines xs ++ concatLines ys := by
  induction xs with
  | nil => simp [concatLines]
  | cons x rest ih => simp [concatLines, ih, String.append_assoc]

/-- The header loop writes every header followed by a newline. -/
theorem foldl_headers (hs : List String) (w : String) :
    hs.foldl (fun acc header => acc ++ (header ++ "\n")) w =
      w ++ concatLines (hs.map (fun h => h ++ "\n")) := by
  induction hs generalizing w with
  | nil => simp [concatLines]
  | cons h rest ih => rw [List.foldl_cons, ih, List.map_cons, concatLines, String.append_assoc]

/-- The first part of `WriteFromContext` writes the headers of the specification. -/
theorem headers_eq_spec (ctx : Context) (w : String) :
    WriteFromContext.headers ctx w = w ++ specHeaders ctx.customHeaders := by
  unfold WriteFromContext.headers specHeaders
  dsimp only
  rw [foldl_headers]
  split
  · rw [String.append_assoc]
  · simp

theorem specExprs_length (fuel : Nat) (env : Env) (gs : List StructFieldInfo) :
    ∀ c : Context, (specExprs fuel env c gs).length = gs.length := by
  induction gs with
  | nil => intro c; rfl
  | cons g rest ih => intro c; simp [specExprs, ih]

theorem specExprss_lengths (fuel : Nat) (env : Env) (ss : List StructInfo) :
    ∀ c : Context, List.Forall₂ (fun (s : StructInfo) (es : List String) =>
      es.length = s.Fields.length) ss (specExprss fuel env c ss) := by
  induction ss with
  | nil => intro c; exact List.Forall₂.nil
  | cons s rest ih =>
    intro c
    exact List.Forall₂.cons (specExprs_length fuel env s.Fields c) (ih _)

/-- The line that `DescribeStruct` writes for a field: the expression in it is the custom-type
override or what the mapper returns for the type of the field in the context of that moment,
and the context handed on is the one the mapper leaves. -/
theorem describeStruct_field_line (fuel : Nat) (env : Env) (st st1 : Context × String)
    (field : StructFieldInfo)
    (h : DescribeStruct.field fuel env st field = (st1, Exec.ret none)) :
    st1.2 = st.2 ++ specFieldLine env st.1.indent field (specFieldExpr fuel env st.1 field) ∧
    st1.1 = specFieldCtx fuel env st.1 field := by
  have hg := describeStruct_field_grows fuel env st field
  rw [h] at hg
  have hi := indent_of_grows hg
  unfold DescribeStruct.field at h
  unfold specFieldExpr specFieldCtx
  by_cases hc : field.CustomType = ""
  · rw [if_pos hc] at h
    rw [if_pos hc, if_pos hc]
    split at h
    · rename_i ctx1 tstype isOptional heq
      have ho := goTypeToTSType_optional _ _ _ _ _ _ _ _ _ _ heq rfl
      simp only [Prod.mk.injEq, and_true] at h
      subst h
      rw [heq]
      simp only at hi
      simp only [specFieldLine, specOptionalMark, hc, hi, ho, Bool.false_or, true_and, and_true]
    all_goals simp at h
  · rw [if_neg hc] at h
    rw [if_neg hc, if_neg hc]
    simp only [Prod.mk.injEq, and_true] at h
    subst h
    simp [specFieldLine, specOptionalMark, hc]

/-- The lines that the loop of `DescribeStruct` writes, one a field, in field order. -/
theorem describeStruct_fields_lines (fuel : Nat) (env : Env) (fields : List StructFieldInfo) :
    ∀ (st st1 : Context × String),
    forEach (DescribeStruct.field fuel env) fields st = (st1, Exec.ret none) →
    st1.2 = st.2 ++ concatLines (List.zipWith (specFieldLine env st.1.indent) fields
      (specExprs fuel env st.1 fields)) ∧
    st1.1 = fields.foldl (specFieldCtx fuel env) st.1 := by
  induction fields with
  | nil =>
    intro st st1 h
    rw [forEach_nil] at h
    simp only [Prod.mk.injEq, and_true] at h
    subst h
    simp [specExprs, concatLines]
  | cons f rest ih =>
    intro st st1 h
    obtain ⟨s1, h1, h2⟩ := forEach_cons_ok h
    obtain ⟨he, hc⟩ := describeStruct_field_line fuel env st s1 f h1
    obtain ⟨hes, hcs⟩ := ih s1 st1 h2
    have hg := describeStruct_field_grows fuel env st f
    rw [h1] at hg
    rw [hes, hcs, he, indent_of_grows hg, hc]
    simp [specExprs, concatLines, String.append_assoc]

/-- The block that `WriteFromContext` writes for one record, with its empty line. -/
theorem block_eq_spec (fuel : Nat) (env : Env) (st st1 : Context × String) (s : StructInfo)
    (h : WriteFromContext.block fuel env st s = (st1, Exec.ret none)) :
    st1.2 = st.2 ++ specBlock env st.1.indent s (specExprs fuel env st.1 s.Fields) ∧
    st1.1 = s.Fields.foldl (specFieldCtx fuel env) st.1 := by
  unfold WriteFromContext.block at h
  split at h
  · rename_i c1 w1 heq
    unfold DescribeStruct at heq
    split at heq
    · rename_i c2 w2 heq2
      obtain ⟨he, hc⟩ := describeStruct_fields_lines fuel env s.Fields _ _ heq2
      simp only [Prod.mk.injEq, and_true] at heq h
      simp only at he hc
      rw [← h]
      dsimp only
      rw [← heq.2, ← heq.1, he, hc]
      simp [specBlock, String.append_assoc]
    · rename_i hne
      exact absurd heq (hne _ _)
  · rename_i hne
    exact absurd h (hne _ _)

/-- The blocks that the second loop of `WriteFromContext` writes, in list order. -/
theorem blocks_eq_spec (fuel : Nat) (env : Env) (structs : List StructInfo) :
    ∀ (st st1 : Context × String),
    forEach (WriteFromContext.block fuel env) structs st = (st1, Exec.ret none) →
    st1.2 = st.2 ++ concatLines (List.zipWith (specBlock env st.1.indent) structs
      (specExprss fuel env st.1 structs)) := by
  induction structs with
  | nil =>
    intro st st1 h
    rw [forEach_nil] at h
    simp only [Prod.mk.injEq, and_true] at h
    subst h
    simp [specExprss, concatLines]
  | cons s rest ih =>
    intro st st1 h
    obtain ⟨s1, h1, h2⟩ := forEach_cons_ok h
    obtain ⟨he, hc⟩ := block_eq_spec fuel env st s1 s h1
    have hes := ih s1 st1 h2
    have hg := writeFromContext_block_grows fuel env st s
    rw [h1] at hg
    rw [hes, he, indent_of_grows hg, hc]
    simp [specExprss, concatLines, String.append_assoc]

/-- C16: when `WriteFromContext` ends without error, the text it has appended to the writer
is: each custom header followed by a newline, in insertion order; one empty line exactly when
there is a header; then for each entry of `ctx.Structs`, in list order, the line
`export interface <GeneratedName> {`, one line `<indent><name><mark>: <expression>;` a field
in field order, the line `}` and an empty line. The expression of a field is its custom-type
override or, without override, the expression that the mapper returns for the type of the
field in the context left by the fields written before it; there is one expression for every
field. With no header and no record the writer is left as it was. -/
theorem C16_written_text (fuel : Nat) (env : Env) (ctx ctx1 : Context) (w w1 : String)
    (h : WriteFromContext fuel env ctx w = ((ctx1, w1), Exec.ret none)) :
    w1 = w ++ specHeaders ctx.customHeaders ++
      concatLines (List.zipWith (specBlock env ctx.indent) ctx.Structs
        (specExprss fuel env ctx ctx.Structs)) ∧
    List.Forall₂ (fun (s : StructInfo) (es : List String) => es.length = s.Fields.length)
      ctx.Structs (specExprss fuel env ctx ctx.Structs) ∧
    (ctx.customHeaders = [] → ctx.Structs = [] → w1 = w) := by
  unfold WriteFromContext at h
  refine ⟨?_, specExprss_lengths fuel env ctx.Structs ctx, ?_⟩
  · have he := blocks_eq_spec fuel env ctx.Structs _ _ h
    simp only at he
    rw [he, headers_eq_spec]
  · intro hh hs
    rw [hs, forEach_nil] at h
    simp only [Prod.mk.injEq, and_true] at h
    rw [← h.2, headers_eq_spec, hh]
    simp [specHeaders, concatLines]

end Gotots

namespace Gotots

/-- C16 at the context of the test "Works with multiple types", written after a newline, and
at the record `R` of `nestedEnv`, whose anonymous record names `Inner`. -/
theorem C16_written_text_witness :
    (WriteFromContext 3 twoRootsEnv
        (Collect 3 twoRootsEnv (NewContext testConfig) [some 2, some 3]).1 "\n").1.2 =
      "\n" ++ specHeaders (Collect 3 twoRootsEnv (NewContext testConfig)
          [some 2, some 3]).1.customHeaders ++
        concatLines (List.zipWith
          (specBlock twoRootsEnv (Collect 3 twoRootsEnv (NewContext testConfig)
            [some 2, some 3]).1.indent)
          (Collect 3 twoRootsEnv (NewContext testConfig) [some 2, some 3]).1.Structs
          (specExprss 3 twoRootsEnv (Collect 3 twoRootsEnv (NewContext testConfig)
            [some 2, some 3]).1
            (Collect 3 twoRootsEnv (NewContext testConfig) [some 2, some 3]).1.Structs)) ∧
    specExprss 3 twoRootsEnv (Collect 3 twoRootsEnv (NewContext testConfig) [some 2, some 3]).1
        (Collect 3 twoRootsEnv (NewContext testConfig) [some 2, some 3]).1.Structs =
      [["number"], ["string"]] ∧
    (WriteFromContext 3 twoRootsEnv
        (Collect 3 twoRootsEnv (NewContext testConfig) [some 2, some 3]).1 "\n").1.2 =
      "\nexport interface Gotots_test_T1 \x7b\n\ta: number;\n\x7d\n\n" ++
        "export interface Gotots_test_T2 \x7b\n\tb: string;\n\x7d\n\n" ∧
    specExprss 6 nestedEnv (Collect 6 nestedEnv (NewContext testConfig) [some 4]).1
        (Collect 6 nestedEnv (NewContext testConfig) [some 4]).1.Structs =
      [["number", "\x7b\n\t\tIn: Pkg_Inner;\n\t\x7d"]] :=
  ⟨(C16_written_text 3 twoRootsEnv
    (Collect 3 twoRootsEnv (NewContext testConfig) [some 2, some 3]).1
    (WriteFromContext 3 twoRootsEnv
      (Collect 3 twoRootsEnv (NewContext testConfig) [some 2, some 3]).1 "\n").1.1
    "\n"
    (WriteFromContext 3 twoRootsEnv
      (Collect 3 twoRootsEnv (NewContext testConfig) [some 2, some 3]).1 "\n").1.2
    (Prod.ext rfl (by decide))).1, by decide, by decide, by decide⟩

end Gotots

namespace Gotots

/-! ## Records whose fields have a primitive kind -/

theorem primitive_not_composite {k : Kind} (h : specPrimitiveExpr k ≠ none) :
    k ≠ Kind.Struct ∧ k ≠ Kind.Ptr ∧ k ≠ Kind.Slice ∧ k ≠ Kind.Array := by
  cases k <;> simp [specPrimitiveExpr] at h ⊢

/-- On a type of primitive kind `CollectType` only marks the type as visited. -/
theorem collectType_primitive (fuel : Nat) (env : Env) (ctx : Context) (t : TypeId)
    (np : List String) (h : specPrimitiveExpr (env.Kind t) ≠ none) :
    CollectType (fuel + 1) env ctx t np =
      (if t ∈ ctx.Cache then ctx else { ctx with Cache := t :: ctx.Cache }, Exec.ret none) := by
  rw [CollectType]
  split
  · rfl
  · cases hk : env.Kind t <;> rw [hk] at h <;> simp [specPrimitiveExpr] at h

/-- On a type of primitive kind the mapper returns the expression of the table and leaves the
context as it is. -/
theorem goTypeToTSType_primitive (fuel : Nat) (env : Env) (ctx : Context) (t : TypeId)
    (fromPtr : Bool) (depth : Nat) (h : specPrimitiveExpr (env.Kind t) ≠ none) :
    GoTypeToTSType (fuel + 1) env ctx t fromPtr depth =
      (ctx, Exec.ret ((specPrimitiveExpr (env.Kind t)).getD "any", fromPtr, none)) := by
  rw [GoTypeToTSType]
  cases hk : env.Kind t <;> rw [hk] at h <;> simp [specPrimitiveExpr] at h <;> rfl

/-- The loop of `CollectFields` over fields of primitive kind: every field that is not
excluded is appended, and the context gains only types of primitive kind in its cache. -/
theorem collectFields_loop_primitive (fuel : Nat) (env : Env) (np : List String)
    (fields : List StructField) :
    (∀ g ∈ fields, specPrimitiveExpr (env.Kind g.Typ) ≠ none) →
    ∀ (c : Context) (s : StructInfo), ∃ c1,
      forEach (CollectFields.field env (CollectType (fuel + 1) env) (CollectFields (fuel + 1) env)
        np) fields (c, s) =
        ((c1, { s with Fields := s.Fields ++
          (fields.filter (fun g => fieldJsonTag g.jsonTag != "-")).map CollectFields.sfield }),
          Exec.ret none) ∧
      c1.Structs = c.Structs ∧ c1.TypeNames = c.TypeNames ∧ c1.config = c.config ∧
      c1.customHeaders = c.customHeaders ∧
      ∀ x ∈ c1.Cache, x ∈ c.Cache ∨ specPrimitiveExpr (env.Kind x) ≠ none := by
  induction fields with
  | nil =>
    intro _ c s
    exact ⟨c, by simp [forEach_nil], rfl, rfl, rfl, rfl, fun x hx => Or.inl hx⟩
  | cons f rest ih =>
    intro hall c s
    have hf := hall f (List.mem_cons_self _ _)
    have hrest : ∀ g ∈ rest, specPrimitiveExpr (env.Kind g.Typ) ≠ none :=
      fun g hg => hall g (List.mem_cons_of_mem _ hg)
    obtain ⟨hs, hp, _, _⟩ := primitive_not_composite hf
    have hfl : CollectFields.flattens env f = false := by
      simp [CollectFields.flattens, hs, hp]
    by_cases hj : (CollectFields.sfield f).JsonTag = "-"
    · have hb : CollectFields.field env (CollectType (fuel + 1) env)
          (CollectFields (fuel + 1) env) np (c, s) f = ((c, s), Exec.ret none) := by
        unfold CollectFields.field
        rw [if_neg (by rw [hfl]; simp), if_pos hj]
      obtain ⟨c1, h1, h2⟩ := ih hrest c s
      have hj2 : (fieldJsonTag f.jsonTag != "-") = false := by
        simpa [CollectFields.sfield] using hj
      refine ⟨c1, ?_, h2⟩
      rw [forEach_cons, hb, if_pos rfl, h1, List.filter_cons_of_neg (by simp [hj2])]
    · have hj2 : (fieldJsonTag f.jsonTag != "-") = true := by
        simpa [CollectFields.sfield] using hj
      by_cases hc : (CollectFields.sfield f).CustomType = ""
      · have hb : CollectFields.field env (CollectType (fuel + 1) env)
            (CollectFields (fuel + 1) env) np (c, s) f =
            ((if f.Typ ∈ c.Cache then c else { c with Cache := f.Typ :: c.Cache },
              s.push (CollectFields.sfield f)), Exec.ret none) := by
          unfold CollectFields.field
          rw [if_neg (by rw [hfl]; simp), if_neg hj, if_pos hc,
            collectType_primitive fuel env _ _ _ hf]
        obtain ⟨c1, h1, h2, h3, h4, h5, h6⟩ := ih hrest
          (if f.Typ ∈ c.Cache then c else { c with Cache := f.Typ :: c.Cache })
          (s.push (CollectFields.sfield f))
        refine ⟨c1, ?_, ?_, ?_, ?_, ?_, ?_⟩
        · rw [forEach_cons, hb, if_pos rfl, h1, List.filter_cons_of_pos (by simp [hj2])]
          simp [StructInfo.push]
        · rw [h2]; split <;> rfl
        · rw [h3]; split <;> rfl
        · rw [h4]; split <;> rfl
        · rw [h5]; split <;> rfl
        · intro x hx
          rcases h6 x hx with h | h
          · split at h
            · exact Or.inl h
            · rcases List.mem_cons.1 h with h | h
              · exact Or.inr (by rw [h]; exact hf)
              · exact Or.inl h
          · exact Or.inr h
      · have hb : CollectFields.field env (CollectType (fuel + 1) env)
            (CollectFields (fuel + 1) env) np (c, s) f =
            ((c, s.push (CollectFields.sfield f)), Exec.ret none) := by
          unfold CollectFields.field
          rw [if_neg (by rw [hfl]; simp), if_neg hj, if_neg hc]
        obtain ⟨c1, h1, h2⟩ := ih hrest c (s.push (CollectFields.sfield f))
        refine ⟨c1, ?_, h2⟩
        rw [forEach_cons, hb, if_pos rfl, h1, List.filter_cons_of_pos (by simp [hj2])]
        simp [StructInfo.push]

end Gotots

namespace Gotots

/-- Collecting, as a root, a named record that is not in the cache and whose fields all have a
primitive kind: `Collect` returns no error, appends to `Structs` the one entry of the record,
and the cache gains the record and types of primitive kind only. -/
theorem collect_flat_root (fuel : Nat) (env : Env) (c : Context) (pfx : String → String)
    (t : TypeId) (hcfg : c.config.FieldPackageNameToPrefix = some pfx)
    (hk : env.Kind t = Kind.Struct) (hn : env.Name t ≠ "") (hp : env.PkgPath t ≠ "")
    (hc : t ∉ c.Cache) (hf : ∀ g ∈ env.Fields t, specPrimitiveExpr (env.Kind g.Typ) ≠ none) :
    ∃ c1, Collect (fuel + 3) env c [some t] = (c1, Exec.ret none) ∧
      c1.Structs = c.Structs ++ [specFlatEntry env pfx t] ∧ c1.config = c.config ∧
      c1.customHeaders = c.customHeaders ∧
      ∀ x ∈ c1.Cache, x ∈ c.Cache ∨ x = t ∨ specPrimitiveExpr (env.Kind x) ≠ none := by
  have hd : env.deref t = t := by
    unfold Env.deref
    rw [if_neg (by rw [hk]; simp)]
  have hcall : ∀ pkg, c.config.callPrefix pkg = Exec.ret (pfx pkg) := by
    intro pkg
    unfold Config.callPrefix
    rw [hcfg]
  obtain ⟨c1, h1, h2, h3, h4, h5, h6⟩ := collectFields_loop_primitive fuel env
    [pfx (env.PkgPath t) ++ env.Name t] (env.Fields t) hf
    { c with Cache := t :: c.Cache,
             TypeNames := (t, pfx (env.PkgPath t) ++ env.Name t) :: c.TypeNames }
    { Typ := t, Fields := [], GeneratedName := pfx (env.PkgPath t) ++ env.Name t }
  have hT : CollectType (fuel + 3) env c t [pfx (env.PkgPath t) ++ env.Name t] =
      ({ c1 with Structs := c1.Structs ++ [specFlatEntry env pfx t] }, Exec.ret none) := by
    rw [CollectType, if_neg hc, hk]
    dsimp only
    rw [if_neg hn, if_neg hp]
    have hcall2 : Config.callPrefix c.config (env.PkgPath t) = Exec.ret (pfx (env.PkgPath t)) :=
      hcall _
    rw [hcall2]
    dsimp only
    rw [collectFields_succ (fuel + 1) env _ _ t _ (by rw [hd]; exact hk), hd, h1]
    simp [specFlatEntry]
  refine ⟨{ c1 with Structs := c1.Structs ++ [specFlatEntry env pfx t] }, ?_, ?_, h4, h5, ?_⟩
  · unfold Collect
    rw [forEach_cons]
    have hr : Collect.root (fuel + 3) env c (some t) =
        ({ c1 with Structs := c1.Structs ++ [specFlatEntry env pfx t] }, Exec.ret none) := by
      unfold Collect.root
      dsimp only
      rw [hd, if_neg hp, hcall]
      exact hT
    rw [hr, if_pos rfl, forEach_nil]
  · dsimp only
    rw [h2]
  · intro x hx
    rcases h6 x hx with h | h
    · rcases List.mem_cons.1 h with h | h
      · exact Or.inr (Or.inl h)
      · exact Or.inl h
    · exact Or.inr (Or.inr h)

/-- The line written for a field of primitive kind. -/
theorem describeStruct_field_flat (fuel : Nat) (env : Env) (c : Context) (w : String)
    (g : StructFieldInfo) (hg : specPrimitiveExpr (env.Kind g.Typ) ≠ none) :
    DescribeStruct.field (fuel + 1) env (c, w) g =
      ((c, w ++ specFieldLine env c.indent g
        (if g.CustomType = "" then (specPrimitiveExpr (env.Kind g.Typ)).getD "any"
          else g.CustomType)), Exec.ret none) := by
  obtain ⟨_, hp, hs, ha⟩ := primitive_not_composite hg
  have hm : specOptionalMark env g = "" := by
    simp [specOptionalMark, Env.isPtrSliceArray, hp, hs, ha]
  unfold DescribeStruct.field
  by_cases hc : g.CustomType = ""
  · rw [if_pos hc, if_pos hc, goTypeToTSType_primitive fuel env c g.Typ false 1 hg]
    simp [specFieldLine, hm]
  · rw [if_neg hc, if_neg hc]
    simp [specFieldLine, hm]

/-- The lines written for the fields of a record whose fields all have a primitive kind. -/
theorem describeStruct_loop_flat (fuel : Nat) (env : Env) (c : Context)
    (gs : List StructFieldInfo) :
    (∀ g ∈ gs, specPrimitiveExpr (env.Kind g.Typ) ≠ none) → ∀ w : String,
    forEach (DescribeStruct.field (fuel + 1) env) gs (c, w) =
      ((c, w ++ concatLines (List.zipWith (specFieldLine env c.indent) gs (specFlatExprs env gs))),
        Exec.ret none) := by
  induction gs with
  | nil =>
    intro _ w
    simp [forEach_nil, specFlatExprs, concatLines]
  | cons g rest ih =>
    intro hall w
    rw [forEach_cons, describeStruct_field_flat fuel env c w g (hall g (List.mem_cons_self _ _)),
      if_pos rfl, ih (fun x hx => hall x (List.mem_cons_of_mem _ hx))]
    simp [specFlatExprs, concatLines, String.append_assoc]

/-- The block written for a record whose fields all have a primitive kind, with its empty
line. -/
theorem block_flat (fuel : Nat) (env : Env) (c : Context) (w : String) (s : StructInfo)
    (hs : ∀ g ∈ s.Fields, specPrimitiveExpr (env.Kind g.Typ) ≠ none) :
    WriteFromContext.block (fuel + 1) env (c, w) s =
      ((c, w ++ specBlock env c.indent s (specFlatExprs env s.Fields)), Exec.ret none) := by
  unfold WriteFromContext.block DescribeStruct
  dsimp only
  rw [describeStruct_loop_flat fuel env c s.Fields hs]
  simp [specBlock, String.append_assoc]

theorem specFlatEntry_fields (env : Env) (pfx : String → String) (t : TypeId)
    (hf : ∀ g ∈ env.Fields t, specPrimitiveExpr (env.Kind g.Typ) ≠ none) :
    ∀ g ∈ (specFlatEntry env pfx t).Fields, specPrimitiveExpr (env.Kind g.Typ) ≠ none := by
  intro g hg
  simp only [specFlatEntry, List.mem_map, List.mem_filter] at hg
  obtain ⟨f, ⟨hm, _⟩, rfl⟩ := hg
  exact hf f hm

/-- C15: for two distinct named record types `T1` and `T2` with a package path, whose fields
all have a primitive kind, and a configuration with a prefix function: `Collect` with `T1` and
then `Collect` with `T2` on a new context both return no error and leave in `Structs` the entry
of `T1` followed by the entry of `T2`; `WriteFromContext` then returns no error and appends to
the writer the declaration block of `T1`, an empty line, the declaration block of `T2` and an
empty line, in that order, and nothing else. -/
theorem C15_two_roots_in_sequence (fuel : Nat) (env : Env) (cfg : Config)
    (pfx : String → String) (T1 T2 : TypeId) (w : String)
    (hcfg : cfg.FieldPackageNameToPrefix = some pfx) (hne : T1 ≠ T2)
    (hk1 : env.Kind T1 = Kind.Struct) (hn1 : env.Name T1 ≠ "") (hp1 : env.PkgPath T1 ≠ "")
    (hk2 : env.Kind T2 = Kind.Struct) (hn2 : env.Name T2 ≠ "") (hp2 : env.PkgPath T2 ≠ "")
    (hf1 : ∀ g ∈ env.Fields T1, specPrimitiveExpr (env.Kind g.Typ) ≠ none)
    (hf2 : ∀ g ∈ env.Fields T2, specPrimitiveExpr (env.Kind g.Typ) ≠ none) :
    ∃ c1 c2,
      Collect (fuel + 3) env (NewContext cfg) [some T1] = (c1, Exec.ret none) ∧
      Collect (fuel + 3) env c1 [some T2] = (c2, Exec.ret none) ∧
      c2.Structs = [specFlatEntry env pfx T1, specFlatEntry env pfx T2] ∧
      c2.Structs.map StructInfo.Typ = [T1, T2] ∧
      WriteFromContext (fuel + 1) env c2 w =
        ((c2, w ++
          specBlock env c2.indent (specFlatEntry env pfx T1)
            (specFlatExprs env (specFlatEntry env pfx T1).Fields) ++
          specBlock env c2.indent (specFlatEntry env pfx T2)
            (specFlatExprs env (specFlatEntry env pfx T2).Fields)), Exec.ret none) := by
  obtain ⟨c1, a1, a2, a3, a4, a5⟩ := collect_flat_root fuel env (NewContext cfg) pfx T1
    hcfg hk1 hn1 hp1 (by simp [NewContext]) hf1
  have hc2 : T2 ∉ c1.Cache := by
    intro hm
    rcases a5 T2 hm with h | h | h
    · simp [NewContext] at h
    · exact hne h.symm
    · rw [hk2] at h
      simp [specPrimitiveExpr] at h
  obtain ⟨c2, b1, b2, b3, b4, _⟩ := collect_flat_root fuel env c1 pfx T2
    (by rw [a3]; exact hcfg) hk2 hn2 hp2 hc2 hf2
  have hS : c2.Structs = [specFlatEntry env pfx T1, specFlatEntry env pfx T2] := by
    rw [b2, a2]
    simp [NewContext]
  have hH : c2.customHeaders = [] := by
    rw [b4, a4]
    rfl
  refine ⟨c1, c2, a1, b1, hS, by rw [hS]; rfl, ?_⟩
  unfold WriteFromContext
  rw [hS, headers_eq_spec, hH, forEach_cons,
    block_flat fuel env c2 _ _ (specFlatEntry_fields env pfx T1 hf1), if_pos rfl, forEach_cons,
    block_flat fuel env c2 _ _ (specFlatEntry_fields env pfx T2 hf2), if_pos rfl, forEach_nil]
  simp [specHeaders, concatLines, String.append_assoc]

end Gotots

namespace Gotots

/-- C15 at the test "Works with multiple types": `T1` and `T2` collected one after the other
into a new context, and the text written after a newline. -/
theorem C15_two_roots_in_sequence_witness :
    (∃ c1 c2,
      Collect 3 twoRootsEnv (NewContext testConfig) [some 2] = (c1, Exec.ret none) ∧
      Collect 3 twoRootsEnv c1 [some 3] = (c2, Exec.ret none) ∧
      c2.Structs = [specFlatEntry twoRootsEnv defaultPrefix 2,
        specFlatEntry twoRootsEnv defaultPrefix 3] ∧
      c2.Structs.map StructInfo.Typ = [2, 3] ∧
      WriteFromContext 1 twoRootsEnv c2 "\n" =
        ((c2, "\n" ++
          specBlock twoRootsEnv c2.indent (specFlatEntry twoRootsEnv defaultPrefix 2)
            (specFlatExprs twoRootsEnv (specFlatEntry twoRootsEnv defaultPrefix 2).Fields) ++
          specBlock twoRootsEnv c2.indent (specFlatEntry twoRootsEnv defaultPrefix 3)
            (specFlatExprs twoRootsEnv (specFlatEntry twoRootsEnv defaultPrefix 3).Fields)),
          Exec.ret none)) ∧
    "\n" ++
      specBlock twoRootsEnv "\t" (specFlatEntry twoRootsEnv defaultPrefix 2)
        (specFlatExprs twoRootsEnv (specFlatEntry twoRootsEnv defaultPrefix 2).Fields) ++
      specBlock twoRootsEnv "\t" (specFlatEntry twoRootsEnv defaultPrefix 3)
        (specFlatExprs twoRootsEnv (specFlatEntry twoRootsEnv defaultPrefix 3).Fields) =
      "\nexport interface Gotots_test_T1 \x7b\n\ta: number;\n\x7d\n\n" ++
        "export interface Gotots_test_T2 \x7b\n\tb: string;\n\x7d\n\n" :=
  ⟨C15_two_roots_in_sequence 0 twoRootsEnv testConfig defaultPrefix 2 3 "\n" rfl (by decide)
    (by decide) (by decide) (by decide) (by decide) (by decide) (by decide) (by decide)
    (by decide), by decide⟩

end Gotots

namespace Gotots

/-! ## The default package prefix -/

theorem char_of_toNat {c : Char} {n : Nat} (h : c.toNat = n) : c = Char.ofNat n := by
  rw [← h, Char.ofNat_toNat]

/-- Replacing the byte of `/` in the encoding of a character is replacing the character. -/
theorem replace_encoded_char (c : Char) :
    (utf8EncodeRune c.toNat).map (fun b => if b = 0x2F then 0x5F else b) =
      utf8EncodeRune (if c = '/' then '_' else c).toNat := by
  by_cases hc : c = '/'
  · subst hc
    decide
  · rw [if_neg hc]
    have hn : c.toNat ≠ 0x2F := fun h => hc (char_of_toNat h)
    unfold utf8EncodeRune
    split
    · simp [hn]
    · split
      · simp only [List.map_cons, List.map_nil]
        rw [if_neg (by omega), if_neg (by omega)]
      · split
        · simp only [List.map_cons, List.map_nil]
          rw [if_neg (by omega), if_neg (by omega), if_neg (by omega)]
        · simp only [List.map_cons, List.map_nil]
          rw [if_neg (by omega), if_neg (by omega), if_neg (by omega), if_neg (by omega)]

/-- Replacing the byte of `/` in the bytes of a text is replacing the character `/`. -/
theorem replace_encoded (cs : List Char) :
    (cs.flatMap (fun c => utf8EncodeRune c.toNat)).map (fun b => if b = 0x2F then 0x5F else b) =
      (cs.map (fun c => if c = '/' then '_' else c)).flatMap (fun c => utf8EncodeRune c.toNat) := by
  induction cs with
  | nil => rfl
  | cons c rest ih =>
    rw [List.flatMap_cons, List.map_append, ih, replace_encoded_char, List.map_cons,
      List.flatMap_cons]

/-- Upper-casing the rune of an ASCII byte is upper-casing the ASCII character. -/
theorem toUpper_ascii (c : Char) (h : c.toNat < 128) :
    toUpperByteRune c.toNat = c.toUpper.toNat ∧ c.toUpper.toNat < 128 := by
  unfold toUpperByteRune Char.toUpper
  dsimp only
  by_cases hr : c.toNat ≥ 97 ∧ c.toNat ≤ 122
  · rw [if_pos hr, if_pos hr]
    have hv : (Char.ofNat (c.toNat - 32)).toNat = c.toNat - 32 := by
      have h1 : (c.toNat - 32).isValidChar := by
        unfold Nat.isValidChar
        omega
      unfold Char.ofNat
      rw [dif_pos h1]
      simp only [Char.ofNatAux, Char.toNat, UInt32.toNat]
      exact BitVec.toNat_ofNatLt _ _
    rw [hv]
    exact ⟨rfl, by omega⟩
  · rw [if_neg hr, if_neg hr, if_neg (by omega), if_neg (by omega), if_neg (by omega)]
    exact ⟨rfl, h⟩

theorem replaced_ascii (c : Char) (h : c.toNat < 128) :
    (if c = '/' then '_' else c).toNat < 128 := by
  split
  · decide
  · exact h

/-- On a text that is empty or starts with an ASCII character, the function installed by
`Config.Init` computes on bytes what `defaultPrefix` computes on characters. -/
theorem defaultPrefix_bytes (pkg : String) (h : ∀ c ∈ pkg.data.head?, c.toNat < 128) :
    defaultPrefixBytes (goBytes pkg) = goBytes (defaultPrefix pkg) := by
  cases pkg with
  | mk data =>
    cases data with
    | nil => decide
    | cons c cs =>
      have hc : c.toNat < 128 := h c rfl
      have hne : (String.mk (c :: cs)) ≠ "" := by
        intro he
        have := congrArg String.data he
        simp at this
      have h1 := replaced_ascii c hc
      obtain ⟨h2, h3⟩ := toUpper_ascii _ h1
      have hb : goBytes (String.mk (c :: cs)) ≠ [] := by
        simp [goBytes, utf8EncodeRune, hc]
      unfold defaultPrefixBytes
      rw [if_neg hb]
      unfold defaultPrefix
      rw [if_neg hne]
      simp only [goBytes, List.flatMap_cons, List.map_append, List.map_cons,
        replace_encoded, replace_encoded_char, String.data_append]
      rw [show utf8EncodeRune (if c = '/' then '_' else c).toNat =
        [(if c = '/' then '_' else c).toNat] from by unfold utf8EncodeRune; rw [if_pos h1]]
      simp only [List.singleton_append, List.flatMap_cons, List.flatMap_append, h2]
      rw [show utf8EncodeRune (if c = '/' then '_' else c).toUpper.toNat =
        [(if c = '/' then '_' else c).toUpper.toNat] from by unfold utf8EncodeRune; rw [if_pos h3]]
      simp
      decide

end Gotots

namespace Gotots

/-- The encoding of a rune does not start with a continuation byte. -/
theorem encoded_head (r : Nat) (rest tail : List Nat) (b : Nat)
    (h : utf8EncodeRune r ++ rest = b :: tail) : b < 0x80 ∨ 0xC0 ≤ b := by
  unfold utf8EncodeRune at h
  split at h
  · simp only [List.singleton_append, List.cons.injEq] at h
    omega
  · split at h
    · simp only [List.cons_append, List.cons.injEq] at h
      omega
    · split at h
      · simp only [List.cons_append, List.cons.injEq] at h
        omega
      · simp only [List.cons_append, List.cons.injEq] at h
        omega

/-- The bytes `C3 83 A9 5F` are not the bytes of any text: after the two bytes of `U+00C3`
comes a continuation byte. -/
theorem not_text_bytes (s : String) : goBytes s ≠ [0xC3, 0x83, 0xA9, 0x5F] := by
  intro h
  cases s with
  | mk data =>
    cases data with
    | nil => simp [goBytes] at h
    | cons c cs =>
      simp only [goBytes, List.flatMap_cons] at h
      have hrest : cs.flatMap (fun c => utf8EncodeRune c.toNat) = [0xA9, 0x5F] := by
        unfold utf8EncodeRune at h
        split at h
        · simp only [List.singleton_append, List.cons.injEq] at h
          omega
        · split at h
          · simp only [List.cons_append, List.cons.injEq, List.nil_append] at h
            exact h.2.2
          · split at h
            · simp only [List.cons_append, List.cons.injEq] at h
              omega
            · simp only [List.cons_append, List.cons.injEq] at h
              omega
      cases cs with
      | nil => simp at hrest
      | cons d ds =>
        rw [List.flatMap_cons] at hrest
        have := encoded_head _ _ _ _ hrest
        omega

end Gotots

namespace Gotots

theorem defaultPrefix_cons (c : Char) (cs : List Char) :
    defaultPrefix (String.mk (c :: cs)) =
      String.mk ((if c = '/' then '_' else c).toUpper ::
        (cs.map (fun c => if c = '/' then '_' else c) ++ ['_'])) := by
  have hne : (String.mk (c :: cs)) ≠ "" := by
    intro he
    have := congrArg String.data he
    simp at this
  unfold defaultPrefix
  rw [if_neg hne]
  apply String.ext
  simp only [List.map_cons, String.data_append]
  rfl

/-- C18 fails on the code for a package identity that starts with a character outside ASCII.
`Init` installs the default function when none is supplied and leaves a supplied one as it
is; the default function returns the empty string for the empty identity and, for an identity
that starts with an ASCII character, the identity with every `/` replaced by `_`, its first
character upper-cased and `_` appended (`gotots_test` gives `Gotots_test_`). For the identity
`é` (bytes `C3 A9`) it upper-cases the rune of the first byte and returns the bytes
`C3 83 A9 5F`, which are not the bytes of `É_`, nor of any text. -/
theorem C18_first_byte_upper_cased :
    (∀ cfg : Config, cfg.FieldPackageNameToPrefix = none →
      (Config.Init cfg).FieldPackageNameToPrefix = some defaultPrefix) ∧
    (∀ (cfg : Config) (f : String → String), cfg.FieldPackageNameToPrefix = some f →
      Config.Init cfg = cfg) ∧
    defaultPrefix "" = "" ∧ defaultPrefixBytes (goBytes "") = goBytes "" ∧
    defaultPrefix "gotots_test" = "Gotots_test_" ∧
    (∀ (c : Char) (cs : List Char), c.toNat < 128 →
      defaultPrefixBytes (goBytes (String.mk (c :: cs))) =
        goBytes (String.mk ((if c = '/' then '_' else c).toUpper ::
          (cs.map (fun c => if c = '/' then '_' else c) ++ ['_'])))) ∧
    goBytes "é" = [0xC3, 0xA9] ∧
    defaultPrefixBytes (goBytes "é") = [0xC3, 0x83, 0xA9, 0x5F] ∧
    goBytes "É_" = [0xC3, 0x89, 0x5F] ∧
    ∀ s : String, goBytes s ≠ defaultPrefixBytes (goBytes "é") := by
  refine ⟨?_, ?_, by decide, by decide, by decide, ?_, by decide, by decide, by decide, ?_⟩
  · intro cfg h
    unfold Config.Init
    rw [h]
  · intro cfg f h
    unfold Config.Init
    rw [h]
  · intro c cs hc
    rw [defaultPrefix_bytes _ (by intro d hd; simp at hd; rw [← hd]; exact hc),
      defaultPrefix_cons]
  · intro s
    rw [show defaultPrefixBytes (goBytes "é") = [0xC3, 0x83, 0xA9, 0x5F] from by decide]
    exact not_text_bytes s

end Gotots

namespace Gotots

/-! ## The order of `Structs` is the order of completion -/

/-- A loop that ends normally follows a fold whose step follows its body. -/
theorem forEach_foldl {σ τ α : Type} (body : σ → α → σ × Exec Error) (step : τ → α → τ)
    (R : σ → τ → Prop)
    (hstep : ∀ s u x s1, R s u → body s x = (s1, Exec.ret none) → R s1 (step u x))
    (xs : List α) :
    ∀ s u s1, R s u → forEach body xs s = (s1, Exec.ret none) → R s1 (xs.foldl step u) := by
  induction xs with
  | nil =>
    intro s u s1 hR h
    rw [forEach_nil] at h
    simp only [Prod.mk.injEq, and_true] at h
    subst h
    exact hR
  | cons x rest ih =>
    intro s u s1 hR h
    obtain ⟨s2, h1, h2⟩ := forEach_cons_ok h
    exact ih s2 (step u x) s1 (hstep s u x s2 hR h1) h2

/-- The loop body of `CollectFields` follows the step of the post-order traversal. -/
theorem collectFields_field_postOrder (env : Env)
    (collectType : Context → TypeId → List String → Context × Exec Error)
    (collectFields : Context → StructInfo → TypeId → List String →
      (Context × StructInfo) × Exec Error)
    (visit fields : List TypeId → TypeId → List TypeId × List TypeId)
    (hT : ∀ c t np c1, collectType c t np = (c1, Exec.ret none) →
      c1.Cache = (visit c.Cache t).1 ∧
      c1.Structs.map StructInfo.Typ = c.Structs.map StructInfo.Typ ++ (visit c.Cache t).2)
    (hF : ∀ c s t np st1, collectFields c s t np = (st1, Exec.ret none) →
      st1.1.Cache = (fields c.Cache t).1 ∧
      st1.1.Structs.map StructInfo.Typ = c.Structs.map StructInfo.Typ ++ (fields c.Cache t).2)
    (base : List TypeId) (namePath : List String) (st st1 : Context × StructInfo)
    (u : List TypeId × List TypeId) (field : StructField)
    (hR : st.1.Cache = u.1 ∧ st.1.Structs.map StructInfo.Typ = base ++ u.2)
    (h : CollectFields.field env collectType collectFields namePath st field =
      (st1, Exec.ret none)) :
    st1.1.Cache = (specPostOrder.field env visit fields u field).1 ∧
    st1.1.Structs.map StructInfo.Typ =
      base ++ (specPostOrder.field env visit fields u field).2 := by
  obtain ⟨hc, hs⟩ := hR
  unfold CollectFields.field at h
  unfold specPostOrder.field
  split at h
  · rename_i hfl
    obtain ⟨a, b⟩ := hF _ _ _ _ _ h
    rw [if_pos hfl]
    rw [hc] at a b
    exact ⟨a, by rw [b, hs, List.append_assoc]⟩
  · rename_i hfl
    rw [if_neg hfl]
    split at h
    · rename_i hj
      simp only [Prod.mk.injEq, and_true] at h
      subst h
      rw [if_pos hj]
      exact ⟨hc, hs⟩
    · rename_i hj
      rw [if_neg hj]
      split at h
      · rename_i hct
        rw [if_pos (show field.tstypeTag = "" from hct)]
        split at h
        · rename_i ctx1 heq
          obtain ⟨a, b⟩ := hT _ _ _ _ heq
          simp only [Prod.mk.injEq, and_true] at h
          subst h
          rw [hc] at a b
          exact ⟨a, by rw [b, hs, List.append_assoc]⟩
        · rename_i ctx1 r hne heq
          simp only [Prod.mk.injEq] at h
          exact absurd h.2 hne
      · rename_i hct
        rw [if_neg (show ¬ field.tstypeTag = "" from hct)]
        simp only [Prod.mk.injEq, and_true] at h
        subst h
        exact ⟨hc, hs⟩

/-- When `CollectType` or `CollectFields` returns without error, the cache it leaves is the
visited set of the post-order traversal and the entries it has appended to `Structs` are, in
that order, the named record types in the order in which the traversal completes them. -/
theorem collect_postOrder : ∀ fuel : Nat,
    (∀ env ctx t np ctx1, CollectType fuel env ctx t np = (ctx1, Exec.ret none) →
      ctx1.Cache = (specPostOrder fuel env ctx.Cache t).1 ∧
      ctx1.Structs.map StructInfo.Typ =
        ctx.Structs.map StructInfo.Typ ++ (specPostOrder fuel env ctx.Cache t).2) ∧
    (∀ env ctx sinfo t np st1, CollectFields fuel env ctx sinfo t np = (st1, Exec.ret none) →
      st1.1.Cache = (specPostOrderFields fuel env ctx.Cache t).1 ∧
      st1.1.Structs.map StructInfo.Typ =
        ctx.Structs.map StructInfo.Typ ++ (specPostOrderFields fuel env ctx.Cache t).2) := by
  intro fuel
  induction fuel with
  | zero =>
    constructor
    · intro env ctx t np ctx1 h
      rw [CollectType] at h
      simp at h
    · intro env ctx sinfo t np st1 h
      rw [CollectFields] at h
      simp at h
  | succ fuel ih =>
    obtain ⟨ihT, ihF⟩ := ih
    constructor
    · intro env ctx t np ctx1 h
      rw [CollectType] at h
      rw [specPostOrder]
      split at h
      · rename_i hc
        simp only [Prod.mk.injEq, and_true] at h
        subst h
        rw [if_pos hc]
        simp
      · rename_i hc
        rw [if_neg hc]
        dsimp only at h
        cases hk : env.Kind t <;> rw [hk] at h <;> dsimp only at h ⊢
        case Ptr | Slice | Array =>
          exact ihT _ _ _ _ _ h
        case Map =>
          split at h
          · rename_i ctx2 heq
            obtain ⟨a1, b1⟩ := ihT _ _ _ _ _ heq
            obtain ⟨a2, b2⟩ := ihT _ _ _ _ _ h
            dsimp only at a1 b1
            rw [a1] at a2 b2
            exact ⟨a2, by rw [b2, b1, List.append_assoc]⟩
          · rename_i ctx2 r hne heq
            simp only [Prod.mk.injEq] at h
            exact absurd h.2 hne
        case Struct =>
          split at h
          · rename_i hn
            simp only [Prod.mk.injEq, and_true] at h
            subst h
            rw [if_pos hn]
            simp
          · rename_i hn
            rw [if_neg hn]
            split at h
            · rename_i pkgPrefix hp
              split at h
              · rename_i ctx3 sinfo heq
                obtain ⟨a, b⟩ := ihF _ _ _ _ _ _ heq
                have hs := (collectFields_step fuel env
                  { ctx with Cache := t :: ctx.Cache,
                             TypeNames := (t, pkgPrefix ++ env.Name t) :: ctx.TypeNames }
                  { Typ := t, Fields := [], GeneratedName := pkgPrefix ++ env.Name t } t np).2
                rw [heq] at hs
                have hty : sinfo.Typ = t := hs.typ
                simp only [Prod.mk.injEq, and_true] at h
                subst h
                dsimp only at a b ⊢
                exact ⟨a, by
                  rw [List.map_append, b, List.map_cons, List.map_nil, hty, List.append_assoc]⟩
              · rename_i ctx3 s r hne heq
                simp only [Prod.mk.injEq] at h
                exact absurd h.2 hne
            all_goals simp at h
        all_goals
          simp only [Prod.mk.injEq, and_true] at h
          subst h
          simp
    · intro env ctx sinfo t np st1 h
      rw [CollectFields] at h
      rw [specPostOrderFields]
      split at h
      · exact forEach_foldl _ _
          (fun (s : Context × StructInfo) (u : List TypeId × List TypeId) =>
            s.1.Cache = u.1 ∧
            s.1.Structs.map StructInfo.Typ = ctx.Structs.map StructInfo.Typ ++ u.2)
          (fun s u x s1 hR hb => collectFields_field_postOrder env _ _ _ _
            (ihT env) (ihF env) _ np s s1 u x hR hb)
          _ (ctx, sinfo) (ctx.Cache, []) st1 ⟨rfl, by simp⟩ h
      · simp at h

/-- One root of `Collect` follows one step of the traversal of the roots. -/
theorem collect_root_postOrder (fuel : Nat) (env : Env) (ctx ctx1 : Context)
    (root : Option TypeId) (h : Collect.root fuel env ctx root = (ctx1, Exec.ret none)) :
    ∃ ty, root = some ty ∧ ctx1.Cache = (specPostOrder fuel env ctx.Cache (env.deref ty)).1 ∧
      ctx1.Structs.map StructInfo.Typ = ctx.Structs.map StructInfo.Typ ++
        (specPostOrder fuel env ctx.Cache (env.deref ty)).2 := by
  unfold Collect.root at h
  split at h
  · simp at h
  · rename_i ty
    split at h
    · simp at h
    · split at h
      · exact ⟨ty, rfl, (collect_postOrder fuel).1 _ _ _ _ _ h⟩
      · simp at h
      · simp at h

/-- A loop whose body is replaced by one that agrees with it wherever it does not run out of
call depth gives the same result, when it does not run out of call depth. -/
theorem forEach_congr_ok {σ α : Type} (body body1 : σ → α → σ × Exec Error)
    (hb : ∀ s x, (body s x).2 ≠ Exec.timeout → body1 s x = body s x) (xs : List α) :
    ∀ s, (forEach body xs s).2 ≠ Exec.timeout → forEach body1 xs s = forEach body xs s := by
  induction xs with
  | nil => intro s _; rfl
  | cons x rest ih =>
    intro s h
    rw [forEach_cons] at h ⊢
    rw [forEach_cons]
    by_cases hr : (body s x).2 = Exec.ret none
    · rw [if_pos hr] at h
      rw [hb s x (by rw [hr]; simp), if_pos hr, if_pos hr]
      exact ih _ h
    · rw [if_neg hr] at h
      rw [hb s x h, if_neg hr, if_neg hr]

theorem collectFields_field_deeper (env : Env)
    (cT cT1 : Context → TypeId → List String → Context × Exec Error)
    (cF cF1 : Context → StructInfo → TypeId → List String → (Context × StructInfo) × Exec Error)
    (hT : ∀ c t np, (cT c t np).2 ≠ Exec.timeout → cT1 c t np = cT c t np)
    (hF : ∀ c s t np, (cF c s t np).2 ≠ Exec.timeout → cF1 c s t np = cF c s t np)
    (np : List String) (st : Context × StructInfo) (f : StructField)
    (h : (CollectFields.field env cT cF np st f).2 ≠ Exec.timeout) :
    CollectFields.field env cT1 cF1 np st f = CollectFields.field env cT cF np st f := by
  unfold CollectFields.field at h ⊢
  split
  · rename_i hfl
    rw [if_pos hfl] at h
    exact hF _ _ _ _ h
  · rename_i hfl
    rw [if_neg hfl] at h
    split
    · rfl
    · rename_i hj
      rw [if_neg hj] at h
      split
      · rename_i hct
        rw [if_pos hct] at h
        have hne : (cT st.1 f.Typ (fieldNamePath env np f)).2 ≠ Exec.timeout := by
          intro ht
          apply h
          split
          · rename_i heq
            rw [heq] at ht
            simp at ht
          · rename_i heq
            rw [heq] at ht
            exact ht
        rw [hT _ _ _ hne]
      · rfl

/-- One more level of call depth does not change a result that was reached. -/
theorem collect_deeper : ∀ fuel : Nat,
    (∀ env ctx t np, (CollectType fuel env ctx t np).2 ≠ Exec.timeout →
      CollectType (fuel + 1) env ctx t np = CollectType fuel env ctx t np) ∧
    (∀ env ctx sinfo t np, (CollectFields fuel env ctx sinfo t np).2 ≠ Exec.timeout →
      CollectFields (fuel + 1) env ctx sinfo t np = CollectFields fuel env ctx sinfo t np) := by
  intro fuel
  induction fuel with
  | zero =>
    constructor
    · intro env ctx t np h
      rw [CollectType] at h
      exact absurd rfl h
    · intro env ctx sinfo t np h
      rw [CollectFields] at h
      exact absurd rfl h
  | succ fuel ih =>
    obtain ⟨ihT, ihF⟩ := ih
    constructor
    · intro env ctx t np h
      conv_lhs => rw [CollectType]
      conv_rhs => rw [CollectType]
      rw [CollectType] at h
      split
      · rfl
      · rename_i hc
        rw [if_neg hc] at h
        dsimp only at h ⊢
        cases hk : env.Kind t <;> rw [hk] at h <;> dsimp only at h ⊢
        case Ptr | Slice | Array =>
          exact ihT _ _ _ _ h
        case Map =>
          have hne : (CollectType fuel env { ctx with Cache := t :: ctx.Cache } (env.Key t)
              np).2 ≠ Exec.timeout := by
            intro ht
            apply h
            split
            · rename_i heq
              rw [heq] at ht
              simp at ht
            · rename_i heq
              rw [heq] at ht
              exact ht
          rw [ihT _ _ _ _ hne]
          split
          · rename_i ctx2 heq
            rw [heq] at h
            exact ihT _ _ _ _ h
          · rfl
        case Struct =>
          split
          · rfl
          · rename_i hn
            rw [if_neg hn] at h
            split
            · rename_i pkgPrefix hp
              rw [hp] at h
              dsimp only at h
              have hne : (CollectFields fuel env
                  { ctx with Cache := t :: ctx.Cache,
                             TypeNames := (t, pkgPrefix ++ env.Name t) :: ctx.TypeNames }
                  { Typ := t, Fields := [], GeneratedName := pkgPrefix ++ env.Name t }
                  t np).2 ≠ Exec.timeout := by
                intro ht
                apply h
                split
                · rename_i heq
                  rw [heq] at ht
                  simp at ht
                · rename_i heq
                  rw [heq] at ht
                  exact ht
              rw [ihF _ _ _ _ _ hne]
            · rfl
            · rfl
    · intro env ctx sinfo t np h
      conv_lhs => rw [CollectFields]
      conv_rhs => rw [CollectFields]
      rw [CollectFields] at h
      split
      · rename_i hk
        rw [if_pos hk] at h
        exact forEach_congr_ok _ _
          (fun s x hx => collectFields_field_deeper env _ _ _ _ (ihT env) (ihF env) np s x hx)
          _ _ h
      · rfl

/-- A result that was reached is the result at every larger call depth. -/
theorem collectType_deeper_add (fuel : Nat) (env : Env) (ctx : Context) (t : TypeId)
    (np : List String) (h : (CollectType fuel env ctx t np).2 ≠ Exec.timeout) (k : Nat) :
    CollectType (fuel + k) env ctx t np = CollectType fuel env ctx t np := by
  induction k with
  | zero => rfl
  | succ k ih =>
    rw [← Nat.add_assoc, (collect_deeper (fuel + k)).1 env ctx t np (by rw [ih]; exact h), ih]

theorem collect_root_deeper (fuel : Nat) (env : Env) (ctx : Context) (root : Option TypeId)
    (k : Nat) (h : (Collect.root fuel env ctx root).2 ≠ Exec.timeout) :
    Collect.root (fuel + k) env ctx root = Collect.root fuel env ctx root := by
  cases root with
  | none => rfl
  | some ty =>
    unfold Collect.root at h ⊢
    dsimp only at h ⊢
    by_cases hp : env.PkgPath (env.deref ty) = ""
    · rw [if_pos hp, if_pos hp]
    · rw [if_neg hp] at h
      rw [if_neg hp, if_neg hp]
      cases hc : ctx.config.callPrefix (env.PkgPath (env.deref ty)) with
      | ret p =>
        rw [hc] at h
        dsimp only at h ⊢
        exact collectType_deeper_add fuel env ctx _ _ h k
      | panic m => rfl
      | timeout => rfl

/-- A result of `Collect` that was reached is its result at every larger call depth. -/
theorem collect_deeper_add (fuel : Nat) (env : Env) (ctx : Context)
    (roots : List (Option TypeId)) (k : Nat)
    (h : (Collect fuel env ctx roots).2 ≠ Exec.timeout) :
    Collect (fuel + k) env ctx roots = Collect fuel env ctx roots := by
  unfold Collect at h ⊢
  exact forEach_congr_ok _ _ (fun s x hx => collect_root_deeper fuel env s x k hx) roots ctx h

/-- The roots of `Collect` follow the traversal of the roots. -/
theorem collect_roots_postOrder (fuel : Nat) (env : Env) (ctx ctx1 : Context)
    (roots : List (Option TypeId))
    (h : Collect fuel env ctx roots = (ctx1, Exec.ret none)) :
    ctx1.Structs.map StructInfo.Typ =
      ctx.Structs.map StructInfo.Typ ++ (specPostOrderRoots fuel env ctx.Cache roots).2 ∧
    ctx1.Cache = (specPostOrderRoots fuel env ctx.Cache roots).1 := by
  unfold Collect at h
  unfold specPostOrderRoots
  have := forEach_foldl (Collect.root fuel env)
    (fun (st : List TypeId × List TypeId) (root : Option TypeId) =>
      match root with
      | some ty =>
        ((specPostOrder fuel env st.1 (env.deref ty)).1,
          st.2 ++ (specPostOrder fuel env st.1 (env.deref ty)).2)
      | none => st)
    (fun (c : Context) (u : List TypeId × List TypeId) =>
      c.Cache = u.1 ∧ c.Structs.map StructInfo.Typ = ctx.Structs.map StructInfo.Typ ++ u.2)
    (by
      intro s u x s1 hR hb
      obtain ⟨ty, rfl, a, b⟩ := collect_root_postOrder fuel env s s1 x hb
      obtain ⟨hc, hs⟩ := hR
      dsimp only
      rw [hc] at a b
      exact ⟨a, by rw [b, hs, List.append_assoc]⟩)
    roots ctx (ctx.Cache, []) ctx1 ⟨rfl, by simp⟩ h
  exact ⟨this.2, this.1⟩

/-- C6 (amended): when `Collect` returns without error, the entries that were in `Structs`
keep their places, and the entries appended are, in that order, the named record types in the
order in which the depth-first traversal of the roots, taken in the order given, completes
them (post-order): the entry of a record stands after the entries of the record types first
visited below its fields, and these stand in the order of the fields. On a new context
`Structs` is exactly that list. Neither the result nor the list depends on the call depth
allowed, once it is enough for `Collect` to return. -/
theorem C6_completion_order (fuel : Nat) (env : Env) (ctx ctx1 : Context)
    (roots : List (Option TypeId))
    (h : Collect fuel env ctx roots = (ctx1, Exec.ret none)) :
    ctx1.Structs.map StructInfo.Typ =
      ctx.Structs.map StructInfo.Typ ++ (specPostOrderRoots fuel env ctx.Cache roots).2 ∧
    ctx1.Cache = (specPostOrderRoots fuel env ctx.Cache roots).1 ∧
    ∀ k, Collect (fuel + k) env ctx roots = (ctx1, Exec.ret none) ∧
      specPostOrderRoots (fuel + k) env ctx.Cache roots =
        specPostOrderRoots fuel env ctx.Cache roots := by
  have hmain := collect_roots_postOrder fuel env ctx ctx1 roots h
  refine ⟨hmain.1, hmain.2, ?_⟩
  intro k
  have hk : Collect (fuel + k) env ctx roots = (ctx1, Exec.ret none) := by
    rw [collect_deeper_add fuel env ctx roots k (by rw [h]; simp), h]
  have hmk := collect_roots_postOrder (fuel + k) env ctx ctx1 roots hk
  refine ⟨hk, Prod.ext (hmk.2.symm.trans hmain.2) ?_⟩
  exact List.append_cancel_left (hmk.1.symm.trans hmain.1)

end Gotots

namespace Gotots

/-- C6 at `type R struct { FA A; FB B }` and at the test types: on a new context `Structs` is
`A`, `B`, `R` for the root `R`, and `Employee`, `Department` for the root `Department`. -/
theorem C6_completion_order_witness :
    (Collect 5 siblingsEnv (NewContext testConfig) [some 3]).1.Structs.map StructInfo.Typ =
      (NewContext testConfig).Structs.map StructInfo.Typ ++
        (specPostOrderRoots 5 siblingsEnv (NewContext testConfig).Cache [some 3]).2 ∧
    (specPostOrderRoots 5 siblingsEnv [] [some 3]).2 = [1, 2, 3] ∧
    (Collect 20 testEnv (NewContext testConfig) [some 6]).1.Structs.map StructInfo.Typ =
      (NewContext testConfig).Structs.map StructInfo.Typ ++
        (specPostOrderRoots 20 testEnv (NewContext testConfig).Cache [some 6]).2 ∧
    (specPostOrderRoots 20 testEnv [] [some 6]).2 = [19, 6] :=
  ⟨(C6_completion_order 5 siblingsEnv (NewContext testConfig) _ [some 3]
      (Prod.ext rfl (by decide))).1, by decide,
    (C6_completion_order 20 testEnv (NewContext testConfig) _ [some 6]
      (Prod.ext rfl (by decide))).1, by decide⟩

end Gotots
